import Mathlib

/-! secure_iot: the cloud task (cloud_task.c, board_funcs.c), the command task
(command_task.c) and the end of a game of tic-tac-toe (tictactoe.c).

A shallow embedding of the cloud synchronisation task and of the console of the
TM4C129 secure IoT demo.  C `char` buffers are lists of `Char` (one `Char` per
byte, `'\x00'` is the terminator), `uint32_t` values are `Nat` reduced modulo
`2 ^ 32`, `int32_t` values are `Int`.  The peripherals and the HTTP client library appear as
explicit inputs of the functions that call them.
-/

namespace SecureIot

/-! ## C library helpers -/

/-- The terminator of a C string. -/
def NUL : Char := Char.ofNat 0

/-- The C string stored at the start of a memory region: the bytes before the
first terminator. -/
def cstr (mem : List Char) : List Char :=
  mem.takeWhile (fun c => c != NUL)

/-- Wrap-around of `uint32_t` arithmetic. -/
def u32 (n : Nat) : Nat := n % 2 ^ 32

/-- The subtraction `a - b` of two `uint32_t` values. -/
def u32sub (a b : Nat) : Nat := (a % 2 ^ 32 + 2 ^ 32 - b % 2 ^ 32) % 2 ^ 32

/-- Overwrite memory `mem` from offset `off` with the bytes `xs`.  A write that
reaches past the end of `mem` lands in the memory that follows it, which the
result then shows. -/
def writeAt (mem : List Char) (off : Nat) (xs : List Char) : List Char :=
  (mem ++ List.replicate (off - mem.length) NUL).take off ++ xs ++ mem.drop (off + xs.length)

/-- The call `snprintf(mem + off, size, ...)` whose fully formatted output is
`s`: at most `size - 1` bytes of `s` and a terminator are stored (nothing when
`size` is zero) and the length of `s` is returned. -/
def snprintf (mem : List Char) (off size : Nat) (s : List Char) : List Char × Nat :=
  if size = 0 then (mem, s.length)
  else (writeAt mem off (s.take (size - 1) ++ [NUL]), s.length)

/-- Conversion `%u` of an `unsigned int` argument. -/
def fmt_u (n : Nat) : List Char := Nat.toDigits 10 (n % 2 ^ 32)

/-- Conversion `%d` applied to a `uint32_t` argument: the 32 bits are read as a
two's complement `int`. -/
def fmt_d (n : Nat) : List Char :=
  if n % 2 ^ 32 < 2 ^ 31 then Nat.toDigits 10 (n % 2 ^ 32)
  else '-' :: Nat.toDigits 10 (2 ^ 32 - n % 2 ^ 32)

/-- Conversion `%x` of a `uint32_t` argument. -/
def fmt_x (n : Nat) : List Char := Nat.toDigits 16 (n % 2 ^ 32)

/-! ## Types of cloud_task.h -/

/-- Write/Read status of an alias to/from the cloud server. -/
inductive tReadWriteType where
  | READ_ONLY
  | WRITE_ONLY
  | READ_WRITE
  | NONE
  deriving DecidableEq, Repr

open tReadWriteType

/-- Cloud connection states: a C enum, held in a variable that is also assigned
from the request code of a mailbox message. -/
abbrev tCloudState := Nat

def Cloud_Server_Connect : tCloudState := 0
def Cloud_Activate_CIK : tCloudState := 1
def Cloud_Sync : tCloudState := 2
def Cloud_Proxy_Set : tCloudState := 3
def Cloud_Idle : tCloudState := 4

def MAC_ADDRESS_LENGTH : Nat := 12
def EXOSITE_LENGTH : Nat := 65
def EXOSITE_CIK_LENGTH : Nat := 40
def ALIAS_PROCESSING : Nat := 3
def VALUEBUF_SIZE : Nat := 40
def BIOS_TICK_RATE : Nat := 1000

/-- The global resources of cloud_task.c together with the function-static
variables of `ReadOnTime`, the EEPROM region of the CIK, the two board LEDs
and the time spent in `Task_sleep`. -/
structure Globals where
  g_pcExositeCIK : List Char
  g_pcMACAddress : List Char
  g_ui32BoardState : Nat
  g_eBoardStaeRW : tReadWriteType
  g_ui32LEDD1 : Nat
  g_ui32LastLEDD1 : Nat
  g_eLEDD1RW : tReadWriteType
  g_pcEmail : List Char
  g_eEmailRW : tReadWriteType
  g_pcAlert : List Char
  g_eAlertRW : tReadWriteType
  g_ui32State : tCloudState
  g_bServerConnect : Bool
  g_pcIP : List Char
  g_bProxy : Bool
  ui32Seconds : Nat
  ui32PrevTicks : Nat
  eepromCIK : List Char
  boardLED0 : Bool
  boardLED1 : Nat
  sleepMs : Nat
  deriving DecidableEq, Repr

/-- The readings `GetRequestBody` takes from the board: the junction
temperature, the two button counters and the tick counter. -/
structure BoardInputs where
  ui16Temp : Nat
  sw1 : Nat
  sw2 : Nat
  ticks : Nat
  deriving DecidableEq, Repr

/-! ## Attribute store: outbound body -/

/-- Returns time since reset, in seconds; updates the two static variables. -/
def ReadOnTime (g : Globals) (ui32Ticks : Nat) : Nat × Globals :=
  let ui32Seconds :=
    if ui32Ticks > g.ui32PrevTicks then
      u32 (g.ui32Seconds + u32sub ui32Ticks g.ui32PrevTicks / BIOS_TICK_RATE)
    else
      u32 (g.ui32Seconds + u32 (u32sub 0xFFFFFFFF g.ui32PrevTicks + ui32Ticks) / BIOS_TICK_RATE)
  (ui32Seconds, { g with ui32Seconds := ui32Seconds, ui32PrevTicks := ui32Ticks })

/-- One statement `ui32DataLen += snprintf(pcDataBuf + ui32DataLen,
ui32DataBufLen - ui32DataLen, ...)` on the pair of the buffer memory and the
running length. -/
def snprintf_at (st : List Char × Nat) (ui32DataBufLen : Nat) (s : List Char) :
    List Char × Nat :=
  let r := snprintf st.1 st.2 (u32sub ui32DataBufLen st.2) s
  (r.1, u32 (st.2 + r.2))

/-- The part of `GetRequestBody` that fills `pcDataBuf`: the successive
`snprintf` calls, with the running length `ui32DataLen`. -/
def GetRequestBody_fill (g : Globals) (pcDataBuf : List Char) (ui32DataBufLen : Nat)
    (ui16Temp sw1 sw2 ui32OnTime : Nat) : List Char × Nat :=
  let r := snprintf pcDataBuf 0 ui32DataBufLen
    ("usrsw1=".toList ++ fmt_d sw1 ++ "&usrsw2=".toList ++ fmt_d sw2)
  let st : List Char × Nat := (r.1, u32 r.2)
  let st := snprintf_at st ui32DataBufLen ("&jtemp=".toList ++ fmt_u ui16Temp)
  let st := snprintf_at st ui32DataBufLen ("&ontime=".toList ++ fmt_d ui32OnTime)
  let st :=
    if g.g_eBoardStaeRW = READ_WRITE ∨ g.g_eBoardStaeRW = WRITE_ONLY then
      snprintf_at st ui32DataBufLen ("&gamestate=0x".toList ++ fmt_x g.g_ui32BoardState)
    else st
  let st :=
    if g.g_eLEDD1RW = READ_WRITE ∨ g.g_eLEDD1RW = WRITE_ONLY then
      snprintf_at st ui32DataBufLen ("&ledd1=".toList ++ fmt_d g.g_ui32LEDD1)
    else st
  let st :=
    if g.g_eEmailRW = READ_WRITE ∨ g.g_eEmailRW = WRITE_ONLY then
      snprintf_at st ui32DataBufLen ("&emailaddr=".toList ++ cstr g.g_pcEmail)
    else st
  if g.g_eAlertRW = READ_WRITE ∨ g.g_eAlertRW = WRITE_ONLY then
    snprintf_at st ui32DataBufLen ("&alert=".toList ++ cstr g.g_pcAlert)
  else st

/-- The mode updates at the end of `GetRequestBody`. -/
def GetRequestBody_demote (g : Globals) : Globals :=
  let g := if g.g_eLEDD1RW = READ_WRITE then { g with g_eLEDD1RW := READ_ONLY } else g
  let g := if g.g_eBoardStaeRW = READ_WRITE then { g with g_eBoardStaeRW := READ_ONLY } else g
  let g := if g.g_eEmailRW = READ_WRITE then { g with g_eEmailRW := READ_ONLY } else g
  if g.g_eAlertRW = READ_WRITE then { g with g_eAlertRW := NONE } else g

/-- Builds the Request Body for the POST request: returns the memory of
`pcDataBuf` after the call and the updated globals. -/
def GetRequestBody (g : Globals) (hw : BoardInputs) (pcDataBuf : List Char)
    (ui32DataBufLen : Nat) : List Char × Globals :=
  let t := ReadOnTime g hw.ticks
  let g := t.2
  let r := GetRequestBody_fill g pcDataBuf ui32DataBufLen hw.ui16Temp hw.sw1 hw.sw2 t.1
  (r.1, GetRequestBody_demote g)

/-- The outbound body the attribute store describes: the four fields that are
always sent, then one `&name=value` segment for each of gamestate, ledd1,
emailaddr and alert whose mode is READ_WRITE or WRITE_ONLY. -/
def outboundBody (g : Globals) (ui16Temp sw1 sw2 ui32OnTime : Nat) : List Char :=
  "usrsw1=".toList ++ fmt_d sw1 ++ "&usrsw2=".toList ++ fmt_d sw2
    ++ ("&jtemp=".toList ++ fmt_u ui16Temp)
    ++ ("&ontime=".toList ++ fmt_d ui32OnTime)
    ++ (if g.g_eBoardStaeRW = READ_WRITE ∨ g.g_eBoardStaeRW = WRITE_ONLY
        then "&gamestate=0x".toList ++ fmt_x g.g_ui32BoardState else [])
    ++ (if g.g_eLEDD1RW = READ_WRITE ∨ g.g_eLEDD1RW = WRITE_ONLY
        then "&ledd1=".toList ++ fmt_d g.g_ui32LEDD1 else [])
    ++ (if g.g_eEmailRW = READ_WRITE ∨ g.g_eEmailRW = WRITE_ONLY
        then "&emailaddr=".toList ++ cstr g.g_pcEmail else [])
    ++ (if g.g_eAlertRW = READ_WRITE ∨ g.g_eAlertRW = WRITE_ONLY
        then "&alert=".toList ++ cstr g.g_pcAlert else [])

/-! ## Attribute store: inbound query and response -/

/-- The alias values requested from Exosite server with GET request. -/
def g_ppcGETAlias : List (List Char) :=
  ["ledd1".toList, "emailaddr".toList, "gamestate".toList]

/-- Builds the Alias List that can be sent with the GET request: returns the
memory of `pcDataBuf` after the call. -/
def GetAliasList (g : Globals) (pcDataBuf : List Char) (ui32DataBufLen : Nat) : List Char :=
  let r := snprintf pcDataBuf 0 ui32DataBufLen "?location".toList
  let st : List Char × Nat := (r.1, u32 r.2)
  let st := if g.g_eLEDD1RW = READ_ONLY then snprintf_at st ui32DataBufLen "&ledd1".toList else st
  let st :=
    if g.g_eBoardStaeRW = READ_ONLY then snprintf_at st ui32DataBufLen "&gamestate".toList else st
  let st :=
    if g.g_eEmailRW = READ_ONLY then snprintf_at st ui32DataBufLen "&emailaddr".toList else st
  st.1

/-- Update cloud data: drive the board LED from `g_ui32LEDD1` when it changed. -/
def UpdateCloudData (g : Globals) : Globals :=
  if g.g_ui32LEDD1 ≠ g.g_ui32LastLEDD1 then
    { g with g_ui32LastLEDD1 := g.g_ui32LEDD1, boardLED0 := decide (g.g_ui32LEDD1 ≠ 0) }
  else g

/-- The call `strstr(hay, needle)` on C strings: the part of `hay` from the
first occurrence of `needle` on, if there is one. -/
def strstr : List Char → List Char → Option (List Char)
  | [], needle => if needle = [] then some [] else none
  | c :: t, needle =>
    if needle.isPrefixOf (c :: t) then some (c :: t) else strstr t needle

/-- The call `strncpy(dst, src, n)`: the string at `src` cut to `n` bytes and
padded with terminators up to `n` bytes is stored at the start of `dst`. -/
def strncpy (dst src : List Char) (n : Nat) : List Char :=
  let s := (cstr src).take n
  writeAt dst 0 (s ++ List.replicate (n - s.length) NUL)

/-- The test `strncmp(a, b, n) == 0`. -/
def strncmp_eq (a b : List Char) (n : Nat) : Bool :=
  (cstr a).take n == (cstr b).take n

/-- The characters `isspace` accepts in the C locale. -/
def isspace (c : Char) : Bool :=
  c == ' ' || (9 ≤ c.toNat && c.toNat ≤ 13)

/-- The value of a digit of `strtoul`, letters standing for 10 to 35. -/
def digitVal (c : Char) : Option Nat :=
  if '0' ≤ c ∧ c ≤ '9' then some (c.toNat - '0'.toNat)
  else if 'a' ≤ c ∧ c ≤ 'z' then some (c.toNat - 'a'.toNat + 10)
  else if 'A' ≤ c ∧ c ≤ 'Z' then some (c.toNat - 'A'.toNat + 10)
  else none

/-- The digits of `strtoul` in base `base`: the value of the longest prefix of
valid digits, continuing from `acc`. -/
def strtoul_digits (base : Nat) : List Char → Nat → Nat
  | [], acc => acc
  | c :: t, acc =>
    match digitVal c with
    | some d => if d < base then strtoul_digits base t (acc * base + d) else acc
    | none => acc

/-- The call `strtoul(s, NULL, 0)` with a 32-bit `unsigned long`: white space,
an optional sign, a prefix `0x` (hexadecimal) or `0` (octal), the digits; a
value out of range gives `ULONG_MAX` and a minus sign negates modulo `2 ^ 32`. -/
def strtoul0 (s : List Char) : Nat :=
  let s := s.dropWhile isspace
  let neg := s.head? = some '-'
  let s := if s.head? = some '-' ∨ s.head? = some '+' then s.tail else s
  let v :=
    match s with
    | '0' :: x :: h :: t =>
      if (x = 'x' ∨ x = 'X') ∧ (digitVal h).any (fun d => decide (d < 16)) then
        strtoul_digits 16 (h :: t) 0
      else strtoul_digits 8 (x :: h :: t) 0
    | '0' :: t => strtoul_digits 8 t 0
    | _ => strtoul_digits 10 s 0
  if v > 0xFFFFFFFF then 0xFFFFFFFF
  else if neg then u32sub 0 v else v

/-- The `while(j < VALUEBUF_SIZE)` loop of `ProcessResponseBody`: copies the
value at `pcValueStart` into the row of `ppcValueBuf` that starts at `row`,
up to a `'&'` or the end of the string.  `fuel` is `VALUEBUF_SIZE - j`. -/
def copyValue (pcValueStart : List Char) (row : Nat) : Nat → Nat → List Char → List Char
  | 0, _, ppcValueBuf => ppcValueBuf
  | fuel + 1, j, ppcValueBuf =>
    if pcValueStart.getD j NUL = '&' ∨ pcValueStart.getD j NUL = NUL then
      writeAt ppcValueBuf (row + j) [NUL]
    else
      copyValue pcValueStart row fuel (j + 1)
        (writeAt ppcValueBuf (row + j) [pcValueStart.getD j NUL])

/-- One round of the first loop of `ProcessResponseBody`, for the alias of
index `ui32Index`. -/
def scanAlias (pcBuf : List Char) (ui32Index : Nat) (ppcValueBuf : List Char) : List Char :=
  match strstr (cstr pcBuf) (g_ppcGETAlias.getD ui32Index []) with
  | none => ppcValueBuf
  | some pcValueStart =>
    match strstr pcValueStart "=".toList with
    | none => ppcValueBuf
    | some pcValueStart =>
      copyValue (pcValueStart.drop 1) (ui32Index * VALUEBUF_SIZE) VALUEBUF_SIZE 0 ppcValueBuf

/-- One round of the second loop of `ProcessResponseBody`: the value found for
the alias of index `ui32Index` is stored if the mode of the alias is
READ_ONLY. -/
def applyAlias (ppcValueBuf : List Char) (g : Globals) (ui32Index : Nat) : Globals :=
  let pcAlias := g_ppcGETAlias.getD ui32Index []
  let value := ppcValueBuf.drop (ui32Index * VALUEBUF_SIZE)
  if strncmp_eq pcAlias "ledd1".toList 15 then
    if g.g_eLEDD1RW = READ_ONLY then
      { g with g_ui32LEDD1 := if value.getD 0 NUL = '1' then 1 else 0 }
    else g
  else if strncmp_eq pcAlias "emailaddr".toList 15 then
    if g.g_eEmailRW = READ_ONLY then
      { g with g_pcEmail := writeAt (strncpy g.g_pcEmail value 100) 99 [NUL] }
    else g
  else if strncmp_eq pcAlias "gamestate".toList 15 then
    if g.g_eBoardStaeRW = READ_ONLY then
      { g with g_ui32BoardState := strtoul0 (cstr value) }
    else g
  else g

/-- Handles the response Body for the GET request.  `ppcValueBuf` is the
memory of the local array of that name as it is on entry (it is not
initialised), the three rows of `VALUEBUF_SIZE` bytes one after the other. -/
def ProcessResponseBody (g : Globals) (pcBuf : List Char) (ppcValueBuf : List Char) : Globals :=
  let ppcValueBuf := (List.range ALIAS_PROCESSING).foldl
    (fun mem ui32Index => scanAlias pcBuf ui32Index mem) ppcValueBuf
  (List.range ALIAS_PROCESSING).foldl (applyAlias ppcValueBuf) g

/-! ## Error handling, token storage, proxy -/

/-- Status codes of the HTTP client library (httpstd.h, outside this
repository): the standard HTTP values. -/
def HTTPStd_OK : Int := 200
def HTTPStd_NO_CONTENT : Int := 204
def HTTPStd_UNAUTHORIZED : Int := 401
def HTTPStd_NOT_FOUND : Int := 404
def HTTPStd_CONFLICT : Int := 409

/-- This function handles the server reported error message from functions like
ExositeActivate, ExositeWrite and ExositeRead.  `pui32State` is the value the
pointer of that name refers to; its new value is the first component of the
result. -/
def CloudHandleError (i32Ret : Int) (pui32State : tCloudState) (g : Globals) :
    tCloudState × Globals :=
  if i32Ret ≤ 0 then (pui32State, g)
  else if i32Ret = HTTPStd_CONFLICT ∨ i32Ret = HTTPStd_NOT_FOUND then
    (Cloud_Activate_CIK, { g with sleepMs := g.sleepMs + 10000 })
  else if i32Ret = HTTPStd_UNAUTHORIZED then
    let cik := writeAt g.g_pcExositeCIK 0 (List.replicate (EXOSITE_CIK_LENGTH + 1) NUL)
    (Cloud_Activate_CIK, { g with g_pcExositeCIK := cik })
  else (pui32State, g)

/-- The byte an erased EEPROM cell reads as. -/
def EEPROM_ERASED : Char := Char.ofNat 0xFF

/-- The `EXOSITE_CIK_LENGTH` bytes `EEPROMRead` returns for the CIK region. -/
def EEPROMRead_CIK (g : Globals) : List Char :=
  (List.range EXOSITE_CIK_LENGTH).map (fun i => g.eepromCIK.getD i EEPROM_ERASED)

/-- Get/Read the CIK value from EEPROM: returns the result and the memory of
`pcProvBuf` after the call. -/
def GetCIKEEPROM (g : Globals) (pcProvBuf : List Char) : Bool × List Char :=
  let pcProvBuf := writeAt pcProvBuf 0 (EEPROMRead_CIK g)
  let pcProvBuf := writeAt pcProvBuf EXOSITE_CIK_LENGTH [NUL]
  (true, pcProvBuf)

/-- The call `strlen(mem)`. -/
def strlen (mem : List Char) : Nat := (cstr mem).length

/-- Save/Write the CIK value to EEPROM. -/
def SaveCIKEEPROM (g : Globals) (pcProvBuf : List Char) : Bool × Globals :=
  let ui32Len := strlen pcProvBuf
  if ui32Len ≠ EXOSITE_CIK_LENGTH then (false, g)
  else (true, { g with eepromCIK := writeAt g.eepromCIK 0 (pcProvBuf.take ui32Len) })

/-- This function tries to read a CIK from non-volatile memory and reports if
one if found or not.  The local array `pcCIK` is overwritten whole before it
is read, and its address is never NULL. -/
def GetCIK (g : Globals) : Bool × Globals :=
  let r := GetCIKEEPROM g (List.replicate (EXOSITE_CIK_LENGTH + 1) NUL)
  if r.1 = true then
    let cik := writeAt g.g_pcExositeCIK 0 (r.2.take (EXOSITE_CIK_LENGTH + 1))
    (true, { g with g_pcExositeCIK := cik })
  else (false, g)

/-- Set the proxy value if requested by the user.  `pcProxy` is `none` for a
NULL pointer. -/
def CloudProxySet (g : Globals) (pcProxy : Option (List Char)) : Globals :=
  match pcProxy with
  | none => { g with g_ui32State := Cloud_Idle }
  | some pcProxy =>
    match strstr (cstr pcProxy) ":".toList with
    | none => { g with g_ui32State := Cloud_Idle }
    | some _ => { g with g_pcIP := strncpy g.g_pcIP pcProxy 50, g_bProxy := true }

/-- The alias sent to Exosite server while provisioning for a CIK. -/
def g_ppcProvAlias : List (List Char) := ["vendor".toList, "model".toList, "sn".toList]

/-- Populate the request body for a POST request to get the CIK: returns the
result and the memory of `pcProvBuf` after the call. -/
def BuildProvInfo (pcVendorName pcBoard pui8MACAddress pcProvBuf : List Char)
    (ui32ProvBufLen : Nat) : Int × List Char :=
  let r := snprintf pcProvBuf 0 ui32ProvBufLen
    (g_ppcProvAlias.getD 0 [] ++ "=".toList ++ cstr pcVendorName)
  let st : List Char × Nat := (r.1, u32 r.2)
  let st := snprintf_at st ui32ProvBufLen
    ("&".toList ++ g_ppcProvAlias.getD 1 [] ++ "=".toList ++ cstr pcBoard)
  let st := snprintf_at st ui32ProvBufLen
    ("&".toList ++ g_ppcProvAlias.getD 2 [] ++ "=".toList ++ cstr pui8MACAddress)
  (0, st.1)

/-! ## HTTP client library (interface only) -/

/-- One result of `HTTPCli_readResponseBody`: a failure with the negative code
`-(k + 1)`, or some bytes of the body (at most a buffer full) with the value
of the more-data flag. -/
inductive ReadResult where
  | fail (k : Nat)
  | data (bytes : List Char) (more : Bool)
  deriving DecidableEq, Repr

/-- A request-side call of the HTTP client, as it goes out. -/
inductive HTTPCall where
  | sendRequest (method : String) (uri : List Char)
  | sendField (name : String) (value : List Char)
  | sendRequestBody (body : List Char)
  deriving DecidableEq, Repr

/-- The HTTP client instance `cli` with the network behind it: for each library
call the results it is going to give, in order, the requests sent so far and
counters of the connection calls.  A call whose results are used up succeeds
with nothing to deliver; a connection attempt then fails. -/
structure HTTPCli where
  initSockAddr : List Int
  connect : List Int
  sendRequest : List Int
  sendField : List Int
  sendRequestBody : List Int
  getResponseStatus : List Int
  getResponseField : List (Int × List Char)
  readResponseBody : List ReadResult
  sent : List HTTPCall
  proxySet : Bool
  connectCalls : Nat
  disconnectCalls : Nat
  deriving DecidableEq, Repr

/-- Field identifiers of httpcli.h (outside this repository). -/
def HTTPCli_FIELD_ID_DUMMY : Int := -11
def HTTPCli_FIELD_ID_END : Int := -12

def HTTPCli_sendRequest (cli : HTTPCli) (method : String) (uri : List Char) : Int × HTTPCli :=
  (cli.sendRequest.headD 0,
   { cli with sendRequest := cli.sendRequest.tail,
              sent := cli.sent ++ [HTTPCall.sendRequest method uri] })

def HTTPCli_sendField (cli : HTTPCli) (name : String) (value : List Char) : Int × HTTPCli :=
  (cli.sendField.headD 0,
   { cli with sendField := cli.sendField.tail,
              sent := cli.sent ++ [HTTPCall.sendField name value] })

def HTTPCli_sendRequestBody (cli : HTTPCli) (body : List Char) : Int × HTTPCli :=
  (cli.sendRequestBody.headD 0,
   { cli with sendRequestBody := cli.sendRequestBody.tail,
              sent := cli.sent ++ [HTTPCall.sendRequestBody body] })

def HTTPCli_getResponseStatus (cli : HTTPCli) : Int × HTTPCli :=
  (cli.getResponseStatus.headD 0, { cli with getResponseStatus := cli.getResponseStatus.tail })

/-- The call `HTTPCli_getResponseField(cli, buf, len, &moreFlag)`: the result,
the memory of `buf` after the call and the client. -/
def HTTPCli_getResponseField (cli : HTTPCli) (buf : List Char) (len : Nat) :
    Int × List Char × HTTPCli :=
  let r := cli.getResponseField.headD (HTTPCli_FIELD_ID_END, [])
  (r.1, writeAt buf 0 (r.2.take len), { cli with getResponseField := cli.getResponseField.tail })

/-- The loop `do { i32Ret = HTTPCli_readResponseBody(cli, buf, len, &bMoreFlag);
... } while(bMoreFlag)` of the three Exosite functions, along the results the
library is going to give: the last `i32Ret`, the memory of `buf` and the
results not yet consumed. -/
def readResponseBody_loop (buf : List Char) (len : Nat) :
    List ReadResult → Int × List Char × List ReadResult
  | [] => (0, buf, [])
  | ReadResult.fail k :: rest => (-(k + 1 : Int), buf, rest)
  | ReadResult.data bytes more :: rest =>
    let i32Ret := (bytes.take len).length
    let buf := writeAt buf 0 (bytes.take len)
    let buf := if i32Ret ≠ 0 ∧ i32Ret < len then writeAt buf i32Ret [NUL] else buf
    if more then readResponseBody_loop buf len rest else (i32Ret, buf, rest)

/-! ## Connection and the three exchanges with the server -/

def PROVISION_URI : List Char := "/provision/activate".toList
def EXOSITE_URI : List Char := "/onep:v1/stack/alias".toList
def EXOSITE_CONTENT_TYPE : List Char :=
  "application/x-www-form-urlencoded; charset=utf-8".toList
def EXOSITE_TYPE : String := "X-Exosite-CIK"

/-- The loop `while(ui32Retry < 5)` of `ServerConnect`; `fuel` is
`5 - ui32Retry`. -/
def ServerConnect_loop : Nat → Nat → Globals → HTTPCli → Int × Globals × HTTPCli
  | 0, _, g, cli => (-1, g, cli)
  | fuel + 1, ui32Retry, g, cli =>
    let i32Ret := cli.connect.headD (-1)
    let cli := { cli with connect := cli.connect.tail, connectCalls := cli.connectCalls + 1 }
    if i32Ret = 0 then (0, g, cli)
    else ServerConnect_loop fuel (ui32Retry + 1) { g with sleepMs := g.sleepMs + 1000 } cli

/-- This function creates a HTTP client instance and connect to the Exosite
Server. -/
def ServerConnect (g : Globals) (cli : HTTPCli) : Int × Globals × HTTPCli :=
  let i32Ret := cli.initSockAddr.headD 0
  let cli := { cli with initSockAddr := cli.initSockAddr.tail }
  if i32Ret ≠ 0 then (-1, g, cli)
  else
    let cli := if g.g_bProxy = true then { cli with proxySet := true } else cli
    ServerConnect_loop 5 0 g cli

/-- Disconnect from the Exosite Server and destroy the HTTP client instance. -/
def ServerDisconnect (cli : HTTPCli) : HTTPCli :=
  { cli with disconnectCalls := cli.disconnectCalls + 1 }

/-- Disconnect and Connect back to the Exosite Server. -/
def ServerReconnect (g : Globals) (cli : HTTPCli) : Globals × HTTPCli :=
  let r := ServerConnect g (ServerDisconnect cli)
  (r.2.1, r.2.2)

/-- Get CIK from Exosite.  `pcExositeProvBuf` is the memory of the local array
of that name on entry. -/
def ExositeActivate (g : Globals) (cli : HTTPCli) (pcExositeProvBuf : List Char) :
    Int × Globals × HTTPCli :=
  let b := BuildProvInfo "texasinstruments".toList "ek-tm4c129exl".toList g.g_pcMACAddress
    pcExositeProvBuf EXOSITE_LENGTH
  if b.1 ≠ 0 then (-2, g, cli)
  else
    let pcExositeProvBuf := b.2
    let pcLen := (snprintf (List.replicate 4 NUL) 0 4 (fmt_d (strlen pcExositeProvBuf))).1
    let r := HTTPCli_sendRequest cli "POST" PROVISION_URI
    if r.1 < 0 then (r.1, g, r.2)
    else
    let r := HTTPCli_sendField r.2 "Content-Type" EXOSITE_CONTENT_TYPE
    if r.1 < 0 then (r.1, g, r.2)
    else
    let r := HTTPCli_sendField r.2 "Content-Length" (cstr pcLen)
    if r.1 < 0 then (r.1, g, r.2)
    else
    let r := HTTPCli_sendRequestBody r.2 (cstr pcExositeProvBuf)
    if r.1 < 0 then (r.1, g, r.2)
    else
    let r := HTTPCli_getResponseStatus r.2
    if r.1 < 0 then (r.1, g, r.2)
    else
    let ui32Status := r.1
    let f := HTTPCli_getResponseField r.2 pcExositeProvBuf EXOSITE_LENGTH
    if f.1 ≠ HTTPCli_FIELD_ID_END ∧ f.1 ≠ HTTPCli_FIELD_ID_DUMMY then (f.1, g, f.2.2)
    else
    let cli := f.2.2
    let d :=
      if ui32Status ≠ HTTPStd_NO_CONTENT then
        readResponseBody_loop f.2.1 EXOSITE_LENGTH cli.readResponseBody
      else (0, f.2.1, cli.readResponseBody)
    let cli := { cli with readResponseBody := d.2.2 }
    if d.1 < 0 then (d.1, g, cli)
    else if ui32Status ≠ HTTPStd_OK then (ui32Status, g, cli)
    else
      let pcExositeProvBuf := d.2.1
      let g := (SaveCIKEEPROM g pcExositeProvBuf).2
      let rd := GetCIKEEPROM g g.g_pcExositeCIK
      let g := { g with g_pcExositeCIK := rd.2 }
      if rd.1 ≠ true then (-3, g, cli)
      else if strncmp_eq g.g_pcExositeCIK pcExositeProvBuf EXOSITE_CIK_LENGTH ≠ true then
        (-4, g, cli)
      else (0, g, cli)

/-- Writes (or POSTs) data to Exosite.  `pcDataBuf` is the memory of the local
array of that name on entry. -/
def ExositeWrite (g : Globals) (cli : HTTPCli) (hw : BoardInputs) (pcDataBuf : List Char) :
    Int × Globals × HTTPCli :=
  if g.g_pcExositeCIK.getD 0 NUL = NUL then (-1, g, cli)
  else
    let b := GetRequestBody g hw pcDataBuf 128
    let pcDataBuf := b.1
    let g := b.2
    let pcLen := (snprintf (List.replicate 8 NUL) 0 8 (fmt_d (strlen pcDataBuf))).1
    let r := HTTPCli_sendRequest cli "POST" EXOSITE_URI
    if r.1 < 0 then (r.1, g, r.2)
    else
    let r := HTTPCli_sendField r.2 EXOSITE_TYPE (cstr g.g_pcExositeCIK)
    if r.1 < 0 then (r.1, g, r.2)
    else
    let r := HTTPCli_sendField r.2 "Content-Type" EXOSITE_CONTENT_TYPE
    if r.1 < 0 then (r.1, g, r.2)
    else
    let r := HTTPCli_sendField r.2 "Content-Length" (cstr pcLen)
    if r.1 < 0 then (r.1, g, r.2)
    else
    let r := HTTPCli_sendRequestBody r.2 (cstr pcDataBuf)
    if r.1 < 0 then (r.1, g, r.2)
    else
    let r := HTTPCli_getResponseStatus r.2
    if r.1 < 0 then (r.1, g, r.2)
    else
    let ui32Status := r.1
    let f := HTTPCli_getResponseField r.2 pcDataBuf 128
    if f.1 ≠ HTTPCli_FIELD_ID_END ∧ f.1 ≠ HTTPCli_FIELD_ID_DUMMY then (f.1, g, f.2.2)
    else
    let cli := f.2.2
    if ui32Status ≠ HTTPStd_NO_CONTENT then
      let d := readResponseBody_loop f.2.1 128 cli.readResponseBody
      let cli := { cli with readResponseBody := d.2.2 }
      if d.1 < 0 then (d.1, g, cli) else (ui32Status, g, cli)
    else (0, g, cli)

/-- Reads (or GETs) data from Exosite.  `pcRecBuf` and `ppcValueBuf` are the
memory on entry of the local array `pcRecBuf` and of the local array
`ppcValueBuf` of `ProcessResponseBody`. -/
def ExositeRead (g : Globals) (cli : HTTPCli) (pcRecBuf ppcValueBuf : List Char) :
    Int × Globals × HTTPCli :=
  if g.g_pcExositeCIK.getD 0 NUL = NUL then (-1, g, cli)
  else
    let u := snprintf pcRecBuf 0 128 EXOSITE_URI
    let ui32BufLen := u32 u.2
    let pcRecBuf := u.1.take ui32BufLen
      ++ GetAliasList g (u.1.drop ui32BufLen) (u32sub 128 ui32BufLen)
    let r := HTTPCli_sendRequest cli "GET" (cstr pcRecBuf)
    if r.1 < 0 then (r.1, g, r.2)
    else
    let r := HTTPCli_sendField r.2 EXOSITE_TYPE (cstr g.g_pcExositeCIK)
    if r.1 < 0 then (r.1, g, r.2)
    else
    let r := HTTPCli_sendField r.2 "Accept" EXOSITE_CONTENT_TYPE
    if r.1 < 0 then (r.1, g, r.2)
    else
    let r := HTTPCli_getResponseStatus r.2
    if r.1 < 0 then (r.1, g, r.2)
    else
    let ui32Status := r.1
    let f := HTTPCli_getResponseField r.2 pcRecBuf 128
    if f.1 ≠ HTTPCli_FIELD_ID_END ∧ f.1 ≠ HTTPCli_FIELD_ID_DUMMY then (f.1, g, f.2.2)
    else
    let cli := f.2.2
    if ui32Status ≠ HTTPStd_OK then (ui32Status, g, cli)
    else
      let d := readResponseBody_loop f.2.1 128 cli.readResponseBody
      let cli := { cli with readResponseBody := d.2.2 }
      if d.1 < 0 then (d.1, g, cli)
      else (0, ProcessResponseBody g d.2.1 ppcValueBuf, cli)

/-! ## The cloud task -/

/-- A structure to pass requests between the cloud task and command task using
Mailbox. -/
structure tMailboxMsg where
  ui32Request : Nat
  pcBuf : List Char
  deriving DecidableEq, Repr

/-- The local variables of `CloudTask` that live across the iterations of its
loop. -/
structure TaskLocals where
  i32Ret : Int
  cli : HTTPCli
  sCommandRequest : tMailboxMsg
  ui32LED2 : Nat
  deriving DecidableEq, Repr

/-- What one iteration of the loop of `CloudTask` takes from outside: the
message `Mailbox_pend` delivers, if any, the board readings, and the memory on
entry of the local arrays of the functions it calls. -/
structure IterInputs where
  pend : Option tMailboxMsg
  hw : BoardInputs
  pcExositeProvBuf : List Char
  pcDataBuf : List Char
  pcRecBuf : List Char
  ppcValueBuf : List Char
  deriving DecidableEq, Repr

/-- The `switch(g_ui32State)` of the loop of `CloudTask`. -/
def CloudTask_switch (g : Globals) (l : TaskLocals) (inp : IterInputs) : Globals × TaskLocals :=
  if g.g_ui32State = Cloud_Server_Connect then
    let cli := if g.g_bServerConnect = true then ServerDisconnect l.cli else l.cli
    let r := ServerConnect g cli
    let g := r.2.1
    let l := { l with cli := r.2.2 }
    if r.1 ≠ 0 then ({ g with g_ui32State := Cloud_Idle }, l)
    else
      let g := { g with g_bServerConnect := true }
      let c := GetCIK g
      if c.1 = true then ({ c.2 with g_ui32State := Cloud_Sync }, l)
      else ({ c.2 with g_ui32State := Cloud_Activate_CIK }, l)
  else if g.g_ui32State = Cloud_Activate_CIK then
    if g.g_bServerConnect ≠ true then ({ g with g_ui32State := Cloud_Server_Connect }, l)
    else
      let rc := ServerReconnect g l.cli
      let a := ExositeActivate rc.1 rc.2 inp.pcExositeProvBuf
      let g := a.2.1
      let l := { l with i32Ret := a.1, cli := a.2.2 }
      if a.1 = 0 then ({ g with g_ui32State := Cloud_Sync }, l) else (g, l)
  else if g.g_ui32State = Cloud_Sync then
    let w := ExositeWrite g l.cli inp.hw inp.pcDataBuf
    let g := w.2.1
    let l := { l with i32Ret := w.1, cli := w.2.2 }
    if w.1 ≠ 0 then (g, l)
    else
      let r := ExositeRead g l.cli inp.pcRecBuf inp.ppcValueBuf
      let g := r.2.1
      let l := { l with i32Ret := r.1, cli := r.2.2 }
      if r.1 ≠ 0 then (g, l)
      else
        let ui32LED2 := Nat.xor l.ui32LED2 1
        ({ g with boardLED1 := ui32LED2, g_ui32State := Cloud_Sync },
         { l with ui32LED2 := ui32LED2 })
  else if g.g_ui32State = Cloud_Proxy_Set then
    (CloudProxySet { g with g_ui32State := Cloud_Server_Connect } (some l.sCommandRequest.pcBuf),
     l)
  else if g.g_ui32State = Cloud_Idle then
    (g, { l with i32Ret := 0 })
  else
    ({ g with g_ui32State := Cloud_Server_Connect }, { l with i32Ret := 0 })

/-- The start of an iteration of the loop of `CloudTask`: the mailbox is polled
and the board resources are updated. -/
def CloudTask_pend (g : Globals) (l : TaskLocals) (inp : IterInputs) : Globals × TaskLocals :=
  let r : Globals × TaskLocals :=
    match inp.pend with
    | some msg => ({ g with g_ui32State := msg.ui32Request }, { l with sCommandRequest := msg })
    | none => (g, l)
  (UpdateCloudData r.1, r.2)

/-- The end of an iteration of the loop of `CloudTask`: the checks of `i32Ret`
after the `switch` and the sleep of one second. -/
def CloudTask_check (g : Globals) (l : TaskLocals) : Globals × TaskLocals :=
  let g :=
    if l.i32Ret < 0 then { g with g_ui32State := Cloud_Server_Connect }
    else if l.i32Ret > 0 then
      let e := CloudHandleError l.i32Ret g.g_ui32State g
      { e.2 with g_ui32State := e.1 }
    else g
  ({ g with sleepMs := g.sleepMs + 1000 }, l)

/-- One iteration of the `while (1)` loop of `CloudTask`. -/
def CloudTask_iter (g : Globals) (l : TaskLocals) (inp : IterInputs) : Globals × TaskLocals :=
  let r := CloudTask_pend g l inp
  let r := CloudTask_switch r.1 r.2 inp
  CloudTask_check r.1 r.2

/-- The global resources as their initialisers in cloud_task.c leave them, with
the CIK region of the EEPROM holding `eeprom`. -/
def initGlobals (eeprom : List Char) : Globals :=
  { g_pcExositeCIK := List.replicate (EXOSITE_CIK_LENGTH + 1) NUL
    g_pcMACAddress := List.replicate (MAC_ADDRESS_LENGTH + 1) NUL
    g_ui32BoardState := 0
    g_eBoardStaeRW := WRITE_ONLY
    g_ui32LEDD1 := 0
    g_ui32LastLEDD1 := 0
    g_eLEDD1RW := READ_WRITE
    g_pcEmail := List.replicate 100 NUL
    g_eEmailRW := READ_WRITE
    g_pcAlert := List.replicate 50 NUL
    g_eAlertRW := NONE
    g_ui32State := Cloud_Idle
    g_bServerConnect := false
    g_pcIP := writeAt (List.replicate 50 NUL) 0 "m2.exosite.com:443".toList
    g_bProxy := false
    ui32Seconds := 0
    ui32PrevTicks := 0
    eepromCIK := eeprom
    boardLED0 := false
    boardLED1 := 0
    sleepMs := 0 }

/-- An HTTP client with no result queued for any call. -/
def idleCli : HTTPCli :=
  { initSockAddr := [], connect := [], sendRequest := [], sendField := [],
    sendRequestBody := [], getResponseStatus := [], getResponseField := [],
    readResponseBody := [], sent := [], proxySet := false, connectCalls := 0,
    disconnectCalls := 0 }

/-- No byte of `s` is the terminator. -/
def noNUL (s : List Char) : Prop := ∀ c ∈ s, c ≠ NUL

instance noNUL_decidable (s : List Char) : Decidable (noNUL s) := by
  unfold noNUL
  infer_instance

/-- The buffer state once `body` has been written: the bytes of `body`, a
terminator, and `body.length` as the running length. -/
def Filled (st : List Char × Nat) (body : List Char) : Prop :=
  ∃ tail, st = (body ++ NUL :: tail, body.length)

/-! ## Specification-side definitions and sample states -/

/-- The mode an attribute sent as READ_WRITE is given once it has been sent
(`next` is READ_ONLY, or NONE for the alert); the other modes stay. -/
def demoted (m next : tReadWriteType) : tReadWriteType :=
  if m = READ_WRITE then next else m

/-- The relation between the globals before and after a step that may store
inbound values: no mode changes, and the value of ledd1, emailaddr or gamestate
stays unless its mode is READ_ONLY. -/
def InboundFrame (g g1 : Globals) : Prop :=
  g1.g_eLEDD1RW = g.g_eLEDD1RW ∧ g1.g_eEmailRW = g.g_eEmailRW
  ∧ g1.g_eBoardStaeRW = g.g_eBoardStaeRW ∧ g1.g_eAlertRW = g.g_eAlertRW
  ∧ (g.g_eLEDD1RW ≠ READ_ONLY → g1.g_ui32LEDD1 = g.g_ui32LEDD1)
  ∧ (g.g_eEmailRW ≠ READ_ONLY → g1.g_pcEmail = g.g_pcEmail)
  ∧ (g.g_eBoardStaeRW ≠ READ_ONLY → g1.g_ui32BoardState = g.g_ui32BoardState)

/-- The query string the code builds: the fixed alias `location`, then the
aliases among ledd1, gamestate and emailaddr whose mode is READ_ONLY. -/
def aliasQuery (g : Globals) : List Char :=
  "?location".toList
    ++ (if g.g_eLEDD1RW = READ_ONLY then "&ledd1".toList else [])
    ++ (if g.g_eBoardStaeRW = READ_ONLY then "&gamestate".toList else [])
    ++ (if g.g_eEmailRW = READ_ONLY then "&emailaddr".toList else [])

/-- The pieces of a string between the `&` signs. -/
def splitAmp : List Char → List (List Char)
  | [] => [[]]
  | c :: t =>
    if c = '&' then [] :: splitAmp t
    else
      match splitAmp t with
      | [] => [[c]]
      | h :: r => (c :: h) :: r

/-- The aliases a query string `?a&b&..` lists. -/
def queryAliases (q : List Char) : List (List Char) := splitAmp (q.drop 1)

/-- The claim on the query string, as the specification words it: the aliases
listed are exactly those among ledd1, gamestate and emailaddr whose mode is
READ_ONLY. -/
def ListsExactlyReadOnly (g : Globals) (q : List Char) : Prop :=
  ∀ a : List Char, a ∈ queryAliases q ↔
    ((a = "ledd1".toList ∧ g.g_eLEDD1RW = READ_ONLY)
      ∨ (a = "gamestate".toList ∧ g.g_eBoardStaeRW = READ_ONLY)
      ∨ (a = "emailaddr".toList ∧ g.g_eEmailRW = READ_ONLY))

/-- The globals in the Sync state with a token of forty bytes cached. -/
def syncGlobals : Globals :=
  { initGlobals [] with
    g_ui32State := Cloud_Sync
    g_bServerConnect := true
    g_pcExositeCIK := List.replicate 40 'c' ++ [NUL] }

/-- Task locals with no error pending and the given client. -/
def freshLocals (cli : HTTPCli) : TaskLocals :=
  { i32Ret := 0, cli := cli, sCommandRequest := { ui32Request := 0, pcBuf := [] }, ui32LED2 := 0 }

/-- Inputs of an iteration with no message pending and zeroed local arrays. -/
def quietInputs : IterInputs :=
  { pend := none
    hw := { ui16Temp := 25, sw1 := 3, sw2 := 4, ticks := 5000 }
    pcExositeProvBuf := List.replicate 65 NUL
    pcDataBuf := List.replicate 128 NUL
    pcRecBuf := List.replicate 128 NUL
    ppcValueBuf := List.replicate 120 NUL }

/-- The client of a session in which a write is answered 204, the read that
follows fails in `HTTPCli_sendRequest` with -101, and the next connection
attempt succeeds. -/
def failingReadCli : HTTPCli :=
  { idleCli with sendRequest := [0, -101], getResponseStatus := [204], connect := [0] }

/-- The state after the iteration in which that read fails. -/
def afterFailedSync : Globals × TaskLocals :=
  CloudTask_iter syncGlobals (freshLocals failingReadCli) quietInputs

/-- The body holds the pair `a=v`, its key is the first place where the text
`a` occurs in the body, and the value is shorter than a row of the value
buffer. -/
def FirstPair (body a v : List Char) : Prop :=
  ∃ pre rest : List Char, body = pre ++ a ++ ('=' :: (v ++ rest))
    ∧ (pre = [] ∨ pre.getLast? = some '&')
    ∧ (∀ i, i < pre.length → a.isPrefixOf ((pre ++ a).drop i) = false)
    ∧ '&' ∉ v
    ∧ (rest = [] ∨ rest.head? = some '&')
    ∧ v.length < VALUEBUF_SIZE

/-- The value buffer as the first loop of `ProcessResponseBody` leaves it. -/
def scannedValues (pcBuf ppcValueBuf : List Char) : List Char :=
  scanAlias pcBuf 2 (scanAlias pcBuf 1 (scanAlias pcBuf 0 ppcValueBuf))

/-- The globals with ledd1, emailaddr and gamestate READ_ONLY. -/
def readOnlyGlobals : Globals :=
  { initGlobals [] with
    g_eLEDD1RW := READ_ONLY
    g_eEmailRW := READ_ONLY
    g_eBoardStaeRW := READ_ONLY }

/-- The pairs `key=value` of a body: the pieces between the `&` signs, each cut
at its first `=`. -/
def bodyPairs (body : List Char) : List (List Char × List Char) :=
  (splitAmp body).map
    (fun p => (p.takeWhile (fun c => c != '='), (p.dropWhile (fun c => c != '=')).drop 1))

/-- The value of the first pair of the body whose key is exactly `a`. -/
def pairValue (body a : List Char) : Option (List Char) :=
  ((bodyPairs body).find? (fun p => p.1 == a)).map (fun p => p.2)

/-- Inputs of an iteration in which `Mailbox_pend` delivers the request
Cloud_Proxy_Set with the payload `payload`. -/
def proxyInputs (payload : List Char) : IterInputs :=
  { quietInputs with
    pend := some { ui32Request := Cloud_Proxy_Set, pcBuf := writeAt (List.replicate 128 NUL) 0 payload } }

/-- A proxy payload of 55 bytes, as `Cmd_proxy` builds it from a host name and
a port. -/
def longProxy : List Char :=
  "proxy-gateway.engineering.emea.example-company.com:8080".toList

/-- The result `HTTPCli_connect` gives at its attempt number `k` (from 0) on
the client `cli`. -/
def connectResult (cli : HTTPCli) (k : Nat) : Int := cli.connect.getD k (-1)

/-- The result of the call of `ExositeActivate` that an iteration of the loop of
`CloudTask` makes in the Cloud_Activate_CIK case, after `ServerReconnect`. -/
def CloudTask_activation (g : Globals) (l : TaskLocals) (inp : IterInputs) :
    Int × Globals × HTTPCli :=
  ExositeActivate
    (ServerReconnect (CloudTask_pend g l inp).1 (CloudTask_pend g l inp).2.cli).1
    (ServerReconnect (CloudTask_pend g l inp).1 (CloudTask_pend g l inp).2.cli).2
    inp.pcExositeProvBuf

/-- The globals in the Cloud_Activate_CIK state, connected, with an erased CIK
region in the EEPROM and no token cached. -/
def activateGlobals : Globals :=
  { initGlobals (List.replicate 40 EEPROM_ERASED) with
    g_ui32State := Cloud_Activate_CIK
    g_bServerConnect := true
    g_pcMACAddress := "00aabbccddee".toList ++ [NUL] }

/-- The code of the failing read the body loop runs into, if any: the reads go
on while the more-data flag is set. -/
def firstReadFailure : List ReadResult → Option Int
  | [] => none
  | ReadResult.fail k :: _ => some (-(k + 1 : Int))
  | ReadResult.data _ more :: rest => if more then firstReadFailure rest else none

/-- The results of the library not yet consumed once the body loop has run:
those after the first read that fails or that clears the more-data flag. -/
def afterBody : List ReadResult → List ReadResult
  | [] => []
  | ReadResult.fail _ :: rest => rest
  | ReadResult.data _ more :: rest => if more then afterBody rest else rest

/-- What `ExositeWrite` is to return on a client, by the results the library
gives to the calls in their order: the first negative result among
`HTTPCli_sendRequest`, the three `HTTPCli_sendField`, `HTTPCli_sendRequestBody`
and `HTTPCli_getResponseStatus`; else the result of `HTTPCli_getResponseField`
when the headers are not flushed (it is neither HTTPCli_FIELD_ID_END nor
HTTPCli_FIELD_ID_DUMMY); else 0 for the status 204; else the code of the read
of the body that fails, if one does, and the status itself if none does. -/
def writeOutcome (cli : HTTPCli) : Int :=
  if cli.sendRequest.getD 0 0 < 0 then cli.sendRequest.getD 0 0
  else if cli.sendField.getD 0 0 < 0 then cli.sendField.getD 0 0
  else if cli.sendField.getD 1 0 < 0 then cli.sendField.getD 1 0
  else if cli.sendField.getD 2 0 < 0 then cli.sendField.getD 2 0
  else if cli.sendRequestBody.getD 0 0 < 0 then cli.sendRequestBody.getD 0 0
  else if cli.getResponseStatus.getD 0 0 < 0 then cli.getResponseStatus.getD 0 0
  else if (cli.getResponseField.headD (HTTPCli_FIELD_ID_END, [])).1 ≠ HTTPCli_FIELD_ID_END
      ∧ (cli.getResponseField.headD (HTTPCli_FIELD_ID_END, [])).1 ≠ HTTPCli_FIELD_ID_DUMMY then
    (cli.getResponseField.headD (HTTPCli_FIELD_ID_END, [])).1
  else if cli.getResponseStatus.getD 0 0 = 204 then 0
  else (firstReadFailure cli.readResponseBody).getD (cli.getResponseStatus.getD 0 0)

/-- The request of `ExositeWrite` goes out and the headers of the response are
flushed: no call up to `HTTPCli_getResponseStatus` gives a negative result and
`HTTPCli_getResponseField` gives HTTPCli_FIELD_ID_END or
HTTPCli_FIELD_ID_DUMMY. -/
def writeFlushed (cli : HTTPCli) : Prop :=
  0 ≤ cli.sendRequest.getD 0 0 ∧ 0 ≤ cli.sendField.getD 0 0 ∧ 0 ≤ cli.sendField.getD 1 0
  ∧ 0 ≤ cli.sendField.getD 2 0 ∧ 0 ≤ cli.sendRequestBody.getD 0 0
  ∧ 0 ≤ cli.getResponseStatus.getD 0 0
  ∧ ((cli.getResponseField.headD (HTTPCli_FIELD_ID_END, [])).1 = HTTPCli_FIELD_ID_END
      ∨ (cli.getResponseField.headD (HTTPCli_FIELD_ID_END, [])).1 = HTTPCli_FIELD_ID_DUMMY)

instance writeFlushed_decidable (cli : HTTPCli) : Decidable (writeFlushed cli) := by
  unfold writeFlushed
  infer_instance

/-- The request of `ExositeRead` goes out and the headers of the response are
flushed: no call up to `HTTPCli_getResponseStatus` gives a negative result and
`HTTPCli_getResponseField` gives HTTPCli_FIELD_ID_END or
HTTPCli_FIELD_ID_DUMMY. -/
def readFlushed (cli : HTTPCli) : Prop :=
  0 ≤ cli.sendRequest.getD 0 0 ∧ 0 ≤ cli.sendField.getD 0 0 ∧ 0 ≤ cli.sendField.getD 1 0
  ∧ 0 ≤ cli.getResponseStatus.getD 0 0
  ∧ ((cli.getResponseField.headD (HTTPCli_FIELD_ID_END, [])).1 = HTTPCli_FIELD_ID_END
      ∨ (cli.getResponseField.headD (HTTPCli_FIELD_ID_END, [])).1 = HTTPCli_FIELD_ID_DUMMY)

instance readFlushed_decidable (cli : HTTPCli) : Decidable (readFlushed cli) := by
  unfold readFlushed
  infer_instance

/-- The text `a` occurs in `body`, its first occurrence is followed by `=`, and
`tail` is what follows this `=` up to the end of the body. -/
def ValueAt (body a tail : List Char) : Prop :=
  ∃ pre : List Char, body = pre ++ a ++ ('=' :: tail)
    ∧ ∀ i, i < pre.length → a.isPrefixOf ((pre ++ a).drop i) = false

/-- A response whose email value is forty bytes long. -/
def longEmailBody : List Char :=
  "ledd1=1&emailaddr=first.middle.last@department.example.com&gamestate=0x1a".toList ++ [NUL]

/-- Two tokens of forty bytes. -/
def sampleCIK : List Char := "0123456789abcdef0123456789abcdef01234567".toList
def otherCIK : List Char := "fedcba9876543210fedcba9876543210fedcba98".toList

/-- The globals at a new activation of a board whose EEPROM holds `sampleCIK`
from an earlier one. -/
def reactivateGlobals : Globals := { activateGlobals with eepromCIK := sampleCIK }

/-- The values the successive calls of `ReadOnTime` return, one call for each
tick reading of the list. -/
def ReadOnTime_calls (g : Globals) : List Nat → List Nat
  | [] => []
  | ui32Ticks :: rest =>
    (ReadOnTime g ui32Ticks).1 :: ReadOnTime_calls (ReadOnTime g ui32Ticks).2 rest

/-- The body gives no value for the alias `a`: the text `a` does not occur in
it, or no `=` follows the first place where it occurs. -/
def NoValueFor (body a : List Char) : Prop :=
  ¬ a <:+: body
  ∨ ∃ pre tail : List Char, body = pre ++ a ++ tail
      ∧ (∀ i, i < pre.length → a.isPrefixOf ((pre ++ a).drop i) = false)
      ∧ '=' ∉ tail

/-- The value buffer as an earlier response with the values `1`,
`old@example.com` and `0x1a` leaves it on the stack. -/
def staleValues : List Char :=
  writeAt (writeAt (writeAt (List.replicate 120 NUL) 0 "1".toList) 40 "old@example.com".toList)
    80 "0x1a".toList

/-- The globals with the three inbound attributes READ_ONLY, the LED on, the
email `user@example.com` and the game state 5. -/
def readOnlyValues : Globals :=
  { readOnlyGlobals with
    g_ui32LEDD1 := 1
    g_pcEmail := writeAt (List.replicate 100 NUL) 0 "user@example.com".toList
    g_ui32BoardState := 5 }

/-! ## Tic-tac-toe (tictactoe.c) -/

/-- Global array to track all possible winning configurations of tic-tac-toe. -/
def g_ui32WinConditions : List Nat := [0x7, 0x38, 0x1C0, 0x49, 0x92, 0x124, 0x111, 0x54]

/-- The loop of `CheckWinner` through the table of win-conditions, from the
entries still to be looked at: the message printed when a player's pieces
line up with one of them. -/
def CheckWinner_loop (ui32BoardState : Nat) : List Nat → Option (List Char)
  | [] => none
  | cond :: rest =>
    let ui32WinMask0 := cond
    let ui32WinMask1 := u32 (cond <<< 16)
    if ui32BoardState &&& ui32WinMask0 = ui32WinMask0 then some "'X' Wins!\n".toList
    else if ui32BoardState &&& ui32WinMask1 = ui32WinMask1 then some "'O' Wins!\n".toList
    else CheckWinner_loop ui32BoardState rest

/-- CheckWinner checks the global state variable to see if either player has
won, or if the game has ended in a tie: returns whether the game is over and
the message it prints on the UART. -/
def CheckWinner (g : Globals) : Bool × List Char :=
  match CheckWinner_loop g.g_ui32BoardState g_ui32WinConditions with
  | some msg => (true, msg)
  | none =>
    let ui32CatCheck := (g.g_ui32BoardState ||| (g.g_ui32BoardState >>> 16)) &&& 0x1FF
    if g.g_ui32BoardState &&& 0x01FF = 0x01FF then
      (true, "Game ended by other player.\n".toList)
    else if g.g_ui32BoardState &&& 0x01FF0000 = 0x01FF0000 then
      (true, "Game ended by other player.\n".toList)
    else if ui32CatCheck = 0x1FF then (true, "It's a tie.\n".toList)
    else (false, [])

/-! ## The command task (command_task.c) -/

def RX_BUF_SIZE : Nat := 128
def TX_BUF_SIZE : Nat := RX_BUF_SIZE
def CMDLINE_SUCCESS : Int := 0
def CMDLINE_BAD_CMD : Int := -1
def CMDLINE_TOO_MANY_ARGS : Int := -2
def CMDLINE_TOO_FEW_ARGS : Int := -3
def CMDLINE_INVALID_ARG : Int := -4
def CMDLINE_UART_ERROR : Int := -5
def CMD_INCOMPLETE : Int := 1
def CMD_RECEIVED : Int := 0
def CMDLINE_MAX_ARGS : Nat := 8

/-- The request codes of ntp_time.h, an anonymous C enum. -/
def NTP_Init : Nat := 0
def NTP_Resolve_URL : Nat := 1
def NTP_Prompt_User : Nat := 2
def NTP_Connect : Nat := 3
def NTP_Idle : Nat := 4

/-- The first value of the enum of `g_ui32GameState` in tictactoe.c. -/
def NEW_GAME : Nat := 0

/-- The state the command task works on: the global resources it shares with
the cloud task, its receive and transmit buffers, the function-static index of
`CommandReceived`, the game flag and the game variables `GameInit` resets, the
characters the UART is going to deliver (`none` for a read that reports
UART_ERROR), the bytes written to the UART, the messages handed to
`Mailbox_post` on the command mailbox, and the indices at which
`g_ppcAlertMessages` has been read. -/
structure Console where
  g : Globals
  g_pcRxBuf : List Char
  g_pcTXBuf : List Char
  ui32Idx : Nat
  g_bGameActive : Bool
  g_ui32Player : Nat
  g_ui32GameState : Nat
  uartIn : List (Option Char)
  uartOut : List Char
  posted : List tMailboxMsg
  alertReads : List Nat
  deriving DecidableEq, Repr

/-- What the command functions take from outside the repository: the library
function `inet_pton` for AF_INET (its result and the address it stores), the
bytes found through the pointer read at an index of `g_ppcAlertMessages` that
holds no message, and the memory of a local message structure on entry, which
is not initialised. -/
structure ConsoleEnv where
  inet_pton : List Char → Int × Nat
  strayBytes : Nat → List Char
  msgStack : List Char

/-- The statements `ui32BufLen = snprintf(g_pcTXBuf, TX_BUF_SIZE, ...);
UART_write(g_psUARTHandle, g_pcTXBuf, ui32BufLen);` for the formatted text
`text`. -/
def UART_print (s : Console) (text : List Char) : Console :=
  let r := snprintf s.g_pcTXBuf 0 TX_BUF_SIZE text
  { s with g_pcTXBuf := r.1, uartOut := s.uartOut ++ r.1.take r.2 }

/-- The call `Mailbox_post(CmdMailbox, &msg, BIOS_NO_WAIT)`. -/
def Mailbox_post (s : Console) (msg : tMailboxMsg) : Console :=
  { s with posted := s.posted ++ [msg] }

/-- Conversion `%15s`: the string, padded with blanks on the left to 15
characters. -/
def fmt_15s (x : List Char) : List Char := List.replicate (15 - x.length) ' ' ++ x

/-- The names and help texts of `g_psCmdTable`, in the order of the table. -/
def g_psCmdTable_text : List (List Char × List Char) :=
  [("help".toList, ": Display list of commands".toList),
   ("h".toList, ": alias for help".toList),
   ("?".toList, ": alias for help".toList),
   ("activate".toList, ": Get a CIK from exosite".toList),
   ("alert".toList, ": Send an alert to the saved email address.".toList),
   ("clear".toList, ": Clear the display ".toList),
   ("connect".toList, ": Tries to establish a connection with exosite.".toList),
   ("getmac".toList, ": Prints the current MAC address.".toList),
   ("led".toList, ": Toggle LEDs. Type \"led help\" for more info.".toList),
   ("ntp".toList, ": Tries to connenct to the provided IP during start-up!".toList),
   ("proxy".toList, ": Set or disable a HTTP proxy server.".toList),
   ("setemail".toList, ": Change the email address used for alerts.".toList),
   ("tictactoe".toList, ": Play tic-tac-toe!".toList)]

/-- Array of possible alert messages; `none` is the NULL that ends it. -/
def g_ppcAlertMessages : List (Option (List Char)) :=
  [some "Hello World!!".toList,
   some "Testing Exosite scripting features.".toList,
   some "Log into Exosite for a quick game of tic-tac-toe!".toList,
   none]

/-- This function implements the "help" command. -/
def Cmd_help (_env : ConsoleEnv) (_argc : Nat) (_argv : List (List Char)) (s : Console) :
    Int × Console :=
  let s := UART_print s "\nAvailable commands\r\n".toList
  let s := UART_print s "------------------\r\n".toList
  let s := g_psCmdTable_text.foldl
    (fun s e => UART_print s (fmt_15s e.1 ++ e.2 ++ "\r\n".toList)) s
  (CMDLINE_SUCCESS, s)

/-- The "activate" command: requests a CIK. -/
def Cmd_activate (env : ConsoleEnv) (_argc : Nat) (_argv : List (List Char)) (s : Console) :
    Int × Console :=
  (CMDLINE_SUCCESS, Mailbox_post s { ui32Request := Cloud_Activate_CIK, pcBuf := env.msgStack })

/-- The "clear" command sends an ascii control code to the UART. -/
def Cmd_clear (_env : ConsoleEnv) (_argc : Nat) (_argv : List (List Char)) (s : Console) :
    Int × Console :=
  (CMDLINE_SUCCESS, UART_print s "\x1b[2J\x1b[H".toList)

/-- The "led" command can be used to manually set the state of the on-board
LED. -/
def Cmd_led (_env : ConsoleEnv) (argc : Nat) (argv : List (List Char)) (s : Console) :
    Int × Console :=
  let arg := argv.getD 1 []
  if argc = 2 ∧ arg.getD 0 NUL = 'o' ∧ (arg.getD 1 NUL = 'n' ∨ arg.getD 1 NUL = 'f') then
    let g := { s.g with g_ui32LEDD1 := if arg.getD 1 NUL = 'n' then 1 else 0,
                        g_eLEDD1RW := READ_WRITE }
    (0, { s with g := g })
  else
    (0, UART_print s "\nLED command usage:\n\n    led <on|off>\n".toList)

/-- The "connect" command attempts to re-establish a link with the cloud
server. -/
def Cmd_connect (env : ConsoleEnv) (_argc : Nat) (_argv : List (List Char)) (s : Console) :
    Int × Console :=
  (CMDLINE_SUCCESS, Mailbox_post s { ui32Request := Cloud_Server_Connect, pcBuf := env.msgStack })

/-- The "getmac" command prints the user's current MAC address to the UART. -/
def Cmd_getmac (_env : ConsoleEnv) (_argc : Nat) (_argv : List (List Char)) (s : Console) :
    Int × Console :=
  (0, UART_print s ("MAC Address: ".toList ++ cstr s.g.g_pcMACAddress ++ "\n".toList))

/-- The proxy command accepts a URL string as a parameter. -/
def Cmd_proxy (env : ConsoleEnv) (argc : Nat) (argv : List (List Char)) (s : Console) :
    Int × Console :=
  if argc = 3 then
    let pcBuf := (snprintf env.msgStack 0 128
      (argv.getD 1 [] ++ ":".toList ++ argv.getD 2 [])).1
    (CMDLINE_SUCCESS, Mailbox_post s { ui32Request := Cloud_Proxy_Set, pcBuf := pcBuf })
  else
    let s := UART_print s "\nProxy configuration help:\r\n".toList
    let s := UART_print s
      "    The proxy command changes the proxy behavior of this board.\r\n".toList
    let s := UART_print s "    To disable the proxy, type:\n\n".toList
    let s := UART_print s "    proxy off\n\n".toList
    let s := UART_print s
      "    To enable the proxy with a specific proxy name and port, type\r\n".toList
    let s := UART_print s "    proxy <proxyaddress> <portnumber>. For example:\n\n".toList
    let s := UART_print s "    proxy www.mycompanyproxy.com 80\n\n".toList
    (CMDLINE_SUCCESS, s)

/-- The setemail command allows the user to set a contact email address to be
used for alert messages. -/
def Cmd_setemail (_env : ConsoleEnv) (argc : Nat) (argv : List (List Char)) (s : Console) :
    Int × Console :=
  if argc ≠ 2 then
    (0, UART_print s
      "\nsetemail command usage:\n\n    setemail yourname@example.com\n".toList)
  else
    let pcEmail := writeAt (strncpy s.g.g_pcEmail (argv.getD 1 []) 100) 99 [NUL]
    let g := { s.g with g_pcEmail := pcEmail, g_eEmailRW := READ_WRITE }
    let s := { s with g := g }
    (0, UART_print s ("Email set to: ".toList ++ cstr s.g.g_pcEmail ++ "\n\n".toList))

/-- The loop of `Cmd_alert` that prints the list of the available alert
messages, from index `ui32Index` on, up to the NULL entry. -/
def Cmd_alert_list (s : Console) (ui32Index : Nat) : List (Option (List Char)) → Console
  | some m :: rest =>
    Cmd_alert_list
      (UART_print s ("    alert ".toList ++ fmt_d ui32Index ++ ": ".toList ++ m ++ "\n".toList))
      (ui32Index + 1) rest
  | _ => s

/-- The alert command allows the user to send an alert message to the saved
email address. -/
def Cmd_alert (env : ConsoleEnv) (argc : Nat) (argv : List (List Char)) (s : Console) :
    Int × Console :=
  if argc ≠ 2 then
    let s := UART_print s "\nalert command usage:\n".toList
    (0, Cmd_alert_list s 0 g_ppcAlertMessages)
  else
    let ui32Index := strtoul0 (argv.getD 1 [])
    let src :=
      match g_ppcAlertMessages.getD ui32Index none with
      | some m => m
      | none => env.strayBytes ui32Index
    let g := { s.g with g_pcAlert := strncpy s.g.g_pcAlert src 50, g_eAlertRW := READ_WRITE }
    let s := { s with g := g, alertReads := s.alertReads ++ [ui32Index] }
    (0, UART_print s
      "Alert message set. Sending to the server on the next sync operation.\n".toList)

/-- Clears the game state, and prepares the global variables to start a new
game of tic-tac-toe (tictactoe.c). -/
def GameInit (s : Console) : Console :=
  let g := { s.g with g_eBoardStaeRW := WRITE_ONLY, g_ui32BoardState := 0 }
  { s with g := g, g_ui32Player := 0, g_ui32GameState := NEW_GAME }

/-- The tictactoe command allows users to play a game of tic-tac-toe. -/
def Cmd_tictactoe (_env : ConsoleEnv) (_argc : Nat) (_argv : List (List Char)) (s : Console) :
    Int × Console :=
  (0, GameInit { s with g_bGameActive := true })

/-- The ntp command allows users to provide a different NTP IP address. -/
def Cmd_ntp (env : ConsoleEnv) (argc : Nat) (argv : List (List Char)) (s : Console) :
    Int × Console :=
  let help : List Char :=
    ("Provide correct NTP address to proceed.\n  Command: ntp <IP>\n    <IP> can be in "
      ++ "the form \"time.nist.gov\" or \"192.168.1.1\"\n").toList
  if argc = 2 then
    let pcBuf := (snprintf env.msgStack 0 128 (argv.getD 1 [])).1
    let r := env.inet_pton (cstr pcBuf)
    if r.1 = 1 then
      if r.2 ≠ 0 then (0, Mailbox_post s { ui32Request := NTP_Connect, pcBuf := pcBuf })
      else (0, UART_print s help)
    else (0, Mailbox_post s { ui32Request := NTP_Resolve_URL, pcBuf := pcBuf })
  else (0, UART_print s help)
/-- Command line function callback type: `argc`, and `argv` as the strings its
first `argc` entries point to. -/
abbrev pfnCmdLine := ConsoleEnv → Nat → List (List Char) → Console → Int × Console

/-- Structure for an entry in the command list table. -/
structure tCmdLineEntry where
  pcCmd : List Char
  pfnCmd : pfnCmdLine
  pcHelp : List Char

/-- This is the table that holds the command names, implementing functions, and
brief description; the entry of zeros that ends it is the end of the list. -/
def g_psCmdTable : List tCmdLineEntry :=
  [{ pcCmd := "help".toList, pfnCmd := Cmd_help, pcHelp := ": Display list of commands".toList },
   { pcCmd := "h".toList, pfnCmd := Cmd_help, pcHelp := ": alias for help".toList },
   { pcCmd := "?".toList, pfnCmd := Cmd_help, pcHelp := ": alias for help".toList },
   { pcCmd := "activate".toList, pfnCmd := Cmd_activate,
     pcHelp := ": Get a CIK from exosite".toList },
   { pcCmd := "alert".toList, pfnCmd := Cmd_alert,
     pcHelp := ": Send an alert to the saved email address.".toList },
   { pcCmd := "clear".toList, pfnCmd := Cmd_clear, pcHelp := ": Clear the display ".toList },
   { pcCmd := "connect".toList, pfnCmd := Cmd_connect,
     pcHelp := ": Tries to establish a connection with exosite.".toList },
   { pcCmd := "getmac".toList, pfnCmd := Cmd_getmac,
     pcHelp := ": Prints the current MAC address.".toList },
   { pcCmd := "led".toList, pfnCmd := Cmd_led,
     pcHelp := ": Toggle LEDs. Type \"led help\" for more info.".toList },
   { pcCmd := "ntp".toList, pfnCmd := Cmd_ntp,
     pcHelp := ": Tries to connenct to the provided IP during start-up!".toList },
   { pcCmd := "proxy".toList, pfnCmd := Cmd_proxy,
     pcHelp := ": Set or disable a HTTP proxy server.".toList },
   { pcCmd := "setemail".toList, pfnCmd := Cmd_setemail,
     pcHelp := ": Change the email address used for alerts.".toList },
   { pcCmd := "tictactoe".toList, pfnCmd := Cmd_tictactoe, pcHelp := ": Play tic-tac-toe!".toList }]

/-- This function reads the available characters from the UART buffer and checks
if a command is received: the loop `while(ui32RxData)`, with `ui32RxData` as
the first argument.  A read past the end of `uartIn` reports UART_ERROR. -/
def CommandReceived : Nat → Console → Int × Console
  | 0, s => (CMD_INCOMPLETE, s)
  | ui32RxData + 1, s =>
    match s.uartIn with
    | [] => (CMDLINE_UART_ERROR, s)
    | none :: rest => (CMDLINE_UART_ERROR, { s with uartIn := rest })
    | some c :: rest =>
      let s := { s with uartIn := rest, g_pcRxBuf := writeAt s.g_pcRxBuf s.ui32Idx [c] }
      if c = '\r' ∨ c = '\n' then
        (CMD_RECEIVED, { s with g_pcRxBuf := writeAt s.g_pcRxBuf s.ui32Idx [NUL], ui32Idx := 0 })
      else
        let s := { s with ui32Idx := s.ui32Idx + 1 }
        if s.ui32Idx > RX_BUF_SIZE then
          (CMDLINE_BAD_CMD,
           { s with ui32Idx := 0,
                    g_pcRxBuf := writeAt s.g_pcRxBuf 0 (List.replicate RX_BUF_SIZE NUL) })
        else CommandReceived ui32RxData s

/-- The loop `while(*pcChar)` of `CmdLineProcess` from the character at offset
`pos` on: `rest` is the memory from `pcChar` on, `bFindArg` and `ui8Argc` are
the variables of these names.  The result is the memory from `pcChar` on as
the loop leaves it, and the offsets stored in `g_ppcArgv` from index `ui8Argc`
on, or `none` when the loop returns CMDLINE_TOO_MANY_ARGS. -/
def CmdLineProcess_scan : List Char → Nat → Bool → Nat → List Char × Option (List Nat)
  | [], _, _, _ => ([], some [])
  | c :: t, pos, bFindArg, ui8Argc =>
    if c = NUL then (c :: t, some [])
    else if c = ' ' then
      let r := CmdLineProcess_scan t (pos + 1) true ui8Argc
      (NUL :: r.1, r.2)
    else if bFindArg = true then
      if ui8Argc < CMDLINE_MAX_ARGS then
        let r := CmdLineProcess_scan t (pos + 1) false (ui8Argc + 1)
        (c :: r.1, r.2.map (fun argv => pos :: argv))
      else (c :: t, none)
    else
      let r := CmdLineProcess_scan t (pos + 1) bFindArg ui8Argc
      (c :: r.1, r.2)

/-- The search of `CmdLineProcess` through the command table, from the entries
still to be looked at. -/
def CmdLineProcess_lookup (env : ConsoleEnv) (ui8Argc : Nat) (argv : List (List Char))
    (s : Console) : List tCmdLineEntry → Int × Console
  | [] => (CMDLINE_BAD_CMD, s)
  | psCmdEntry :: rest =>
    if argv.getD 0 [] = psCmdEntry.pcCmd then psCmdEntry.pfnCmd env ui8Argc argv s
    else CmdLineProcess_lookup env ui8Argc argv s rest

/-- This function processes a command line string into arguments and executes
the command.  The command functions read `argv[i]` for `i < argc` only, so they
are given the strings these entries point to. -/
def CmdLineProcess (env : ConsoleEnv) (s : Console) : Int × Console :=
  let r := CmdLineProcess_scan s.g_pcRxBuf 0 true 0
  let s := { s with g_pcRxBuf := r.1 }
  match r.2 with
  | none => (CMDLINE_TOO_MANY_ARGS, s)
  | some g_ppcArgv =>
    let ui8Argc := g_ppcArgv.length
    let argv := g_ppcArgv.map (fun p => cstr (s.g_pcRxBuf.drop p))
    if ui8Argc ≠ 0 then CmdLineProcess_lookup env ui8Argc argv s g_psCmdTable
    else (CMDLINE_BAD_CMD, s)

/-- The console at start-up: the global resources as initialised, zeroed
buffers, nothing received, written or posted. -/
def initConsole (g : Globals) : Console :=
  { g := g
    g_pcRxBuf := List.replicate RX_BUF_SIZE NUL
    g_pcTXBuf := List.replicate TX_BUF_SIZE NUL
    ui32Idx := 0
    g_bGameActive := false
    g_ui32Player := 0
    g_ui32GameState := NEW_GAME
    uartIn := []
    uartOut := []
    posted := []
    alertReads := [] }

/-- The console with the command line `line` in its receive buffer, as
`CommandReceived` leaves it. -/
def withLine (s : Console) (line : List Char) : Console :=
  { s with g_pcRxBuf := writeAt (List.replicate RX_BUF_SIZE NUL) 0 line }

/-- A sample of the library function `inet_pton` for AF_INET: four decimal
fields of one to three digits, each at most 255, with dots between them; the
address is stored in network byte order. -/
def inet_pton_sample (src : List Char) : Int × Nat :=
  let fields := (splitAmp (src.map (fun c => if c = '.' then '&' else c)))
  if fields.length = 4
      ∧ fields.all (fun f => 0 < f.length && f.length ≤ 3 && f.all Char.isDigit
          && decide (strtoul_digits 10 f 0 ≤ 255)) then
    (1, (fields.map (fun f => strtoul_digits 10 f 0)).foldr (fun d acc => d + 256 * acc) 0)
  else (0, 0)

/-- A sample environment: zeroed stack memory, no bytes behind a stray
pointer. -/
def sampleEnv : ConsoleEnv :=
  { inet_pton := inet_pton_sample, strayBytes := fun _ => [], msgStack := List.replicate 128 NUL }
/-- The pieces of a command line between the blanks. -/
def splitBlank : List Char → List (List Char)
  | [] => [[]]
  | c :: t =>
    if c = ' ' then [] :: splitBlank t
    else
      match splitBlank t with
      | [] => [[c]]
      | h :: r => (c :: h) :: r

/-- The maximal runs of characters other than the blank in a command line, in
their order: the pieces between the blanks that are not empty. -/
def runs (line : List Char) : List (List Char) :=
  (splitBlank line).filter (fun p => decide (p ≠ []))

/-- The receive buffer once `CmdLineProcess` has split the line in it: each
blank of the line is replaced by a terminator. -/
def splitBuffer (pcRxBuf : List Char) : List Char :=
  (cstr pcRxBuf).map (fun c => if c = ' ' then NUL else c) ++ pcRxBuf.drop (cstr pcRxBuf).length

/-- The globals of a board that syncs through the proxy
`myproxy.example.com:8080`, set by an earlier proxy command. -/
def proxiedGlobals : Globals :=
  { syncGlobals with
    g_bProxy := true
    g_pcIP := writeAt (List.replicate 50 NUL) 0 "myproxy.example.com:8080".toList }

/-- The message buffer `Cmd_ntp` fills from its argument. -/
def ntpPayload (env : ConsoleEnv) (arg : List Char) : List Char :=
  (snprintf env.msgStack 0 128 arg).1

/-- The message `Cmd_ntp` posts for the argument `arg` in the sample
environment, with the request code `code`. -/
def ntpMsg (code : Nat) (arg : List Char) : tMailboxMsg :=
  { ui32Request := code, pcBuf := ntpPayload sampleEnv arg }

/-- Inputs of an iteration in which `Mailbox_pend` delivers `msg`. -/
def pendInputs (msg : tMailboxMsg) : IterInputs := { quietInputs with pend := some msg }

/-- The buffer and the running length `ui32DataLen` of `GetRequestBody` as they
are before its statement for the alert: the body is filled as for an alert
that is not sent. -/
def GetRequestBody_before_alert (g : Globals) (hw : BoardInputs) (pcDataBuf : List Char)
    (ui32DataBufLen : Nat) : List Char × Nat :=
  GetRequestBody_fill { (ReadOnTime g hw.ticks).2 with g_eAlertRW := NONE } pcDataBuf
    ui32DataBufLen hw.ui16Temp hw.sw1 hw.sw2 (ReadOnTime g hw.ticks).1

/-- An email address of 72 characters. -/
def longEmail : List Char :=
  "firstname.middlename.lastname@engineering-department.example-company.com".toList

/-- The console after the command lines `setemail` with `longEmail` and
`alert 0`, typed after start-up. -/
def afterEmailAndAlert : Console :=
  (CmdLineProcess sampleEnv
    (withLine
      (CmdLineProcess sampleEnv
        (withLine (initConsole (initGlobals [])) ("setemail ".toList ++ longEmail))).2
      "alert 0".toList)).2

/-! ## Lemmas on C strings and formatting -/

theorem noNUL_nil : noNUL [] := by
  intro c hc
  cases hc

theorem noNUL_append {s t : List Char} (hs : noNUL s) (ht : noNUL t) : noNUL (s ++ t) := by
  intro c hc
  rcases List.mem_append.mp hc with h | h
  · exact hs c h
  · exact ht c h

theorem noNUL_cons {c : Char} {t : List Char} (hc : c ≠ NUL) (ht : noNUL t) :
    noNUL (c :: t) := by
  intro d hd
  rcases List.mem_cons.mp hd with rfl | h
  · exact hc
  · exact ht d h

theorem noNUL_ite {c : Prop} [Decidable c] {s t : List Char} (hs : noNUL s) (ht : noNUL t) :
    noNUL (if c then s else t) := by
  split
  · exact hs
  · exact ht

theorem cstr_noNUL (mem : List Char) : noNUL (cstr mem) := by
  intro c hc
  have h := List.mem_takeWhile_imp hc
  simpa using h

theorem cstr_append_NUL (s tail : List Char) (hs : noNUL s) :
    cstr (s ++ NUL :: tail) = s := by
  induction s with
  | nil => simp [cstr]
  | cons c t ih =>
    have hc : c ≠ NUL := hs c (List.mem_cons_self _ _)
    have ht : noNUL t := fun d hd => hs d (List.mem_cons_of_mem _ hd)
    have ih2 := ih ht
    simp only [cstr] at ih2
    simp [cstr, hc, ih2]

theorem ite_ne_of {c : Prop} [Decidable c] {a b x : Char} (ha : a ≠ x) (hb : b ≠ x) :
    (if c then a else b) ≠ x := by
  split <;> assumption

theorem digitChar_ne_NUL (n : Nat) : Nat.digitChar n ≠ NUL := by
  unfold Nat.digitChar
  repeat (first | exact (by decide) | apply ite_ne_of (by decide))

theorem toDigitsCore_noNUL (b : Nat) : ∀ (f n : Nat) (ds : List Char),
    noNUL ds → noNUL (Nat.toDigitsCore b f n ds) := by
  intro f
  induction f with
  | zero => intro n ds h; simpa [Nat.toDigitsCore] using h
  | succ f ih =>
    intro n ds h
    have h2 : noNUL (Nat.digitChar (n % b) :: ds) := noNUL_cons (digitChar_ne_NUL _) h
    simp only [Nat.toDigitsCore]
    split
    · exact h2
    · exact ih _ _ h2

theorem toDigits_noNUL (b n : Nat) : noNUL (Nat.toDigits b n) := by
  unfold Nat.toDigits
  exact toDigitsCore_noNUL b _ _ [] noNUL_nil

theorem fmt_u_noNUL (n : Nat) : noNUL (fmt_u n) := toDigits_noNUL 10 _

theorem fmt_x_noNUL (n : Nat) : noNUL (fmt_x n) := toDigits_noNUL 16 _

theorem fmt_d_noNUL (n : Nat) : noNUL (fmt_d n) := by
  unfold fmt_d
  split
  · exact toDigits_noNUL 10 _
  · exact noNUL_cons (by decide) (toDigits_noNUL 10 _)

theorem outboundBody_noNUL (g : Globals) (t a b o : Nat) : noNUL (outboundBody g t a b o) := by
  unfold outboundBody
  refine noNUL_append (noNUL_append (noNUL_append (noNUL_append (noNUL_append (noNUL_append
    (noNUL_append (noNUL_append (noNUL_append ?_ ?_) ?_) ?_) ?_) ?_) ?_) ?_) ?_) ?_
  · decide
  · exact fmt_d_noNUL _
  · decide
  · exact fmt_d_noNUL _
  · exact noNUL_append (by decide) (fmt_u_noNUL _)
  · exact noNUL_append (by decide) (fmt_d_noNUL _)
  · exact noNUL_ite (noNUL_append (by decide) (fmt_x_noNUL _)) noNUL_nil
  · exact noNUL_ite (noNUL_append (by decide) (fmt_d_noNUL _)) noNUL_nil
  · exact noNUL_ite (noNUL_append (by decide) (cstr_noNUL _)) noNUL_nil
  · exact noNUL_ite (noNUL_append (by decide) (cstr_noNUL _)) noNUL_nil

/-! ## Lemmas on the outbound body -/

theorem u32sub_of_le (n k : Nat) (hk : k ≤ n) (hn : n < 2 ^ 32) : u32sub n k = n - k := by
  unfold u32sub
  omega

theorem u32_of_lt (n : Nat) (hn : n < 2 ^ 32) : u32 n = n := by
  unfold u32
  omega

theorem writeAt_zero (mem xs : List Char) :
    writeAt mem 0 xs = xs ++ mem.drop xs.length := by
  simp [writeAt]

theorem writeAt_filled (body tail xs : List Char) :
    writeAt (body ++ NUL :: tail) body.length (xs ++ [NUL])
      = (body ++ xs) ++ NUL :: tail.drop xs.length := by
  simp [writeAt, List.take_append_eq_append_take, List.drop_append_eq_append_drop]

theorem snprintf_first (mem s : List Char) (n : Nat) (hn : n < 2 ^ 32) (hfit : s.length < n) :
    Filled ((snprintf mem 0 n s).1, u32 (snprintf mem 0 n s).2) s := by
  have h0 : n ≠ 0 := by omega
  have ht : s.take (n - 1) = s := List.take_of_length_le (by omega)
  refine ⟨mem.drop (s.length + 1), ?_⟩
  simp [snprintf, h0, ht, writeAt_zero, u32_of_lt s.length (by omega)]

theorem snprintf_at_fits {st : List Char × Nat} {body : List Char} (s : List Char) (n : Nat)
    (h : Filled st body) (hn : n < 2 ^ 32) (hfit : body.length + s.length < n) :
    Filled (snprintf_at st n s) (body ++ s) := by
  obtain ⟨tail, rfl⟩ := h
  have hsz : u32sub n body.length = n - body.length := u32sub_of_le _ _ (by omega) hn
  have h0 : n - body.length ≠ 0 := by omega
  have ht : s.take (n - body.length - 1) = s := List.take_of_length_le (by omega)
  refine ⟨tail.drop s.length, ?_⟩
  simp only [snprintf_at, snprintf, hsz, h0, if_false, ht, writeAt_filled, List.length_append]
  rw [u32_of_lt _ (by omega)]

theorem snprintf_at_if_fits {st : List Char × Nat} {body : List Char} (c : Prop) [Decidable c]
    (s : List Char) (n : Nat) (h : Filled st body) (hn : n < 2 ^ 32)
    (hfit : body.length + (if c then s else []).length < n) :
    Filled (if c then snprintf_at st n s else st) (body ++ if c then s else []) := by
  by_cases hc : c
  · simp only [hc, if_true] at hfit ⊢
    exact snprintf_at_fits s n h hn hfit
  · simpa [hc] using h

theorem Filled_cstr {st : List Char × Nat} {body : List Char} (h : Filled st body)
    (hb : noNUL body) : cstr st.1 = body := by
  obtain ⟨tail, rfl⟩ := h
  exact cstr_append_NUL body tail hb

theorem GetRequestBody_fill_fits (g : Globals) (mem : List Char) (n t a b o : Nat)
    (hn : n < 2 ^ 32) (hfit : (outboundBody g t a b o).length < n) :
    Filled (GetRequestBody_fill g mem n t a b o) (outboundBody g t a b o) := by
  unfold outboundBody at hfit ⊢
  unfold GetRequestBody_fill
  simp only [List.length_append] at hfit
  have h0 := snprintf_first mem
    ("usrsw1=".toList ++ fmt_d a ++ "&usrsw2=".toList ++ fmt_d b) n hn
    (by simp only [List.length_append]; omega)
  have h1 := snprintf_at_fits ("&jtemp=".toList ++ fmt_u t) n h0 hn
    (by simp only [List.length_append]; omega)
  have h2 := snprintf_at_fits ("&ontime=".toList ++ fmt_d o) n h1 hn
    (by simp only [List.length_append]; omega)
  have h3 := snprintf_at_if_fits (g.g_eBoardStaeRW = READ_WRITE ∨ g.g_eBoardStaeRW = WRITE_ONLY)
    ("&gamestate=0x".toList ++ fmt_x g.g_ui32BoardState) n h2 hn
    (by simp only [List.length_append]; omega)
  have h4 := snprintf_at_if_fits (g.g_eLEDD1RW = READ_WRITE ∨ g.g_eLEDD1RW = WRITE_ONLY)
    ("&ledd1=".toList ++ fmt_d g.g_ui32LEDD1) n h3 hn
    (by simp only [List.length_append]; omega)
  have h5 := snprintf_at_if_fits (g.g_eEmailRW = READ_WRITE ∨ g.g_eEmailRW = WRITE_ONLY)
    ("&emailaddr=".toList ++ cstr g.g_pcEmail) n h4 hn
    (by simp only [List.length_append]; omega)
  exact snprintf_at_if_fits (g.g_eAlertRW = READ_WRITE ∨ g.g_eAlertRW = WRITE_ONLY)
    ("&alert=".toList ++ cstr g.g_pcAlert) n h5 hn
    (by simp only [List.length_append]; omega)

/-! ## Outbound body: inclusion and demotion -/

theorem ReadOnTime_outboundBody (g : Globals) (ticks t a b o : Nat) :
    outboundBody (ReadOnTime g ticks).2 t a b o = outboundBody g t a b o := rfl

theorem GetRequestBody_cstr (g : Globals) (hw : BoardInputs) (mem : List Char) (n : Nat)
    (hn : n < 2 ^ 32)
    (hfit : (outboundBody g hw.ui16Temp hw.sw1 hw.sw2 (ReadOnTime g hw.ticks).1).length < n) :
    cstr (GetRequestBody g hw mem n).1
      = outboundBody g hw.ui16Temp hw.sw1 hw.sw2 (ReadOnTime g hw.ticks).1 := by
  have h := GetRequestBody_fill_fits (ReadOnTime g hw.ticks).2 mem n hw.ui16Temp hw.sw1 hw.sw2
    (ReadOnTime g hw.ticks).1 hn (by rw [ReadOnTime_outboundBody]; exact hfit)
  rw [ReadOnTime_outboundBody] at h
  exact Filled_cstr h (outboundBody_noNUL _ _ _ _ _)

theorem GetRequestBody_ignores_ledd1 (g : Globals) (hw : BoardInputs) (mem : List Char)
    (n x : Nat) (h : ¬ (g.g_eLEDD1RW = READ_WRITE ∨ g.g_eLEDD1RW = WRITE_ONLY)) :
    (GetRequestBody { g with g_ui32LEDD1 := x } hw mem n).1 = (GetRequestBody g hw mem n).1 := by
  simp only [GetRequestBody, GetRequestBody_fill, ReadOnTime, h, if_false]

theorem GetRequestBody_ignores_gamestate (g : Globals) (hw : BoardInputs) (mem : List Char)
    (n x : Nat) (h : ¬ (g.g_eBoardStaeRW = READ_WRITE ∨ g.g_eBoardStaeRW = WRITE_ONLY)) :
    (GetRequestBody { g with g_ui32BoardState := x } hw mem n).1
      = (GetRequestBody g hw mem n).1 := by
  simp only [GetRequestBody, GetRequestBody_fill, ReadOnTime, h, if_false]

theorem GetRequestBody_ignores_emailaddr (g : Globals) (hw : BoardInputs) (mem : List Char)
    (n : Nat) (x : List Char)
    (h : ¬ (g.g_eEmailRW = READ_WRITE ∨ g.g_eEmailRW = WRITE_ONLY)) :
    (GetRequestBody { g with g_pcEmail := x } hw mem n).1 = (GetRequestBody g hw mem n).1 := by
  simp only [GetRequestBody, GetRequestBody_fill, ReadOnTime, h, if_false]

theorem GetRequestBody_ignores_alert (g : Globals) (hw : BoardInputs) (mem : List Char)
    (n : Nat) (x : List Char)
    (h : ¬ (g.g_eAlertRW = READ_WRITE ∨ g.g_eAlertRW = WRITE_ONLY)) :
    (GetRequestBody { g with g_pcAlert := x } hw mem n).1 = (GetRequestBody g hw mem n).1 := by
  simp only [GetRequestBody, GetRequestBody_fill, ReadOnTime, h, if_false]

/-- C1: when the complete body fits in the buffer passed to `GetRequestBody`,
the body produced is the four fields usrsw1, usrsw2, jtemp and ontime followed,
in this order, by the segment `&gamestate=0x..`, `&ledd1=..`, `&emailaddr=..`,
`&alert=..` of each attribute whose mode at call time is READ_WRITE or
WRITE_ONLY, and by nothing for an attribute in another mode; what is written
to the buffer does not depend on the value of an attribute in another mode. -/
theorem GetRequestBody_includes_iff_writable (g : Globals) (hw : BoardInputs)
    (pcDataBuf : List Char) (ui32DataBufLen : Nat) (hlen : ui32DataBufLen < 2 ^ 32)
    (hfit : (outboundBody g hw.ui16Temp hw.sw1 hw.sw2 (ReadOnTime g hw.ticks).1).length
      < ui32DataBufLen) :
    cstr (GetRequestBody g hw pcDataBuf ui32DataBufLen).1
      = "usrsw1=".toList ++ fmt_d hw.sw1 ++ "&usrsw2=".toList ++ fmt_d hw.sw2
        ++ ("&jtemp=".toList ++ fmt_u hw.ui16Temp)
        ++ ("&ontime=".toList ++ fmt_d (ReadOnTime g hw.ticks).1)
        ++ (if g.g_eBoardStaeRW = READ_WRITE ∨ g.g_eBoardStaeRW = WRITE_ONLY
            then "&gamestate=0x".toList ++ fmt_x g.g_ui32BoardState else [])
        ++ (if g.g_eLEDD1RW = READ_WRITE ∨ g.g_eLEDD1RW = WRITE_ONLY
            then "&ledd1=".toList ++ fmt_d g.g_ui32LEDD1 else [])
        ++ (if g.g_eEmailRW = READ_WRITE ∨ g.g_eEmailRW = WRITE_ONLY
            then "&emailaddr=".toList ++ cstr g.g_pcEmail else [])
        ++ (if g.g_eAlertRW = READ_WRITE ∨ g.g_eAlertRW = WRITE_ONLY
            then "&alert=".toList ++ cstr g.g_pcAlert else [])
    ∧ (¬ (g.g_eBoardStaeRW = READ_WRITE ∨ g.g_eBoardStaeRW = WRITE_ONLY) → ∀ x : Nat,
        (GetRequestBody { g with g_ui32BoardState := x } hw pcDataBuf ui32DataBufLen).1
          = (GetRequestBody g hw pcDataBuf ui32DataBufLen).1)
    ∧ (¬ (g.g_eLEDD1RW = READ_WRITE ∨ g.g_eLEDD1RW = WRITE_ONLY) → ∀ x : Nat,
        (GetRequestBody { g with g_ui32LEDD1 := x } hw pcDataBuf ui32DataBufLen).1
          = (GetRequestBody g hw pcDataBuf ui32DataBufLen).1)
    ∧ (¬ (g.g_eEmailRW = READ_WRITE ∨ g.g_eEmailRW = WRITE_ONLY) → ∀ x : List Char,
        (GetRequestBody { g with g_pcEmail := x } hw pcDataBuf ui32DataBufLen).1
          = (GetRequestBody g hw pcDataBuf ui32DataBufLen).1)
    ∧ (¬ (g.g_eAlertRW = READ_WRITE ∨ g.g_eAlertRW = WRITE_ONLY) → ∀ x : List Char,
        (GetRequestBody { g with g_pcAlert := x } hw pcDataBuf ui32DataBufLen).1
          = (GetRequestBody g hw pcDataBuf ui32DataBufLen).1) := by
  refine ⟨?_, ?_, ?_, ?_, ?_⟩
  · rw [GetRequestBody_cstr g hw pcDataBuf ui32DataBufLen hlen hfit]
    rfl
  · intro h x
    exact GetRequestBody_ignores_gamestate g hw pcDataBuf ui32DataBufLen x h
  · intro h x
    exact GetRequestBody_ignores_ledd1 g hw pcDataBuf ui32DataBufLen x h
  · intro h x
    exact GetRequestBody_ignores_emailaddr g hw pcDataBuf ui32DataBufLen x h
  · intro h x
    exact GetRequestBody_ignores_alert g hw pcDataBuf ui32DataBufLen x h

/-- C1, at the initial modes (gamestate WRITE_ONLY, ledd1 and emailaddr
READ_WRITE, alert NONE) with a 128-byte buffer: gamestate, ledd1 and emailaddr
are in the body, alert is not. -/
theorem GetRequestBody_includes_iff_writable_witness :
    cstr (GetRequestBody (initGlobals []) ⟨25, 3, 4, 5000⟩ (List.replicate 128 NUL) 128).1
      = "usrsw1=3&usrsw2=4&jtemp=25&ontime=5&gamestate=0x0&ledd1=0&emailaddr=".toList := by
  have h := (GetRequestBody_includes_iff_writable (initGlobals []) ⟨25, 3, 4, 5000⟩
    (List.replicate 128 NUL) 128 (by decide) (by decide)).1
  rw [h]
  decide

theorem GetRequestBody_snd (g : Globals) (hw : BoardInputs) (mem : List Char) (n : Nat) :
    (GetRequestBody g hw mem n).2 = GetRequestBody_demote (ReadOnTime g hw.ticks).2 := rfl

theorem ReadOnTime_fields (g : Globals) (ticks : Nat) :
    (ReadOnTime g ticks).2.g_eLEDD1RW = g.g_eLEDD1RW
    ∧ (ReadOnTime g ticks).2.g_eBoardStaeRW = g.g_eBoardStaeRW
    ∧ (ReadOnTime g ticks).2.g_eEmailRW = g.g_eEmailRW
    ∧ (ReadOnTime g ticks).2.g_eAlertRW = g.g_eAlertRW
    ∧ (ReadOnTime g ticks).2.g_ui32LEDD1 = g.g_ui32LEDD1
    ∧ (ReadOnTime g ticks).2.g_ui32BoardState = g.g_ui32BoardState
    ∧ (ReadOnTime g ticks).2.g_pcEmail = g.g_pcEmail
    ∧ (ReadOnTime g ticks).2.g_pcAlert = g.g_pcAlert :=
  ⟨rfl, rfl, rfl, rfl, rfl, rfl, rfl, rfl⟩

theorem GetRequestBody_demote_fields (g : Globals) :
    (GetRequestBody_demote g).g_eLEDD1RW = demoted g.g_eLEDD1RW READ_ONLY
    ∧ (GetRequestBody_demote g).g_eBoardStaeRW = demoted g.g_eBoardStaeRW READ_ONLY
    ∧ (GetRequestBody_demote g).g_eEmailRW = demoted g.g_eEmailRW READ_ONLY
    ∧ (GetRequestBody_demote g).g_eAlertRW = demoted g.g_eAlertRW NONE
    ∧ (GetRequestBody_demote g).g_ui32LEDD1 = g.g_ui32LEDD1
    ∧ (GetRequestBody_demote g).g_ui32BoardState = g.g_ui32BoardState
    ∧ (GetRequestBody_demote g).g_pcEmail = g.g_pcEmail
    ∧ (GetRequestBody_demote g).g_pcAlert = g.g_pcAlert := by
  unfold GetRequestBody_demote demoted
  by_cases hl : g.g_eLEDD1RW = READ_WRITE <;> by_cases hb : g.g_eBoardStaeRW = READ_WRITE <;>
    by_cases he : g.g_eEmailRW = READ_WRITE <;> by_cases ha : g.g_eAlertRW = READ_WRITE <;>
    simp [hl, hb, he, ha]

theorem demoted_idem (m next : tReadWriteType) (hn : next ≠ READ_WRITE) :
    demoted (demoted m next) next = demoted m next := by
  unfold demoted
  by_cases h : m = READ_WRITE <;> simp [h, hn]

theorem demoted_writable (m next : tReadWriteType) (hn : next ≠ READ_WRITE)
    (hw : next ≠ WRITE_ONLY) :
    (demoted m next = READ_WRITE ∨ demoted m next = WRITE_ONLY) ↔ m = WRITE_ONLY := by
  unfold demoted
  by_cases h : m = READ_WRITE
  · simp [h, hn, hw]
  · simp [h]

theorem demoted_not_writable (m next : tReadWriteType) (hm : m = READ_WRITE)
    (hn : next ≠ READ_WRITE) (hw : next ≠ WRITE_ONLY) :
    ¬ (demoted m next = READ_WRITE ∨ demoted m next = WRITE_ONLY) := by
  rw [demoted_writable m next hn hw, hm]
  decide

/-- C2: after one call of `GetRequestBody`, ledd1, gamestate and emailaddr are
READ_ONLY if they were READ_WRITE and alert is NONE if it was READ_WRITE; a
second call right after it leaves the modes as they are, what it writes to
the buffer does not depend on the value of an attribute that was READ_WRITE
before the first call, and its body, when it fits in the buffer, holds the
segments of the attributes that were WRITE_ONLY before the first call only:
none of an attribute that was READ_WRITE. -/
theorem GetRequestBody_demotes_then_silent (g : Globals) (hw hw2 : BoardInputs)
    (buf buf2 : List Char) (n n2 : Nat) :
    let g1 := (GetRequestBody g hw buf n).2
    let g2 := (GetRequestBody g1 hw2 buf2 n2).2
    (g.g_eLEDD1RW = READ_WRITE → g1.g_eLEDD1RW = READ_ONLY)
    ∧ (g.g_eBoardStaeRW = READ_WRITE → g1.g_eBoardStaeRW = READ_ONLY)
    ∧ (g.g_eEmailRW = READ_WRITE → g1.g_eEmailRW = READ_ONLY)
    ∧ (g.g_eAlertRW = READ_WRITE → g1.g_eAlertRW = NONE)
    ∧ (g2.g_eLEDD1RW = g1.g_eLEDD1RW ∧ g2.g_eBoardStaeRW = g1.g_eBoardStaeRW
        ∧ g2.g_eEmailRW = g1.g_eEmailRW ∧ g2.g_eAlertRW = g1.g_eAlertRW)
    ∧ ((g.g_eLEDD1RW = READ_WRITE → ∀ x : Nat,
          (GetRequestBody { g1 with g_ui32LEDD1 := x } hw2 buf2 n2).1
            = (GetRequestBody g1 hw2 buf2 n2).1)
        ∧ (g.g_eBoardStaeRW = READ_WRITE → ∀ x : Nat,
          (GetRequestBody { g1 with g_ui32BoardState := x } hw2 buf2 n2).1
            = (GetRequestBody g1 hw2 buf2 n2).1)
        ∧ (g.g_eEmailRW = READ_WRITE → ∀ x : List Char,
          (GetRequestBody { g1 with g_pcEmail := x } hw2 buf2 n2).1
            = (GetRequestBody g1 hw2 buf2 n2).1)
        ∧ (g.g_eAlertRW = READ_WRITE → ∀ x : List Char,
          (GetRequestBody { g1 with g_pcAlert := x } hw2 buf2 n2).1
            = (GetRequestBody g1 hw2 buf2 n2).1))
    ∧ (n2 < 2 ^ 32 →
        (outboundBody g1 hw2.ui16Temp hw2.sw1 hw2.sw2 (ReadOnTime g1 hw2.ticks).1).length < n2 →
        cstr (GetRequestBody g1 hw2 buf2 n2).1
          = "usrsw1=".toList ++ fmt_d hw2.sw1 ++ "&usrsw2=".toList ++ fmt_d hw2.sw2
            ++ ("&jtemp=".toList ++ fmt_u hw2.ui16Temp)
            ++ ("&ontime=".toList ++ fmt_d (ReadOnTime g1 hw2.ticks).1)
            ++ (if g.g_eBoardStaeRW = WRITE_ONLY
                then "&gamestate=0x".toList ++ fmt_x g.g_ui32BoardState else [])
            ++ (if g.g_eLEDD1RW = WRITE_ONLY
                then "&ledd1=".toList ++ fmt_d g.g_ui32LEDD1 else [])
            ++ (if g.g_eEmailRW = WRITE_ONLY
                then "&emailaddr=".toList ++ cstr g.g_pcEmail else [])
            ++ (if g.g_eAlertRW = WRITE_ONLY
                then "&alert=".toList ++ cstr g.g_pcAlert else [])) := by
  intro g1 g2
  have e1 : g1 = GetRequestBody_demote (ReadOnTime g hw.ticks).2 :=
    GetRequestBody_snd g hw buf n
  have e2 : g2 = GetRequestBody_demote (ReadOnTime g1 hw2.ticks).2 :=
    GetRequestBody_snd g1 hw2 buf2 n2
  clear_value g1 g2
  obtain ⟨hl, hb, he, ha, vl, vb, ve, va⟩ := GetRequestBody_demote_fields (ReadOnTime g hw.ticks).2
  obtain ⟨hl2, hb2, he2, ha2, -⟩ := GetRequestBody_demote_fields (ReadOnTime g1 hw2.ticks).2
  rw [← e1] at hl hb he ha vl vb ve va
  rw [← e2] at hl2 hb2 he2 ha2
  obtain ⟨rl, rb, re, ra, sl, sb, se, sa⟩ := ReadOnTime_fields g hw.ticks
  obtain ⟨rl2, rb2, re2, ra2, -⟩ := ReadOnTime_fields g1 hw2.ticks
  rw [rl] at hl
  rw [rb] at hb
  rw [re] at he
  rw [ra] at ha
  rw [sl] at vl
  rw [sb] at vb
  rw [se] at ve
  rw [sa] at va
  rw [rl2, hl] at hl2
  rw [rb2, hb] at hb2
  rw [re2, he] at he2
  rw [ra2, ha] at ha2
  refine ⟨?_, ?_, ?_, ?_, ⟨?_, ?_, ?_, ?_⟩, ⟨?_, ?_, ?_, ?_⟩, ?_⟩
  · intro h
    rw [hl, demoted, if_pos h]
  · intro h
    rw [hb, demoted, if_pos h]
  · intro h
    rw [he, demoted, if_pos h]
  · intro h
    rw [ha, demoted, if_pos h]
  · rw [hl2, hl, demoted_idem _ _ (by decide)]
  · rw [hb2, hb, demoted_idem _ _ (by decide)]
  · rw [he2, he, demoted_idem _ _ (by decide)]
  · rw [ha2, ha, demoted_idem _ _ (by decide)]
  · intro h x
    exact GetRequestBody_ignores_ledd1 g1 hw2 buf2 n2 x
      (by rw [hl]; exact demoted_not_writable _ _ h (by decide) (by decide))
  · intro h x
    exact GetRequestBody_ignores_gamestate g1 hw2 buf2 n2 x
      (by rw [hb]; exact demoted_not_writable _ _ h (by decide) (by decide))
  · intro h x
    exact GetRequestBody_ignores_emailaddr g1 hw2 buf2 n2 x
      (by rw [he]; exact demoted_not_writable _ _ h (by decide) (by decide))
  · intro h x
    exact GetRequestBody_ignores_alert g1 hw2 buf2 n2 x
      (by rw [ha]; exact demoted_not_writable _ _ h (by decide) (by decide))
  · intro hn hfit
    rw [GetRequestBody_cstr g1 hw2 buf2 n2 hn hfit]
    unfold outboundBody
    rw [hl, hb, he, ha, vl, vb, ve, va]
    simp only [demoted_writable _ _ (by decide : READ_ONLY ≠ READ_WRITE)
      (by decide : READ_ONLY ≠ WRITE_ONLY),
      demoted_writable _ _ (by decide : NONE ≠ READ_WRITE) (by decide : NONE ≠ WRITE_ONLY)]

/-- C2, from the initial modes: the first body carries gamestate (WRITE_ONLY),
ledd1 and emailaddr (READ_WRITE); the second one carries gamestate only. -/
theorem GetRequestBody_demotes_then_silent_witness :
    (GetRequestBody (initGlobals []) ⟨25, 3, 4, 5000⟩ (List.replicate 128 NUL) 128).2.g_eLEDD1RW
      = READ_ONLY
    ∧ cstr (GetRequestBody
        (GetRequestBody (initGlobals []) ⟨25, 3, 4, 5000⟩ (List.replicate 128 NUL) 128).2
        ⟨25, 3, 4, 6000⟩ (List.replicate 128 NUL) 128).1
      = "usrsw1=3&usrsw2=4&jtemp=25&ontime=6&gamestate=0x0".toList := by
  have h := GetRequestBody_demotes_then_silent (initGlobals []) ⟨25, 3, 4, 5000⟩
    ⟨25, 3, 4, 6000⟩ (List.replicate 128 NUL) (List.replicate 128 NUL) 128 128
  refine ⟨h.1 (by decide), ?_⟩
  rw [h.2.2.2.2.2.2 (by decide) (by decide)]
  decide

/-! ## Inbound response: what may change -/

theorem InboundFrame_refl (g : Globals) : InboundFrame g g :=
  ⟨rfl, rfl, rfl, rfl, fun _ => rfl, fun _ => rfl, fun _ => rfl⟩

theorem InboundFrame_trans {a b c : Globals} (h1 : InboundFrame a b) (h2 : InboundFrame b c) :
    InboundFrame a c := by
  obtain ⟨l1, e1, b1, a1, vl1, ve1, vb1⟩ := h1
  obtain ⟨l2, e2, b2, a2, vl2, ve2, vb2⟩ := h2
  refine ⟨l2.trans l1, e2.trans e1, b2.trans b1, a2.trans a1, ?_, ?_, ?_⟩
  · intro h
    rw [vl2 (by rw [l1]; exact h), vl1 h]
  · intro h
    rw [ve2 (by rw [e1]; exact h), ve1 h]
  · intro h
    rw [vb2 (by rw [b1]; exact h), vb1 h]

theorem applyAlias_frame (mem : List Char) (g : Globals) (i : Nat) :
    InboundFrame g (applyAlias mem g i) := by
  unfold applyAlias
  simp only
  split
  · split
    · next h => exact ⟨rfl, rfl, rfl, rfl, fun hn => absurd h hn, fun _ => rfl, fun _ => rfl⟩
    · exact InboundFrame_refl g
  · split
    · split
      · next h => exact ⟨rfl, rfl, rfl, rfl, fun _ => rfl, fun hn => absurd h hn, fun _ => rfl⟩
      · exact InboundFrame_refl g
    · split
      · split
        · next h =>
          exact ⟨rfl, rfl, rfl, rfl, fun _ => rfl, fun _ => rfl, fun hn => absurd h hn⟩
        · exact InboundFrame_refl g
      · exact InboundFrame_refl g

theorem foldl_applyAlias_frame (mem : List Char) (is : List Nat) :
    ∀ g : Globals, InboundFrame g (is.foldl (applyAlias mem) g) := by
  induction is with
  | nil => intro g; exact InboundFrame_refl g
  | cons i t ih =>
    intro g
    exact InboundFrame_trans (applyAlias_frame mem g i) (ih (applyAlias mem g i))

/-- C3: `ProcessResponseBody` changes no mode, and it leaves the value of
ledd1, of emailaddr and of gamestate as it was unless the mode of that
attribute is READ_ONLY at call time. -/
theorem ProcessResponseBody_writes_only_read_only (g : Globals) (pcBuf ppcValueBuf : List Char) :
    (ProcessResponseBody g pcBuf ppcValueBuf).g_eLEDD1RW = g.g_eLEDD1RW
    ∧ (ProcessResponseBody g pcBuf ppcValueBuf).g_eEmailRW = g.g_eEmailRW
    ∧ (ProcessResponseBody g pcBuf ppcValueBuf).g_eBoardStaeRW = g.g_eBoardStaeRW
    ∧ (ProcessResponseBody g pcBuf ppcValueBuf).g_eAlertRW = g.g_eAlertRW
    ∧ (g.g_eLEDD1RW ≠ READ_ONLY →
        (ProcessResponseBody g pcBuf ppcValueBuf).g_ui32LEDD1 = g.g_ui32LEDD1)
    ∧ (g.g_eEmailRW ≠ READ_ONLY →
        (ProcessResponseBody g pcBuf ppcValueBuf).g_pcEmail = g.g_pcEmail)
    ∧ (g.g_eBoardStaeRW ≠ READ_ONLY →
        (ProcessResponseBody g pcBuf ppcValueBuf).g_ui32BoardState = g.g_ui32BoardState) := by
  unfold ProcessResponseBody
  exact foldl_applyAlias_frame _ _ g

/-- C3, at the initial modes (ledd1 and emailaddr READ_WRITE, gamestate
WRITE_ONLY): a response that names all three changes none of the values. -/
theorem ProcessResponseBody_writes_only_read_only_witness :
    (ProcessResponseBody (initGlobals []) "ledd1=1&emailaddr=a@b.c&gamestate=0x5".toList
      (List.replicate 120 NUL)).g_ui32LEDD1 = 0
    ∧ (ProcessResponseBody (initGlobals []) "ledd1=1&emailaddr=a@b.c&gamestate=0x5".toList
      (List.replicate 120 NUL)).g_pcEmail = List.replicate 100 NUL
    ∧ (ProcessResponseBody (initGlobals []) "ledd1=1&emailaddr=a@b.c&gamestate=0x5".toList
      (List.replicate 120 NUL)).g_ui32BoardState = 0 := by
  have h := ProcessResponseBody_writes_only_read_only (initGlobals [])
    "ledd1=1&emailaddr=a@b.c&gamestate=0x5".toList (List.replicate 120 NUL)
  exact ⟨h.2.2.2.2.1 (by decide), h.2.2.2.2.2.1 (by decide), h.2.2.2.2.2.2 (by decide)⟩

/-! ## Inbound query -/

theorem GetAliasList_cstr (g : Globals) (mem : List Char) (n : Nat) (hn : n < 2 ^ 32)
    (hfit : (aliasQuery g).length < n) :
    cstr (GetAliasList g mem n) = aliasQuery g := by
  unfold aliasQuery at hfit ⊢
  unfold GetAliasList
  simp only [List.length_append] at hfit
  have h0 := snprintf_first mem "?location".toList n hn (by omega)
  have h1 := snprintf_at_if_fits (g.g_eLEDD1RW = READ_ONLY) "&ledd1".toList n h0 hn (by omega)
  have h2 := snprintf_at_if_fits (g.g_eBoardStaeRW = READ_ONLY) "&gamestate".toList n h1 hn
    (by simp only [List.length_append]; omega)
  have h3 := snprintf_at_if_fits (g.g_eEmailRW = READ_ONLY) "&emailaddr".toList n h2 hn
    (by simp only [List.length_append]; omega)
  refine Filled_cstr h3 ?_
  exact noNUL_append (noNUL_append (noNUL_append (by decide)
    (noNUL_ite (by decide) noNUL_nil)) (noNUL_ite (by decide) noNUL_nil))
    (noNUL_ite (by decide) noNUL_nil)

/-- C5 as stated fails: with the initial modes, none of them READ_ONLY, the
query string still lists an alias, `location`, so the aliases listed are not
exactly the READ_ONLY ones among ledd1, gamestate and emailaddr. -/
theorem GetAliasList_lists_location :
    "location".toList ∈ queryAliases (cstr (GetAliasList (initGlobals []) (List.replicate 108 NUL) 108))
    ∧ ¬ ListsExactlyReadOnly (initGlobals [])
        (cstr (GetAliasList (initGlobals []) (List.replicate 108 NUL) 108)) := by
  have hq : cstr (GetAliasList (initGlobals []) (List.replicate 108 NUL) 108)
      = "?location".toList := by decide
  rw [hq]
  have hm : "location".toList ∈ queryAliases "?location".toList := by decide
  refine ⟨hm, ?_⟩
  intro h
  have h2 := (h "location".toList).mp hm
  revert h2
  decide

/-- C5, amended: when the query fits in the buffer, the string `GetAliasList`
builds is `?location` followed by `&ledd1`, `&gamestate`, `&emailaddr`, in this
order, for exactly those of the three whose mode is READ_ONLY; the aliases it
lists are `location` and these. -/
theorem GetAliasList_location_then_read_only (g : Globals) (pcDataBuf : List Char)
    (ui32DataBufLen : Nat) (hlen : ui32DataBufLen < 2 ^ 32)
    (hfit : (aliasQuery g).length < ui32DataBufLen) :
    cstr (GetAliasList g pcDataBuf ui32DataBufLen)
      = "?location".toList
        ++ (if g.g_eLEDD1RW = READ_ONLY then "&ledd1".toList else [])
        ++ (if g.g_eBoardStaeRW = READ_ONLY then "&gamestate".toList else [])
        ++ (if g.g_eEmailRW = READ_ONLY then "&emailaddr".toList else [])
    ∧ queryAliases (cstr (GetAliasList g pcDataBuf ui32DataBufLen))
      = ["location".toList]
        ++ (if g.g_eLEDD1RW = READ_ONLY then ["ledd1".toList] else [])
        ++ (if g.g_eBoardStaeRW = READ_ONLY then ["gamestate".toList] else [])
        ++ (if g.g_eEmailRW = READ_ONLY then ["emailaddr".toList] else []) := by
  rw [GetAliasList_cstr g pcDataBuf ui32DataBufLen hlen hfit]
  refine ⟨rfl, ?_⟩
  unfold aliasQuery
  by_cases hl : g.g_eLEDD1RW = READ_ONLY <;> by_cases hb : g.g_eBoardStaeRW = READ_ONLY <;>
    by_cases he : g.g_eEmailRW = READ_ONLY <;> simp only [hl, hb, he, if_true, if_false] <;>
    decide

/-- C5 amended, for the 108 bytes `ExositeRead` leaves for the query, with
ledd1 READ_ONLY and the other modes as initialised. -/
theorem GetAliasList_location_then_read_only_witness :
    cstr (GetAliasList { initGlobals [] with g_eLEDD1RW := READ_ONLY }
      (List.replicate 108 NUL) 108) = "?location&ledd1".toList
    ∧ queryAliases (cstr (GetAliasList { initGlobals [] with g_eLEDD1RW := READ_ONLY }
      (List.replicate 108 NUL) 108)) = ["location".toList, "ledd1".toList] :=
  GetAliasList_location_then_read_only { initGlobals [] with g_eLEDD1RW := READ_ONLY }
    (List.replicate 108 NUL) 108 (by decide) (by decide)

/-! ## Error classification -/

theorem writeAt_zero_take (mem xs : List Char) : (writeAt mem 0 xs).take xs.length = xs := by
  rw [writeAt_zero]
  simp

/-- C6: for every cloud state and every cached token, `CloudHandleError` called
with status 401 sets the state to Cloud_Activate_CIK and leaves every byte of
the token array zero, so that the cached token is the empty string, with a
zero first byte. -/
theorem CloudHandleError_unauthorized (pui32State : tCloudState) (g : Globals) :
    (CloudHandleError 401 pui32State g).1 = Cloud_Activate_CIK
    ∧ (CloudHandleError 401 pui32State g).2.g_pcExositeCIK.take (EXOSITE_CIK_LENGTH + 1)
        = List.replicate (EXOSITE_CIK_LENGTH + 1) NUL
    ∧ (CloudHandleError 401 pui32State g).2.g_pcExositeCIK.getD 0 NUL = NUL
    ∧ cstr (CloudHandleError 401 pui32State g).2.g_pcExositeCIK = [] := by
  have hs : (CloudHandleError 401 pui32State g).1 = Cloud_Activate_CIK := by
    simp [CloudHandleError, HTTPStd_CONFLICT, HTTPStd_NOT_FOUND, HTTPStd_UNAUTHORIZED]
  have hc : (CloudHandleError 401 pui32State g).2.g_pcExositeCIK
      = writeAt g.g_pcExositeCIK 0 (List.replicate (EXOSITE_CIK_LENGTH + 1) NUL) := by
    simp [CloudHandleError, HTTPStd_CONFLICT, HTTPStd_NOT_FOUND, HTTPStd_UNAUTHORIZED]
  rw [hc]
  refine ⟨hs, ?_, ?_, ?_⟩
  · have := writeAt_zero_take g.g_pcExositeCIK (List.replicate (EXOSITE_CIK_LENGTH + 1) NUL)
    simpa using this
  · simp [writeAt_zero, EXOSITE_CIK_LENGTH, List.replicate_succ]
  · simp [writeAt_zero, EXOSITE_CIK_LENGTH, List.replicate_succ, cstr, NUL]

/-- C7: for every cloud state and every cached token, `CloudHandleError` called
with status 409 or with status 404 sets the state to Cloud_Activate_CIK and
leaves the cached token unchanged, and the two statuses have the same effect
(a wait of ten seconds included). -/
theorem CloudHandleError_conflict_not_found (pui32State : tCloudState) (g : Globals) :
    (CloudHandleError 409 pui32State g).1 = Cloud_Activate_CIK
    ∧ (CloudHandleError 404 pui32State g).1 = Cloud_Activate_CIK
    ∧ (CloudHandleError 409 pui32State g).2.g_pcExositeCIK = g.g_pcExositeCIK
    ∧ (CloudHandleError 404 pui32State g).2.g_pcExositeCIK = g.g_pcExositeCIK
    ∧ CloudHandleError 409 pui32State g = CloudHandleError 404 pui32State g
    ∧ (CloudHandleError 409 pui32State g).2 = { g with sleepMs := g.sleepMs + 10000 } := by
  have h9 : CloudHandleError 409 pui32State g
      = (Cloud_Activate_CIK, { g with sleepMs := g.sleepMs + 10000 }) := by
    simp [CloudHandleError, HTTPStd_CONFLICT, HTTPStd_NOT_FOUND]
  have h4 : CloudHandleError 404 pui32State g
      = (Cloud_Activate_CIK, { g with sleepMs := g.sleepMs + 10000 }) := by
    simp [CloudHandleError, HTTPStd_CONFLICT, HTTPStd_NOT_FOUND]
  rw [h9, h4]
  exact ⟨rfl, rfl, rfl, rfl, rfl, rfl⟩

/-! ## The loop of the cloud task -/

theorem CloudTask_check_neg (g : Globals) (l : TaskLocals) (h : l.i32Ret < 0) :
    (CloudTask_check g l).1.g_ui32State = Cloud_Server_Connect
    ∧ (CloudTask_check g l).2 = l := by
  simp [CloudTask_check, h]

theorem CloudTask_check_zero (g : Globals) (l : TaskLocals) (h : l.i32Ret = 0) :
    (CloudTask_check g l).1.g_ui32State = g.g_ui32State
    ∧ (CloudTask_check g l).2 = l := by
  simp [CloudTask_check, h]

/-- C8: in an iteration of the loop of `CloudTask` that runs the Sync state, if
`ExositeWrite` returns a negative code, or returns 0 and `ExositeRead`, called
next, returns a negative code, the state at the end of the iteration is
Cloud_Server_Connect. -/
theorem CloudTask_sync_negative_reconnects (g : Globals) (l : TaskLocals) (inp : IterInputs)
    (hs : (CloudTask_pend g l inp).1.g_ui32State = Cloud_Sync)
    (herr :
      (ExositeWrite (CloudTask_pend g l inp).1 (CloudTask_pend g l inp).2.cli
          inp.hw inp.pcDataBuf).1 < 0
      ∨ ((ExositeWrite (CloudTask_pend g l inp).1 (CloudTask_pend g l inp).2.cli
          inp.hw inp.pcDataBuf).1 = 0
        ∧ (ExositeRead
            (ExositeWrite (CloudTask_pend g l inp).1 (CloudTask_pend g l inp).2.cli
              inp.hw inp.pcDataBuf).2.1
            (ExositeWrite (CloudTask_pend g l inp).1 (CloudTask_pend g l inp).2.cli
              inp.hw inp.pcDataBuf).2.2
            inp.pcRecBuf inp.ppcValueBuf).1 < 0)) :
    (CloudTask_iter g l inp).1.g_ui32State = Cloud_Server_Connect := by
  unfold CloudTask_iter
  simp only
  generalize CloudTask_pend g l inp = p at hs herr ⊢
  obtain ⟨g0, l0⟩ := p
  simp only at hs herr
  unfold CloudTask_switch
  rw [if_neg (by rw [hs]; decide), if_neg (by rw [hs]; decide), if_pos hs]
  simp only
  generalize ExositeWrite g0 l0.cli inp.hw inp.pcDataBuf = w at herr ⊢
  obtain ⟨wr, wg, wc⟩ := w
  simp only at herr ⊢
  rcases herr with hw | ⟨hw0, hr⟩
  · have hne : wr ≠ 0 := by omega
    rw [if_pos hne]
    exact (CloudTask_check_neg _ _ (by simpa using hw)).1
  · subst hw0
    simp only [ne_eq, not_true_eq_false, if_false]
    generalize ExositeRead wg wc inp.pcRecBuf inp.ppcValueBuf = r at hr ⊢
    obtain ⟨rr, rg, rc⟩ := r
    simp only at hr ⊢
    have hne : rr ≠ 0 := by omega
    rw [if_pos hne]
    exact (CloudTask_check_neg _ _ (by simpa using hr)).1

/-- C8, on an iteration whose write is answered 204 and whose read fails in
`HTTPCli_sendRequest` with the code -101. -/
theorem CloudTask_sync_negative_reconnects_witness :
    (ExositeRead
      (ExositeWrite syncGlobals
        { idleCli with sendRequest := [0, -101], getResponseStatus := [204] }
        quietInputs.hw quietInputs.pcDataBuf).2.1
      (ExositeWrite syncGlobals
        { idleCli with sendRequest := [0, -101], getResponseStatus := [204] }
        quietInputs.hw quietInputs.pcDataBuf).2.2
      quietInputs.pcRecBuf quietInputs.ppcValueBuf).1 = -101
    ∧ (CloudTask_iter syncGlobals
        (freshLocals { idleCli with sendRequest := [0, -101], getResponseStatus := [204] })
        quietInputs).1.g_ui32State = Cloud_Server_Connect :=
  ⟨by decide,
   CloudTask_sync_negative_reconnects syncGlobals
    (freshLocals { idleCli with sendRequest := [0, -101], getResponseStatus := [204] })
    quietInputs (by decide) (by decide)⟩

theorem CloudTask_pend_i32Ret (g : Globals) (l : TaskLocals) (inp : IterInputs) :
    (CloudTask_pend g l inp).2.i32Ret = l.i32Ret := by
  unfold CloudTask_pend
  cases inp.pend <;> rfl

theorem CloudTask_switch_connect (g : Globals) (l : TaskLocals) (inp : IterInputs)
    (hs : g.g_ui32State = Cloud_Server_Connect) :
    (CloudTask_switch g l inp).2.i32Ret = l.i32Ret
    ∧ ((ServerConnect g (if g.g_bServerConnect = true then ServerDisconnect l.cli else l.cli)).1
        = 0 →
      (CloudTask_switch g l inp).1.g_ui32State = Cloud_Sync) := by
  unfold CloudTask_switch
  rw [if_pos hs]
  simp only
  generalize ServerConnect g (if g.g_bServerConnect = true then ServerDisconnect l.cli else l.cli)
    = r
  obtain ⟨rr, rg, rc⟩ := r
  by_cases h0 : rr = 0
  · simp [h0, GetCIK, GetCIKEEPROM]
  · simp [h0]

/-- C9 fails on the code: in an iteration that begins in Cloud_Server_Connect
while `i32Ret` still holds the negative code of an earlier iteration (the
Cloud_Server_Connect case does not assign it), the state at the end of the
iteration is Cloud_Server_Connect again and `i32Ret` keeps its value, whether
or not the connection succeeds and a token is found. -/
theorem CloudTask_stale_error_blocks_sync (g : Globals) (l : TaskLocals) (inp : IterInputs)
    (hs : (CloudTask_pend g l inp).1.g_ui32State = Cloud_Server_Connect)
    (herr : l.i32Ret < 0) :
    (CloudTask_iter g l inp).1.g_ui32State = Cloud_Server_Connect
    ∧ (CloudTask_iter g l inp).2.i32Ret = l.i32Ret := by
  unfold CloudTask_iter
  simp only
  have hsw := (CloudTask_switch_connect (CloudTask_pend g l inp).1 (CloudTask_pend g l inp).2
    inp hs).1
  rw [CloudTask_pend_i32Ret] at hsw
  have hneg : (CloudTask_switch (CloudTask_pend g l inp).1 (CloudTask_pend g l inp).2
      inp).2.i32Ret < 0 := by
    rw [hsw]
    exact herr
  obtain ⟨h1, h2⟩ := CloudTask_check_neg _ _ hneg
  exact ⟨h1, by rw [h2, hsw]⟩

/-- C9, failing input: the iteration after a Sync iteration whose read failed
with -101.  It begins in Cloud_Server_Connect, the connection attempt succeeds
and `GetCIK` finds a token, yet the iteration ends in Cloud_Server_Connect and
not in Cloud_Sync. -/
theorem CloudTask_stale_error_blocks_sync_witness :
    afterFailedSync.1.g_ui32State = Cloud_Server_Connect
    ∧ afterFailedSync.2.i32Ret = -101
    ∧ (ServerConnect (CloudTask_pend afterFailedSync.1 afterFailedSync.2 quietInputs).1
        (ServerDisconnect (CloudTask_pend afterFailedSync.1 afterFailedSync.2
          quietInputs).2.cli)).1 = 0
    ∧ (GetCIK afterFailedSync.1).1 = true
    ∧ (CloudTask_iter afterFailedSync.1 afterFailedSync.2 quietInputs).1.g_ui32State
        = Cloud_Server_Connect
    ∧ (CloudTask_iter afterFailedSync.1 afterFailedSync.2 quietInputs).1.g_ui32State
        ≠ Cloud_Sync := by
  have h := CloudTask_stale_error_blocks_sync afterFailedSync.1 afterFailedSync.2 quietInputs
    (by decide) (by decide)
  refine ⟨by decide, by decide, by decide, by decide, h.1, ?_⟩
  rw [h.1]
  decide

/-! ## The persisted token -/

/-- C10 fails on the code: `GetCIKEEPROM` returns true whatever it reads, so
`GetCIK` reports a token as found also when the CIK region of the EEPROM reads
as erased (every byte 0xFF); the cached token is then forty bytes 0xFF, and an
iteration of the loop that begins in Cloud_Server_Connect with no error
pending and connects selects Cloud_Sync, not Cloud_Activate_CIK. -/
theorem GetCIK_erased_reports_found (g : Globals) (l : TaskLocals) (inp : IterInputs)
    (herased : EEPROMRead_CIK g = List.replicate EXOSITE_CIK_LENGTH EEPROM_ERASED)
    (hs : (CloudTask_pend g l inp).1.g_ui32State = Cloud_Server_Connect)
    (hret : l.i32Ret = 0)
    (hconn : (ServerConnect (CloudTask_pend g l inp).1
      (if (CloudTask_pend g l inp).1.g_bServerConnect = true
        then ServerDisconnect (CloudTask_pend g l inp).2.cli
        else (CloudTask_pend g l inp).2.cli)).1 = 0) :
    (GetCIK g).1 = true
    ∧ cstr (GetCIK g).2.g_pcExositeCIK = List.replicate EXOSITE_CIK_LENGTH EEPROM_ERASED
    ∧ (CloudTask_iter g l inp).1.g_ui32State = Cloud_Sync := by
  refine ⟨by simp [GetCIK, GetCIKEEPROM], ?_, ?_⟩
  · have hc : (GetCIK g).2.g_pcExositeCIK
        = writeAt g.g_pcExositeCIK 0
            (List.replicate EXOSITE_CIK_LENGTH EEPROM_ERASED ++ [NUL]) := by
      simp only [GetCIK, GetCIKEEPROM, herased, if_true]
      congr 1
    rw [hc, writeAt_zero]
    rw [List.append_assoc]
    exact cstr_append_NUL _ _ (by
      intro c hc
      rw [List.eq_of_mem_replicate hc]
      decide)
  · unfold CloudTask_iter
    simp only
    obtain ⟨h1, h2⟩ := CloudTask_switch_connect (CloudTask_pend g l inp).1
      (CloudTask_pend g l inp).2 inp hs
    rw [CloudTask_pend_i32Ret, hret] at h1
    rw [(CloudTask_check_zero _ _ h1).1]
    exact h2 hconn

/-- C10, failing input: cold boot with an erased EEPROM and a connection that
succeeds at once. -/
theorem GetCIK_erased_reports_found_witness :
    (GetCIK { initGlobals (List.replicate 40 EEPROM_ERASED) with
        g_ui32State := Cloud_Server_Connect }).1 = true
    ∧ (CloudTask_iter { initGlobals (List.replicate 40 EEPROM_ERASED) with
        g_ui32State := Cloud_Server_Connect }
        (freshLocals { idleCli with connect := [0] }) quietInputs).1.g_ui32State = Cloud_Sync := by
  have h := GetCIK_erased_reports_found
    { initGlobals (List.replicate 40 EEPROM_ERASED) with g_ui32State := Cloud_Server_Connect }
    (freshLocals { idleCli with connect := [0] }) quietInputs
    (by decide) (by decide) (by decide) (by decide)
  exact ⟨h.1, h.2.2⟩

/-! ## Inbound response: which value is stored -/

theorem getD_append_replicate (mem : List Char) (k i : Nat) :
    (mem ++ List.replicate k NUL).getD i NUL = mem.getD i NUL := by
  simp only [List.getD_eq_getElem?_getD]
  by_cases h : i < mem.length
  · rw [List.getElem?_append_left h]
  · rw [List.getElem?_append_right (by omega)]
    rw [List.getElem?_eq_none (by omega : mem.length ≤ i)]
    by_cases h2 : i - mem.length < k
    · rw [List.getElem?_replicate_of_lt h2]; rfl
    · rw [List.getElem?_eq_none (by simp; omega)]

theorem writeAt_getD (mem xs : List Char) (off i : Nat) :
    (writeAt mem off xs).getD i NUL
      = if off ≤ i ∧ i < off + xs.length then xs.getD (i - off) NUL else mem.getD i NUL := by
  unfold writeAt
  have hlen : ((mem ++ List.replicate (off - mem.length) NUL).take off).length = off := by
    simp; omega
  by_cases h1 : i < off
  · have : ¬ (off ≤ i ∧ i < off + xs.length) := by omega
    rw [if_neg this, List.append_assoc]
    simp only [List.getD_eq_getElem?_getD]
    rw [List.getElem?_append_left (by omega), List.getElem?_take_of_lt h1]
    have := getD_append_replicate mem (off - mem.length) i
    simpa only [List.getD_eq_getElem?_getD] using this
  · by_cases h2 : i < off + xs.length
    · rw [if_pos ⟨by omega, h2⟩]
      simp only [List.getD_eq_getElem?_getD]
      rw [List.getElem?_append_left (by simp; omega),
        List.getElem?_append_right (by omega), hlen]
    · have : ¬ (off ≤ i ∧ i < off + xs.length) := by omega
      rw [if_neg this]
      simp only [List.getD_eq_getElem?_getD]
      rw [List.getElem?_append_right (by simp; omega)]
      simp only [List.length_append, hlen, List.getElem?_drop]
      congr 2
      omega

theorem getD_drop (l : List Char) (k i : Nat) : (l.drop k).getD i NUL = l.getD (k + i) NUL := by
  simp [List.getD_eq_getElem?_getD, List.getElem?_drop]

theorem cstr_of_getD (v : List Char) (hv : noNUL v) : ∀ m : List Char,
    (∀ i, i < v.length → m.getD i NUL = v.getD i NUL) → m.getD v.length NUL = NUL →
    cstr m = v := by
  induction v with
  | nil =>
    intro m _ h0
    cases m with
    | nil => rfl
    | cons c t =>
      have : c = NUL := by simpa using h0
      simp [cstr, this]
  | cons c t ih =>
    intro m h hend
    have hc : c ≠ NUL := hv c (List.mem_cons_self _ _)
    cases m with
    | nil =>
      have := h 0 (by simp)
      simp at this
      exact absurd this.symm hc
    | cons d r =>
      have hd : d = c := by simpa using h 0 (by simp)
      subst hd
      have ht : noNUL t := fun x hx => hv x (List.mem_cons_of_mem _ hx)
      have := ih ht r (fun i hi => by simpa using h (i + 1) (by simp; omega))
        (by simpa using hend)
      simp only [cstr] at this
      simp [cstr, hc, this]

theorem strstr_first (a : List Char) (ha : a ≠ []) (tail : List Char) :
    ∀ pre : List Char, (∀ i, i < pre.length → a.isPrefixOf ((pre ++ a).drop i) = false) →
    strstr (pre ++ a ++ tail) a = some (a ++ tail) := by
  intro pre
  induction pre with
  | nil =>
    intro _
    cases a with
    | nil => exact absurd rfl ha
    | cons c t =>
      have hp : (c :: t).isPrefixOf (c :: (t ++ tail)) = true := by
        rw [List.isPrefixOf_iff_prefix]
        exact List.prefix_append (c :: t) tail
      show strstr (c :: (t ++ tail)) (c :: t) = some (c :: (t ++ tail))
      rw [strstr, if_pos hp]
  | cons c p ih =>
    intro h
    have h0 : a.isPrefixOf (c :: (p ++ a ++ tail)) = false := by
      have h00 := h 0 (by simp)
      simp only [List.drop_zero] at h00
      cases hx : a.isPrefixOf (c :: (p ++ a ++ tail)) with
      | false => rfl
      | true =>
        rw [List.isPrefixOf_iff_prefix] at hx
        have hx2 : a <+: (c :: p ++ a) ++ tail := by simpa using hx
        have hpre : a <+: c :: p ++ a :=
          List.prefix_of_prefix_length_le hx2 (List.prefix_append _ _) (by simp; omega)
        rw [← List.isPrefixOf_iff_prefix] at hpre
        rw [hpre] at h00
        cases h00
    have ih2 := ih (fun i hi => by
      have := h (i + 1) (by simp; omega)
      simpa using this)
    show strstr (c :: (p ++ a ++ tail)) a = some (a ++ tail)
    rw [strstr, if_neg (by rw [h0]; simp)]
    exact ih2

theorem strstr_equals (t : List Char) : ∀ a : List Char, '=' ∉ a →
    strstr (a ++ '=' :: t) "=".toList = some ('=' :: t) := by
  have he : "=".toList = ['='] := rfl
  rw [he]
  intro a
  induction a with
  | nil => intro _; simp [strstr]
  | cons c r ih =>
    intro h
    have hc : c ≠ '=' := fun hc => h (by simp [hc])
    have hr : '=' ∉ r := fun hr => h (List.mem_cons_of_mem _ hr)
    have hne : ¬ ('=' = c) := fun hcc => hc hcc.symm
    simp [strstr, hne, hc, ih hr]

theorem copyValue_frame (src : List Char) (row : Nat) : ∀ (fuel j : Nat) (mem : List Char)
    (i : Nat), (i < row + j ∨ row + j + fuel ≤ i) →
    (copyValue src row fuel j mem).getD i NUL = mem.getD i NUL := by
  intro fuel
  induction fuel with
  | zero => intro j mem i _; rfl
  | succ fuel ih =>
    intro j mem i hi
    rw [copyValue]
    split
    · rw [writeAt_getD, if_neg (by simp; omega)]
    · rw [ih (j + 1) _ i (by omega), writeAt_getD, if_neg (by simp; omega)]

theorem getD_append_left_lt (v rest : List Char) (j : Nat) (hj : j < v.length) :
    (v ++ rest).getD j NUL = v.getD j NUL := by
  simp only [List.getD_eq_getElem?_getD]
  rw [List.getElem?_append_left hj]

theorem getD_append_length (v t : List Char) (c : Char) :
    (v ++ c :: t).getD v.length NUL = c := by
  simp only [List.getD_eq_getElem?_getD]
  rw [List.getElem?_append_right (Nat.le_refl _)]
  simp

theorem getD_mem_of_lt (v : List Char) (j : Nat) (hj : j < v.length) : v.getD j NUL ∈ v := by
  rw [List.getD_eq_getElem?_getD, List.getElem?_eq_getElem hj]
  exact List.getElem_mem hj

theorem copyValue_found (v rest : List Char) (row : Nat)
    (hv : ∀ c ∈ v, c ≠ '&' ∧ c ≠ NUL)
    (hend : (v ++ rest).getD v.length NUL = '&' ∨ (v ++ rest).getD v.length NUL = NUL) :
    ∀ (fuel j : Nat) (mem : List Char), j ≤ v.length → v.length < j + fuel →
    ∀ i, j ≤ i → i ≤ v.length →
    (copyValue (v ++ rest) row fuel j mem).getD (row + i) NUL = (v ++ [NUL]).getD i NUL := by
  intro fuel
  induction fuel with
  | zero => intro j mem hj hf; omega
  | succ fuel ih =>
    intro j mem hj hf i hji hiv
    rw [copyValue]
    by_cases hjv : j = v.length
    · subst hjv
      have hi : i = v.length := by omega
      subst hi
      rw [if_pos hend, writeAt_getD, if_pos (by simp)]
      simp [List.getD_eq_getElem?_getD]
    · have hlt : j < v.length := by omega
      have hsrc : (v ++ rest).getD j NUL = v.getD j NUL := getD_append_left_lt v rest j hlt
      have hne := hv _ (getD_mem_of_lt v j hlt)
      rw [hsrc, if_neg (by
        intro h
        rcases h with h | h
        · exact hne.1 h
        · exact hne.2 h)]
      by_cases hij : i = j
      · subst hij
        rw [copyValue_frame _ _ _ _ _ _ (by omega), writeAt_getD, if_pos (by simp)]
        simp only [Nat.sub_self, List.getD_cons_zero]
        exact (getD_append_left_lt v [NUL] i hlt).symm
      · rw [← hsrc]
        exact ih (j + 1) _ (by omega) (by omega) i (by omega) hiv

theorem scanAlias_frame (pcBuf : List Char) (idx : Nat) (mem : List Char) (i : Nat)
    (hi : i < idx * VALUEBUF_SIZE ∨ idx * VALUEBUF_SIZE + VALUEBUF_SIZE ≤ i) :
    (scanAlias pcBuf idx mem).getD i NUL = mem.getD i NUL := by
  unfold scanAlias
  split
  · rfl
  · split
    · rfl
    · exact copyValue_frame _ _ _ _ _ _ (by omega)

theorem scanAlias_found (pcBuf : List Char) (idx : Nat) (mem v : List Char)
    (ha : g_ppcGETAlias.getD idx [] ≠ []) (he : '=' ∉ g_ppcGETAlias.getD idx [])
    (h : FirstPair (cstr pcBuf) (g_ppcGETAlias.getD idx []) v) :
    ∀ i, i ≤ v.length →
    (scanAlias pcBuf idx mem).getD (idx * VALUEBUF_SIZE + i) NUL = (v ++ [NUL]).getD i NUL := by
  obtain ⟨pre, rest, hb, -, hfirst, hamp, hrest, hlen⟩ := h
  intro i hi
  have hnn : noNUL (cstr pcBuf) := cstr_noNUL pcBuf
  have hv : ∀ c ∈ v, c ≠ '&' ∧ c ≠ NUL := by
    intro c hc
    refine ⟨fun hce => hamp (hce ▸ hc), hnn c ?_⟩
    rw [hb]
    simp [hc]
  have hend : (v ++ rest).getD v.length NUL = '&' ∨ (v ++ rest).getD v.length NUL = NUL := by
    rcases hrest with hr | hr
    · right
      simp [hr, List.getD_eq_getElem?_getD]
    · left
      cases rest with
      | nil => simp at hr
      | cons c t =>
        have hc : c = '&' := by simpa using hr
        rw [hc, getD_append_length]
  unfold scanAlias
  rw [hb, strstr_first _ ha _ pre hfirst]
  simp only
  rw [strstr_equals _ _ he]
  simp only [List.drop_succ_cons, List.drop_zero]
  exact copyValue_found v rest _ hv hend VALUEBUF_SIZE 0 mem (by omega) (by omega) i
    (by omega) hi

theorem applyAlias_zero (mem : List Char) (g : Globals) :
    applyAlias mem g 0
      = if g.g_eLEDD1RW = READ_ONLY then
          { g with g_ui32LEDD1 := if mem.getD 0 NUL = '1' then 1 else 0 }
        else g := by
  have h : strncmp_eq (g_ppcGETAlias.getD 0 []) "ledd1".toList 15 = true := by decide
  simp only [applyAlias, h, if_true, Nat.zero_mul, List.drop_zero]

theorem applyAlias_one (mem : List Char) (g : Globals) :
    applyAlias mem g 1
      = if g.g_eEmailRW = READ_ONLY then
          { g with g_pcEmail :=
              writeAt (strncpy g.g_pcEmail (mem.drop VALUEBUF_SIZE) 100) 99 [NUL] }
        else g := by
  have h0 : strncmp_eq (g_ppcGETAlias.getD 1 []) "ledd1".toList 15 = false := by decide
  have h : strncmp_eq (g_ppcGETAlias.getD 1 []) "emailaddr".toList 15 = true := by decide
  simp only [applyAlias, h0, h, if_true, Nat.one_mul]
  rfl

theorem applyAlias_two (mem : List Char) (g : Globals) :
    applyAlias mem g 2
      = if g.g_eBoardStaeRW = READ_ONLY then
          { g with g_ui32BoardState := strtoul0 (cstr (mem.drop (2 * VALUEBUF_SIZE))) }
        else g := by
  have h0 : strncmp_eq (g_ppcGETAlias.getD 2 []) "ledd1".toList 15 = false := by decide
  have h1 : strncmp_eq (g_ppcGETAlias.getD 2 []) "emailaddr".toList 15 = false := by decide
  have h : strncmp_eq (g_ppcGETAlias.getD 2 []) "gamestate".toList 15 = true := by decide
  simp only [applyAlias, h0, h1, h, if_true]
  rfl

theorem ProcessResponseBody_eq (g : Globals) (pcBuf ppcValueBuf : List Char) :
    ProcessResponseBody g pcBuf ppcValueBuf
      = applyAlias (scannedValues pcBuf ppcValueBuf)
          (applyAlias (scannedValues pcBuf ppcValueBuf)
            (applyAlias (scannedValues pcBuf ppcValueBuf) g 0) 1) 2 := rfl

theorem ProcessResponseBody_values (g : Globals) (pcBuf ppcValueBuf : List Char) :
    (ProcessResponseBody g pcBuf ppcValueBuf).g_ui32LEDD1
      = (if g.g_eLEDD1RW = READ_ONLY then
          (if (scannedValues pcBuf ppcValueBuf).getD 0 NUL = '1' then 1 else 0)
        else g.g_ui32LEDD1)
    ∧ (ProcessResponseBody g pcBuf ppcValueBuf).g_pcEmail
      = (if g.g_eEmailRW = READ_ONLY then
          writeAt (strncpy g.g_pcEmail
            ((scannedValues pcBuf ppcValueBuf).drop VALUEBUF_SIZE) 100) 99 [NUL]
        else g.g_pcEmail)
    ∧ (ProcessResponseBody g pcBuf ppcValueBuf).g_ui32BoardState
      = (if g.g_eBoardStaeRW = READ_ONLY then
          strtoul0 (cstr ((scannedValues pcBuf ppcValueBuf).drop (2 * VALUEBUF_SIZE)))
        else g.g_ui32BoardState) := by
  rw [ProcessResponseBody_eq, applyAlias_two, applyAlias_one, applyAlias_zero]
  by_cases hl : g.g_eLEDD1RW = READ_ONLY <;> by_cases he : g.g_eEmailRW = READ_ONLY <;>
    by_cases hb : g.g_eBoardStaeRW = READ_ONLY <;> simp [hl, he, hb]

theorem FirstPair_noNUL {pcBuf a v : List Char} (h : FirstPair (cstr pcBuf) a v) : noNUL v := by
  obtain ⟨pre, rest, hb, -⟩ := h
  intro c hc
  refine cstr_noNUL pcBuf c ?_
  rw [hb]
  simp [hc]

theorem scannedValues_row (pcBuf ppcValueBuf : List Char) (idx : Nat) (v : List Char)
    (hidx : idx < ALIAS_PROCESSING)
    (h : FirstPair (cstr pcBuf) (g_ppcGETAlias.getD idx []) v) :
    ∀ i, i ≤ v.length →
    (scannedValues pcBuf ppcValueBuf).getD (idx * VALUEBUF_SIZE + i) NUL
      = (v ++ [NUL]).getD i NUL := by
  intro i hi
  have hlen : v.length < VALUEBUF_SIZE := by
    obtain ⟨_, _, _, _, _, _, _, hl⟩ := h
    exact hl
  have h40 : VALUEBUF_SIZE = 40 := rfl
  have h3 : ALIAS_PROCESSING = 3 := rfl
  unfold scannedValues
  have hcases : idx = 0 ∨ idx = 1 ∨ idx = 2 := by omega
  rcases hcases with rfl | rfl | rfl
  · rw [scanAlias_frame _ 2 _ _ (by omega), scanAlias_frame _ 1 _ _ (by omega)]
    exact scanAlias_found pcBuf 0 _ v (by decide) (by decide) h i hi
  · rw [scanAlias_frame _ 2 _ _ (by omega)]
    exact scanAlias_found pcBuf 1 _ v (by decide) (by decide) h i hi
  · exact scanAlias_found pcBuf 2 _ v (by decide) (by decide) h i hi

theorem scannedValues_cstr (pcBuf ppcValueBuf : List Char) (idx : Nat) (v : List Char)
    (hidx : idx < ALIAS_PROCESSING)
    (h : FirstPair (cstr pcBuf) (g_ppcGETAlias.getD idx []) v) :
    cstr ((scannedValues pcBuf ppcValueBuf).drop (idx * VALUEBUF_SIZE)) = v := by
  have hrow := scannedValues_row pcBuf ppcValueBuf idx v hidx h
  refine cstr_of_getD v (FirstPair_noNUL h) _ ?_ ?_
  · intro i hi
    rw [getD_drop, hrow i (by omega), getD_append_left_lt v [NUL] i hi]
  · rw [getD_drop, hrow v.length (Nat.le_refl _), getD_append_length]

theorem strncpy_terminated_cstr (dst src v : List Char) (hsrc : cstr src = v)
    (hv : noNUL v) (hlen : v.length < 99) :
    cstr (writeAt (strncpy dst src 100) 99 [NUL]) = v := by
  have ht : (cstr src).take 100 = v := by
    rw [hsrc]
    exact List.take_of_length_le (by omega)
  have hx : ∀ i, i ≤ v.length →
      (writeAt (strncpy dst src 100) 99 [NUL]).getD i NUL
        = (v ++ List.replicate (100 - v.length) NUL).getD i NUL := by
    intro i hi
    rw [writeAt_getD, if_neg (by simp; omega)]
    unfold strncpy
    simp only [ht]
    rw [writeAt_getD, if_pos (by simp; omega)]
    simp
  refine cstr_of_getD v hv _ ?_ ?_
  · intro i hi
    rw [hx i (by omega), getD_append_left_lt _ _ i hi]
  · rw [hx _ (Nat.le_refl _), getD_append_replicate]
    simp [List.getD_eq_getElem?_getD]

/-- C4, amended: when the body holds the pair `alias=value` for an alias of the
table, the key of this pair is the first place where the text of the alias
occurs in the body, and the value is shorter than VALUEBUF_SIZE, the value
`ProcessResponseBody` stores for a READ_ONLY alias is the value of this pair,
whatever the rest of the body holds: ledd1 becomes 1 if the value starts with
`1` and 0 otherwise, emailaddr becomes the value, gamestate becomes the number
`strtoul` reads from it. -/
theorem ProcessResponseBody_first_pair (g : Globals) (pcBuf ppcValueBuf : List Char) :
    (∀ v, FirstPair (cstr pcBuf) "ledd1".toList v → g.g_eLEDD1RW = READ_ONLY →
      (ProcessResponseBody g pcBuf ppcValueBuf).g_ui32LEDD1
        = if v.head? = some '1' then 1 else 0)
    ∧ (∀ v, FirstPair (cstr pcBuf) "emailaddr".toList v → g.g_eEmailRW = READ_ONLY →
      cstr (ProcessResponseBody g pcBuf ppcValueBuf).g_pcEmail = v)
    ∧ (∀ v, FirstPair (cstr pcBuf) "gamestate".toList v → g.g_eBoardStaeRW = READ_ONLY →
      (ProcessResponseBody g pcBuf ppcValueBuf).g_ui32BoardState = strtoul0 v) := by
  obtain ⟨hl, he, hb⟩ := ProcessResponseBody_values g pcBuf ppcValueBuf
  have h40 : VALUEBUF_SIZE = 40 := rfl
  refine ⟨?_, ?_, ?_⟩
  · intro v hv hm
    rw [hl, if_pos hm]
    have hrow := scannedValues_row pcBuf ppcValueBuf 0 v (by decide) hv 0 (Nat.zero_le _)
    simp only [Nat.zero_mul, Nat.add_zero] at hrow
    rw [hrow]
    cases v with
    | nil => simp [NUL]
    | cons c t => simp
  · intro v hv hm
    rw [he, if_pos hm]
    have hc := scannedValues_cstr pcBuf ppcValueBuf 1 v (by decide) hv
    rw [Nat.one_mul] at hc
    have hlen : v.length < VALUEBUF_SIZE := by
      obtain ⟨_, _, _, _, _, _, _, hl⟩ := hv
      exact hl
    exact strncpy_terminated_cstr _ _ v hc (FirstPair_noNUL hv) (by omega)
  · intro v hv hm
    rw [hb, if_pos hm]
    rw [scannedValues_cstr pcBuf ppcValueBuf 2 v (by decide) hv]

/-- C4 amended, on the body of the specification: with the three attributes
READ_ONLY it yields LED state 1, email `test@x.com` and game state 0x1a. -/
theorem ProcessResponseBody_first_pair_witness :
    (ProcessResponseBody readOnlyGlobals
      ("ledd1=1&emailaddr=test@x.com&gamestate=0x1a".toList ++ [NUL])
      (List.replicate 120 NUL)).g_ui32LEDD1 = 1
    ∧ cstr (ProcessResponseBody readOnlyGlobals
      ("ledd1=1&emailaddr=test@x.com&gamestate=0x1a".toList ++ [NUL])
      (List.replicate 120 NUL)).g_pcEmail = "test@x.com".toList
    ∧ (ProcessResponseBody readOnlyGlobals
      ("ledd1=1&emailaddr=test@x.com&gamestate=0x1a".toList ++ [NUL])
      (List.replicate 120 NUL)).g_ui32BoardState = 0x1a := by
  have h := ProcessResponseBody_first_pair readOnlyGlobals
    ("ledd1=1&emailaddr=test@x.com&gamestate=0x1a".toList ++ [NUL]) (List.replicate 120 NUL)
  refine ⟨?_, ?_, ?_⟩
  · rw [h.1 "1".toList
      ⟨[], "&emailaddr=test@x.com&gamestate=0x1a".toList,
        by decide, by decide, by decide, by decide, by decide, by decide⟩ (by decide)]
    decide
  · exact h.2.1 "test@x.com".toList
      ⟨"ledd1=1&".toList, "&gamestate=0x1a".toList,
        by decide, by decide, by decide, by decide, by decide, by decide⟩ (by decide)
  · rw [h.2.2 "0x1a".toList
      ⟨"ledd1=1&emailaddr=test@x.com&".toList, [],
        by decide, by decide, by decide, by decide, by decide, by decide⟩ (by decide)]
    decide

/-- C4 as stated fails: in the body `emailaddr=ledd1@x.com&gamestate=0x5&ledd1=1`
the pair whose key is ledd1 has the value 1, but the text ledd1 occurs first
inside the value of the pair emailaddr, and the value stored for ledd1 is the
one after the next `=`, that of the pair gamestate: the LED state becomes 0. -/
theorem ProcessResponseBody_takes_value_of_other_pair :
    pairValue (cstr ("emailaddr=ledd1@x.com&gamestate=0x5&ledd1=1".toList ++ [NUL]))
      "ledd1".toList = some "1".toList
    ∧ (ProcessResponseBody { readOnlyGlobals with g_ui32LEDD1 := 1 }
        ("emailaddr=ledd1@x.com&gamestate=0x5&ledd1=1".toList ++ [NUL])
        (List.replicate 120 NUL)).g_ui32LEDD1 = 0
    ∧ ¬ (∀ (g : Globals) (pcBuf ppcValueBuf v : List Char),
          g.g_eLEDD1RW = READ_ONLY → pairValue (cstr pcBuf) "ledd1".toList = some v →
          (ProcessResponseBody g pcBuf ppcValueBuf).g_ui32LEDD1
            = if v.head? = some '1' then 1 else 0) := by
  have h1 : pairValue (cstr ("emailaddr=ledd1@x.com&gamestate=0x5&ledd1=1".toList ++ [NUL]))
      "ledd1".toList = some "1".toList := by decide
  have h2 : (ProcessResponseBody { readOnlyGlobals with g_ui32LEDD1 := 1 }
      ("emailaddr=ledd1@x.com&gamestate=0x5&ledd1=1".toList ++ [NUL])
      (List.replicate 120 NUL)).g_ui32LEDD1 = 0 := by
    decide
  refine ⟨h1, h2, ?_⟩
  intro h
  have h3 := h { readOnlyGlobals with g_ui32LEDD1 := 1 }
    ("emailaddr=ledd1@x.com&gamestate=0x5&ledd1=1".toList ++ [NUL]) (List.replicate 120 NUL)
    "1".toList (by decide) h1
  rw [h2] at h3
  revert h3
  decide

/-! ## Error classification: the other codes -/

/-- C13: for every code that is not 401, 404 or 409, positive or not,
`CloudHandleError` leaves the cloud state and the cached token unchanged; it
changes nothing at all. -/
theorem CloudHandleError_other_codes (i32Ret : Int) (pui32State : tCloudState) (g : Globals)
    (h401 : i32Ret ≠ 401) (h404 : i32Ret ≠ 404) (h409 : i32Ret ≠ 409) :
    (CloudHandleError i32Ret pui32State g).1 = pui32State
    ∧ (CloudHandleError i32Ret pui32State g).2.g_pcExositeCIK = g.g_pcExositeCIK
    ∧ (CloudHandleError i32Ret pui32State g).2 = g := by
  have h : CloudHandleError i32Ret pui32State g = (pui32State, g) := by
    unfold CloudHandleError
    by_cases h0 : i32Ret ≤ 0
    · rw [if_pos h0]
    · rw [if_neg h0, if_neg (by
        simp only [HTTPStd_CONFLICT, HTTPStd_NOT_FOUND]
        intro hc
        rcases hc with hc | hc
        · exact h409 hc
        · exact h404 hc), if_neg (by
        simp only [HTTPStd_UNAUTHORIZED]
        exact h401)]
  rw [h]
  exact ⟨rfl, rfl, rfl⟩

/-- C13, for the status 500 in the Sync state and for the code -1 in the Idle
state. -/
theorem CloudHandleError_other_codes_witness :
    (CloudHandleError 500 Cloud_Sync syncGlobals).1 = Cloud_Sync
    ∧ (CloudHandleError 500 Cloud_Sync syncGlobals).2 = syncGlobals
    ∧ (CloudHandleError (-1) Cloud_Idle syncGlobals).1 = Cloud_Idle :=
  ⟨(CloudHandleError_other_codes 500 Cloud_Sync syncGlobals (by decide) (by decide)
      (by decide)).1,
   (CloudHandleError_other_codes 500 Cloud_Sync syncGlobals (by decide) (by decide)
      (by decide)).2.2,
   (CloudHandleError_other_codes (-1) Cloud_Idle syncGlobals (by decide) (by decide)
      (by decide)).1⟩

/-! ## Exchanges without a token -/

theorem cstr_nil_getD (mem : List Char) (h : cstr mem = []) : mem.getD 0 NUL = NUL := by
  cases mem with
  | nil => rfl
  | cons c t =>
    by_cases hc : c = NUL
    · simp [hc]
    · have hb : (c != NUL) = true := by simp [hc]
      simp [cstr, List.takeWhile, hb] at h

/-- C14: when the cached token is empty, `ExositeWrite` and `ExositeRead` each
return -1 and leave the globals (every attribute value and mode among them)
and the client as they were: no request is sent and no result of the
library is consumed. -/
theorem Exosite_write_read_without_token (g : Globals) (cli : HTTPCli) (hw : BoardInputs)
    (pcDataBuf pcRecBuf ppcValueBuf : List Char) (hempty : cstr g.g_pcExositeCIK = []) :
    ExositeWrite g cli hw pcDataBuf = (-1, g, cli)
    ∧ ExositeRead g cli pcRecBuf ppcValueBuf = (-1, g, cli) := by
  have h0 := cstr_nil_getD _ hempty
  constructor
  · unfold ExositeWrite
    rw [if_pos h0]
  · unfold ExositeRead
    rw [if_pos h0]

/-- C14, at the initial globals, whose token array is zeroed and whose ledd1
and emailaddr are READ_WRITE: both calls return -1, nothing is sent and ledd1
is still READ_WRITE. -/
theorem Exosite_write_read_without_token_witness :
    (ExositeWrite (initGlobals []) idleCli quietInputs.hw quietInputs.pcDataBuf).1 = -1
    ∧ (ExositeWrite (initGlobals []) idleCli quietInputs.hw quietInputs.pcDataBuf).2.2.sent = []
    ∧ (ExositeWrite (initGlobals []) idleCli quietInputs.hw
        quietInputs.pcDataBuf).2.1.g_eLEDD1RW = READ_WRITE
    ∧ (ExositeRead (initGlobals []) idleCli quietInputs.pcRecBuf quietInputs.ppcValueBuf).1
        = -1 := by
  have h := Exosite_write_read_without_token (initGlobals []) idleCli quietInputs.hw
    quietInputs.pcDataBuf quietInputs.pcRecBuf quietInputs.ppcValueBuf (by decide)
  rw [h.1, h.2]
  exact ⟨rfl, rfl, rfl, rfl⟩

/-! ## The proxy setting -/

theorem strstr_singleton_none (c : Char) : ∀ s : List Char, c ∉ s → strstr s [c] = none := by
  intro s
  induction s with
  | nil => intro _; simp [strstr]
  | cons d t ih =>
    intro h
    have hd : ¬ (c = d) := fun e => h (by simp [e])
    have ht : c ∉ t := fun e => h (List.mem_cons_of_mem _ e)
    simp [strstr, hd, ih ht]

theorem strstr_singleton_some (c : Char) : ∀ s : List Char, c ∈ s →
    ∃ t, strstr s [c] = some t := by
  intro s
  induction s with
  | nil => intro h; cases h
  | cons d t ih =>
    intro h
    by_cases hd : c = d
    · exact ⟨d :: t, by simp [strstr, hd]⟩
    · have ht : c ∈ t := by
        rcases List.mem_cons.mp h with e | e
        · exact absurd e hd
        · exact e
      obtain ⟨r, hr⟩ := ih ht
      exact ⟨r, by simp [strstr, hd, hr]⟩

theorem strncpy_cstr (dst src : List Char) (n : Nat) (h : (cstr src).length < n) :
    cstr (strncpy dst src n) = cstr src := by
  unfold strncpy
  simp only
  rw [List.take_of_length_le (by omega), writeAt_zero]
  obtain ⟨k, hk⟩ : ∃ k, n - (cstr src).length = k + 1 := ⟨n - (cstr src).length - 1, by omega⟩
  rw [hk, List.replicate_succ, List.append_assoc]
  exact cstr_append_NUL _ _ (cstr_noNUL src)

theorem UpdateCloudData_fields (g : Globals) :
    (UpdateCloudData g).g_ui32State = g.g_ui32State
    ∧ (UpdateCloudData g).g_pcIP = g.g_pcIP
    ∧ (UpdateCloudData g).g_bProxy = g.g_bProxy
    ∧ (UpdateCloudData g).g_bServerConnect = g.g_bServerConnect := by
  unfold UpdateCloudData
  split <;> exact ⟨rfl, rfl, rfl, rfl⟩

theorem CloudTask_check_zero_fields (g : Globals) (l : TaskLocals) (h : l.i32Ret = 0) :
    (CloudTask_check g l).1.g_ui32State = g.g_ui32State
    ∧ (CloudTask_check g l).1.g_pcIP = g.g_pcIP
    ∧ (CloudTask_check g l).1.g_bProxy = g.g_bProxy := by
  simp [CloudTask_check, h]

theorem CloudTask_switch_proxy (g : Globals) (l : TaskLocals) (inp : IterInputs)
    (hs : g.g_ui32State = Cloud_Proxy_Set) :
    CloudTask_switch g l inp
      = (CloudProxySet { g with g_ui32State := Cloud_Server_Connect }
          (some l.sCommandRequest.pcBuf), l) := by
  unfold CloudTask_switch
  rw [if_neg (by rw [hs]; decide), if_neg (by rw [hs]; decide), if_neg (by rw [hs]; decide),
    if_pos hs]

theorem CloudProxySet_no_colon (g : Globals) (p : List Char) (h : ':' ∉ cstr p) :
    CloudProxySet g (some p) = { g with g_ui32State := Cloud_Idle } := by
  have hc : ":".toList = [':'] := rfl
  unfold CloudProxySet
  simp only [hc, strstr_singleton_none ':' (cstr p) h]

theorem CloudProxySet_colon (g : Globals) (p : List Char) (h : ':' ∈ cstr p) :
    CloudProxySet g (some p) = { g with g_pcIP := strncpy g.g_pcIP p 50, g_bProxy := true } := by
  have hc : ":".toList = [':'] := rfl
  obtain ⟨t, ht⟩ := strstr_singleton_some ':' (cstr p) h
  unfold CloudProxySet
  simp only [hc, ht]

/-- C19: `CloudProxySet` called with a null payload, and the ProxySet step of
the loop of `CloudTask` run on a payload that holds no `:`, end in Cloud_Idle
and leave the stored proxy address and the proxy flag as they were; so does
the whole iteration in which the message arrives, when no error code is left
over in `i32Ret`. -/
theorem ProxySet_without_colon_goes_idle (g : Globals) (l : TaskLocals) (inp : IterInputs) :
    ((CloudProxySet g none).g_ui32State = Cloud_Idle
      ∧ (CloudProxySet g none).g_pcIP = g.g_pcIP
      ∧ (CloudProxySet g none).g_bProxy = g.g_bProxy)
    ∧ (g.g_ui32State = Cloud_Proxy_Set → ':' ∉ cstr l.sCommandRequest.pcBuf →
        (CloudTask_switch g l inp).1.g_ui32State = Cloud_Idle
        ∧ (CloudTask_switch g l inp).1.g_pcIP = g.g_pcIP
        ∧ (CloudTask_switch g l inp).1.g_bProxy = g.g_bProxy)
    ∧ (∀ msg : tMailboxMsg, inp.pend = some msg → msg.ui32Request = Cloud_Proxy_Set →
        ':' ∉ cstr msg.pcBuf → l.i32Ret = 0 →
        (CloudTask_iter g l inp).1.g_ui32State = Cloud_Idle
        ∧ (CloudTask_iter g l inp).1.g_pcIP = g.g_pcIP
        ∧ (CloudTask_iter g l inp).1.g_bProxy = g.g_bProxy) := by
  refine ⟨⟨rfl, rfl, rfl⟩, ?_, ?_⟩
  · intro hs hc
    rw [CloudTask_switch_proxy g l inp hs, CloudProxySet_no_colon _ _ hc]
    exact ⟨rfl, rfl, rfl⟩
  · intro msg hp hr hc hret
    unfold CloudTask_iter
    simp only
    have hpend : CloudTask_pend g l inp
        = (UpdateCloudData { g with g_ui32State := msg.ui32Request },
           { l with sCommandRequest := msg }) := by
      unfold CloudTask_pend
      rw [hp]
    rw [hpend]
    obtain ⟨us, uip, ubp, -⟩ := UpdateCloudData_fields { g with g_ui32State := msg.ui32Request }
    rw [CloudTask_switch_proxy _ _ inp (by rw [us]; exact hr), CloudProxySet_no_colon _ _ hc]
    obtain ⟨cs, cip, cbp⟩ := CloudTask_check_zero_fields
      { { UpdateCloudData { g with g_ui32State := msg.ui32Request } with
            g_ui32State := Cloud_Server_Connect } with g_ui32State := Cloud_Idle }
      { l with sCommandRequest := msg } hret
    rw [cs, cip, cbp]
    exact ⟨rfl, uip, ubp⟩

/-- C19, on the payload `badformat` sent while the initial proxy setting is in
place. -/
theorem ProxySet_without_colon_goes_idle_witness :
    (CloudTask_iter (initGlobals []) (freshLocals idleCli)
      (proxyInputs "badformat".toList)).1.g_ui32State = Cloud_Idle
    ∧ (CloudTask_iter (initGlobals []) (freshLocals idleCli)
      (proxyInputs "badformat".toList)).1.g_pcIP = (initGlobals []).g_pcIP
    ∧ (CloudTask_iter (initGlobals []) (freshLocals idleCli)
      (proxyInputs "badformat".toList)).1.g_bProxy = false :=
  (ProxySet_without_colon_goes_idle (initGlobals []) (freshLocals idleCli)
    (proxyInputs "badformat".toList)).2.2
    { ui32Request := Cloud_Proxy_Set,
      pcBuf := writeAt (List.replicate 128 NUL) 0 "badformat".toList }
    rfl rfl (by decide) rfl

/-- C18 as stated fails: the payload
`proxy-gateway.engineering.emea.example-company.com:8080` holds a `:` and is 55
bytes long; the ProxySet step copies 50 bytes of it into `g_pcIP`, so the
stored address is `proxy-gateway.engineering.emea.example-company.com`, without
the port, and not the payload. -/
theorem ProxySet_truncates_long_payload :
    ':' ∈ longProxy
    ∧ cstr (CloudTask_iter (initGlobals []) (freshLocals idleCli) (proxyInputs longProxy)).1.g_pcIP
        = "proxy-gateway.engineering.emea.example-company.com".toList
    ∧ cstr (CloudTask_iter (initGlobals []) (freshLocals idleCli) (proxyInputs longProxy)).1.g_pcIP
        ≠ longProxy
    ∧ ¬ (∀ (g : Globals) (l : TaskLocals) (inp : IterInputs),
          g.g_ui32State = Cloud_Proxy_Set → ':' ∈ cstr l.sCommandRequest.pcBuf →
          cstr (CloudTask_switch g l inp).1.g_pcIP = cstr l.sCommandRequest.pcBuf) := by
  refine ⟨by decide, by decide, by decide, ?_⟩
  intro h
  have h2 := h { initGlobals [] with g_ui32State := Cloud_Proxy_Set }
    { freshLocals idleCli with
      sCommandRequest := { ui32Request := Cloud_Proxy_Set
                           pcBuf := writeAt (List.replicate 128 NUL) 0 longProxy } }
    quietInputs rfl (by decide)
  revert h2
  decide

/-- C18, amended: when the payload holds a `:` and is shorter than the 50 bytes
of `g_pcIP`, the ProxySet step of the loop of `CloudTask` stores the payload as
the proxy address, sets the proxy flag and ends in Cloud_Server_Connect; so
does the whole iteration in which the message arrives, when no error code is
left over in `i32Ret`. -/
theorem ProxySet_stores_short_payload (g : Globals) (l : TaskLocals) (inp : IterInputs) :
    (g.g_ui32State = Cloud_Proxy_Set → ':' ∈ cstr l.sCommandRequest.pcBuf →
        (cstr l.sCommandRequest.pcBuf).length < 50 →
        (CloudTask_switch g l inp).1.g_ui32State = Cloud_Server_Connect
        ∧ cstr (CloudTask_switch g l inp).1.g_pcIP = cstr l.sCommandRequest.pcBuf
        ∧ (CloudTask_switch g l inp).1.g_bProxy = true)
    ∧ (∀ msg : tMailboxMsg, inp.pend = some msg → msg.ui32Request = Cloud_Proxy_Set →
        ':' ∈ cstr msg.pcBuf → (cstr msg.pcBuf).length < 50 → l.i32Ret = 0 →
        (CloudTask_iter g l inp).1.g_ui32State = Cloud_Server_Connect
        ∧ cstr (CloudTask_iter g l inp).1.g_pcIP = cstr msg.pcBuf
        ∧ (CloudTask_iter g l inp).1.g_bProxy = true) := by
  refine ⟨?_, ?_⟩
  · intro hs hc hlen
    rw [CloudTask_switch_proxy g l inp hs, CloudProxySet_colon _ _ hc]
    exact ⟨rfl, strncpy_cstr _ _ 50 hlen, rfl⟩
  · intro msg hp hr hc hlen hret
    unfold CloudTask_iter
    simp only
    have hpend : CloudTask_pend g l inp
        = (UpdateCloudData { g with g_ui32State := msg.ui32Request },
           { l with sCommandRequest := msg }) := by
      unfold CloudTask_pend
      rw [hp]
    rw [hpend]
    obtain ⟨us, -, -, -⟩ := UpdateCloudData_fields { g with g_ui32State := msg.ui32Request }
    rw [CloudTask_switch_proxy _ _ inp (by rw [us]; exact hr), CloudProxySet_colon _ _ hc]
    obtain ⟨cs, cip, cbp⟩ := CloudTask_check_zero_fields
      { { UpdateCloudData { g with g_ui32State := msg.ui32Request } with
            g_ui32State := Cloud_Server_Connect } with
          g_pcIP := strncpy
            ({ UpdateCloudData { g with g_ui32State := msg.ui32Request } with
                g_ui32State := Cloud_Server_Connect }).g_pcIP msg.pcBuf 50
          g_bProxy := true }
      { l with sCommandRequest := msg } hret
    rw [cs, cip, cbp]
    exact ⟨rfl, strncpy_cstr _ _ 50 hlen, rfl⟩

/-- C18 amended, on the payload of the specification. -/
theorem ProxySet_stores_short_payload_witness :
    (CloudTask_iter (initGlobals []) (freshLocals idleCli)
      (proxyInputs "myproxy.example.com:8080".toList)).1.g_ui32State = Cloud_Server_Connect
    ∧ cstr (CloudTask_iter (initGlobals []) (freshLocals idleCli)
      (proxyInputs "myproxy.example.com:8080".toList)).1.g_pcIP
        = "myproxy.example.com:8080".toList
    ∧ (CloudTask_iter (initGlobals []) (freshLocals idleCli)
      (proxyInputs "myproxy.example.com:8080".toList)).1.g_bProxy = true := by
  have h := (ProxySet_stores_short_payload (initGlobals []) (freshLocals idleCli)
    (proxyInputs "myproxy.example.com:8080".toList)).2
    { ui32Request := Cloud_Proxy_Set,
      pcBuf := writeAt (List.replicate 128 NUL) 0 "myproxy.example.com:8080".toList }
    rfl rfl (by decide) (by decide) rfl
  refine ⟨h.1, ?_, h.2.2⟩
  rw [h.2.1]
  decide

/-! ## Connecting -/

theorem headD_eq_getD_zero (l : List Int) (d : Int) : l.headD d = l.getD 0 d := by
  cases l <;> rfl

theorem tail_getD (l : List Int) (j : Nat) (d : Int) : l.tail.getD j d = l.getD (j + 1) d := by
  cases l <;> simp [List.getD]

theorem ServerConnect_loop_spec : ∀ (fuel ui32Retry : Nat) (g : Globals) (cli : HTTPCli),
    (∀ k, k < fuel → (∀ j, j < k → connectResult cli j ≠ 0) → connectResult cli k = 0 →
        (ServerConnect_loop fuel ui32Retry g cli).1 = 0
        ∧ (ServerConnect_loop fuel ui32Retry g cli).2.2.connectCalls = cli.connectCalls + k + 1
        ∧ (ServerConnect_loop fuel ui32Retry g cli).2.1.sleepMs = g.sleepMs + 1000 * k)
    ∧ ((∀ j, j < fuel → connectResult cli j ≠ 0) →
        (ServerConnect_loop fuel ui32Retry g cli).1 = -1
        ∧ (ServerConnect_loop fuel ui32Retry g cli).2.2.connectCalls = cli.connectCalls + fuel
        ∧ (ServerConnect_loop fuel ui32Retry g cli).2.1.sleepMs = g.sleepMs + 1000 * fuel) := by
  intro fuel
  induction fuel with
  | zero =>
    intro r g cli
    exact ⟨fun k hk => absurd hk (Nat.not_lt_zero k), fun _ => ⟨rfl, rfl, rfl⟩⟩
  | succ fuel ih =>
    intro r g cli
    have hshift : ∀ j, connectResult
        { cli with connect := cli.connect.tail, connectCalls := cli.connectCalls + 1 } j
        = connectResult cli (j + 1) := by
      intro j
      simp only [connectResult]
      exact tail_getD _ _ _
    have h0 : cli.connect.headD (-1) = connectResult cli 0 := headD_eq_getD_zero _ _
    obtain ⟨ih1, ih2⟩ := ih (r + 1) { g with sleepMs := g.sleepMs + 1000 }
      { cli with connect := cli.connect.tail, connectCalls := cli.connectCalls + 1 }
    constructor
    · intro k hk hbefore hzero
      rw [ServerConnect_loop]
      simp only [h0]
      cases k with
      | zero =>
        rw [if_pos hzero]
        exact ⟨rfl, rfl, rfl⟩
      | succ k =>
        rw [if_neg (hbefore 0 (Nat.succ_pos k))]
        obtain ⟨a, b, c⟩ := ih1 k (by omega)
          (fun j hj => by rw [hshift]; exact hbefore (j + 1) (by omega))
          (by rw [hshift]; exact hzero)
        refine ⟨a, ?_, ?_⟩
        · rw [b]
          simp only
          omega
        · rw [c]
          simp only
          omega
    · intro hall
      rw [ServerConnect_loop]
      simp only [h0]
      rw [if_neg (hall 0 (Nat.succ_pos fuel))]
      obtain ⟨a, b, c⟩ := ih2 (fun j hj => by rw [hshift]; exact hall (j + 1) (by omega))
      refine ⟨a, ?_, ?_⟩
      · rw [b]
        simp only
        omega
      · rw [c]
        simp only
        omega

theorem ServerConnect_loop_bound : ∀ (fuel ui32Retry : Nat) (g : Globals) (cli : HTTPCli),
    (ServerConnect_loop fuel ui32Retry g cli).2.2.connectCalls ≤ cli.connectCalls + fuel
    ∧ ((ServerConnect_loop fuel ui32Retry g cli).1 = 0
        ∨ (ServerConnect_loop fuel ui32Retry g cli).1 = -1) := by
  intro fuel
  induction fuel with
  | zero => intro r g cli; exact ⟨Nat.le_refl _, Or.inr rfl⟩
  | succ fuel ih =>
    intro r g cli
    rw [ServerConnect_loop]
    split
    · exact ⟨by simp, Or.inl rfl⟩
    · obtain ⟨a, b⟩ := ih (r + 1) { g with sleepMs := g.sleepMs + 1000 }
        { cli with connect := cli.connect.tail, connectCalls := cli.connectCalls + 1 }
      have a2 : (ServerConnect_loop fuel (r + 1) { g with sleepMs := g.sleepMs + 1000 }
          { cli with connect := cli.connect.tail,
                     connectCalls := cli.connectCalls + 1 }).2.2.connectCalls
          ≤ cli.connectCalls + 1 + fuel := a
      refine ⟨?_, b⟩
      omega

theorem ServerConnect_resolved (g : Globals) (cli : HTTPCli) (h : cli.initSockAddr.headD 0 = 0) :
    ∃ cli1 : HTTPCli, ServerConnect g cli = ServerConnect_loop 5 0 g cli1
      ∧ cli1.connect = cli.connect ∧ cli1.connectCalls = cli.connectCalls := by
  unfold ServerConnect
  simp only [h, ne_eq, not_true_eq_false, if_false]
  by_cases hp : g.g_bProxy = true
  · exact ⟨{ { cli with initSockAddr := cli.initSockAddr.tail } with proxySet := true },
      by rw [if_pos hp], rfl, rfl⟩
  · exact ⟨{ cli with initSockAddr := cli.initSockAddr.tail }, by rw [if_neg hp], rfl, rfl⟩

theorem CloudTask_switch_connect_failed (g : Globals) (l : TaskLocals) (inp : IterInputs)
    (hs : g.g_ui32State = Cloud_Server_Connect)
    (hf : (ServerConnect g
      (if g.g_bServerConnect = true then ServerDisconnect l.cli else l.cli)).1 ≠ 0) :
    (CloudTask_switch g l inp).1.g_ui32State = Cloud_Idle := by
  unfold CloudTask_switch
  rw [if_pos hs]
  simp only
  rw [if_pos hf]

/-- C20: `ServerConnect` makes at most five connection attempts and returns 0
or -1.  When name resolution fails it returns -1 with no attempt made; else
it returns 0 at the first attempt that succeeds among the first five, having
made no attempt after it, and -1 after five failed attempts.  When it does
not return 0, the Cloud_Server_Connect case of the loop of `CloudTask` sets
the state to Cloud_Idle. -/
theorem ServerConnect_at_most_five_attempts (g : Globals) (cli : HTTPCli) :
    (ServerConnect g cli).2.2.connectCalls ≤ cli.connectCalls + 5
    ∧ ((ServerConnect g cli).1 = 0 ∨ (ServerConnect g cli).1 = -1)
    ∧ (cli.initSockAddr.headD 0 ≠ 0 →
        (ServerConnect g cli).1 = -1
        ∧ (ServerConnect g cli).2.2.connectCalls = cli.connectCalls)
    ∧ (cli.initSockAddr.headD 0 = 0 →
        (∀ k, k < 5 → (∀ j, j < k → connectResult cli j ≠ 0) → connectResult cli k = 0 →
          (ServerConnect g cli).1 = 0
          ∧ (ServerConnect g cli).2.2.connectCalls = cli.connectCalls + k + 1)
        ∧ ((∀ j, j < 5 → connectResult cli j ≠ 0) →
          (ServerConnect g cli).1 = -1
          ∧ (ServerConnect g cli).2.2.connectCalls = cli.connectCalls + 5))
    ∧ (∀ (l : TaskLocals) (inp : IterInputs), g.g_ui32State = Cloud_Server_Connect →
        (ServerConnect g
          (if g.g_bServerConnect = true then ServerDisconnect l.cli else l.cli)).1 ≠ 0 →
        (CloudTask_switch g l inp).1.g_ui32State = Cloud_Idle) := by
  have hfail : cli.initSockAddr.headD 0 ≠ 0 →
      (ServerConnect g cli).1 = -1
      ∧ (ServerConnect g cli).2.2.connectCalls = cli.connectCalls := by
    intro h
    unfold ServerConnect
    simp only
    rw [if_pos h]
    exact ⟨rfl, rfl⟩
  refine ⟨?_, ?_, hfail, ?_, ?_⟩
  · by_cases h : cli.initSockAddr.headD 0 = 0
    · obtain ⟨cli1, he, -, hn⟩ := ServerConnect_resolved g cli h
      rw [he, ← hn]
      exact (ServerConnect_loop_bound 5 0 g cli1).1
    · rw [(hfail h).2]
      omega
  · by_cases h : cli.initSockAddr.headD 0 = 0
    · obtain ⟨cli1, he, -, -⟩ := ServerConnect_resolved g cli h
      rw [he]
      exact (ServerConnect_loop_bound 5 0 g cli1).2
    · exact Or.inr (hfail h).1
  · intro h
    obtain ⟨cli1, he, hc, hn⟩ := ServerConnect_resolved g cli h
    have hr : ∀ j, connectResult cli1 j = connectResult cli j := by
      intro j
      simp only [connectResult, hc]
    obtain ⟨s1, s2⟩ := ServerConnect_loop_spec 5 0 g cli1
    rw [he, ← hn]
    constructor
    · intro k hk hb hz
      obtain ⟨a, b, -⟩ := s1 k hk (fun j hj => by rw [hr]; exact hb j hj) (by rw [hr]; exact hz)
      exact ⟨a, b⟩
    · intro hall
      obtain ⟨a, b, -⟩ := s2 (fun j hj => by rw [hr]; exact hall j hj)
      exact ⟨a, b⟩
  · intro l inp hs hf
    exact CloudTask_switch_connect_failed g l inp hs hf

/-- C20, on a client whose first two attempts fail and whose third succeeds,
and on one whose attempts all fail. -/
theorem ServerConnect_at_most_five_attempts_witness :
    (ServerConnect (initGlobals []) { idleCli with connect := [-1, -105, 0, 0] }).1 = 0
    ∧ (ServerConnect (initGlobals [])
        { idleCli with connect := [-1, -105, 0, 0] }).2.2.connectCalls = 3
    ∧ (ServerConnect (initGlobals [])
        { idleCli with connect := [-1, -1, -1, -1, -1, 0] }).1 = -1
    ∧ (ServerConnect (initGlobals [])
        { idleCli with connect := [-1, -1, -1, -1, -1, 0] }).2.2.connectCalls = 5 := by
  have h1 := ((ServerConnect_at_most_five_attempts (initGlobals [])
    { idleCli with connect := [-1, -105, 0, 0] }).2.2.2.1 rfl).1 2 (by decide) (by decide)
    (by decide)
  have h2 := ((ServerConnect_at_most_five_attempts (initGlobals [])
    { idleCli with connect := [-1, -1, -1, -1, -1, 0] }).2.2.2.1 rfl).2 (by decide)
  exact ⟨h1.1, h1.2, h2.1, h2.2⟩

/-! ## Activation in the loop -/

theorem ServerConnect_loop_state : ∀ (fuel ui32Retry : Nat) (g : Globals) (cli : HTTPCli),
    (ServerConnect_loop fuel ui32Retry g cli).2.1.g_ui32State = g.g_ui32State := by
  intro fuel
  induction fuel with
  | zero => intro r g cli; rfl
  | succ fuel ih =>
    intro r g cli
    rw [ServerConnect_loop]
    split
    · rfl
    · exact ih (r + 1) { g with sleepMs := g.sleepMs + 1000 } _

theorem ServerConnect_state (g : Globals) (cli : HTTPCli) :
    (ServerConnect g cli).2.1.g_ui32State = g.g_ui32State := by
  unfold ServerConnect
  simp only
  split
  · rfl
  · exact ServerConnect_loop_state 5 0 g _

theorem SaveCIKEEPROM_state (g : Globals) (buf : List Char) :
    (SaveCIKEEPROM g buf).2.g_ui32State = g.g_ui32State := by
  unfold SaveCIKEEPROM
  simp only
  split <;> rfl

theorem ite_result_state {c : Prop} [Decidable c] (x y : Int × Globals × HTTPCli)
    (s : tCloudState) (hx : x.2.1.g_ui32State = s) (hy : y.2.1.g_ui32State = s) :
    (if c then x else y).2.1.g_ui32State = s := by
  split <;> assumption

theorem ExositeActivate_state (g : Globals) (cli : HTTPCli) (buf : List Char) :
    (ExositeActivate g cli buf).2.1.g_ui32State = g.g_ui32State := by
  unfold ExositeActivate
  simp only
  repeat' (first
    | apply ite_result_state
    | exact SaveCIKEEPROM_state _ _
    | rfl)

theorem ServerReconnect_state (g : Globals) (cli : HTTPCli) :
    (ServerReconnect g cli).1.g_ui32State = g.g_ui32State := by
  unfold ServerReconnect
  exact ServerConnect_state g _

theorem CloudHandleError_keeps_activate (i32Ret : Int) (g : Globals) :
    (CloudHandleError i32Ret Cloud_Activate_CIK g).1 = Cloud_Activate_CIK := by
  unfold CloudHandleError
  repeat' split
  all_goals rfl

theorem CloudTask_check_pos (g : Globals) (l : TaskLocals) (h : 0 < l.i32Ret) :
    (CloudTask_check g l).1.g_ui32State = (CloudHandleError l.i32Ret g.g_ui32State g).1 := by
  have hn : ¬ l.i32Ret < 0 := by omega
  simp [CloudTask_check, hn, h]

/-- C12 as stated fails: in an iteration that begins in Cloud_Activate_CIK with
the connected flag set, an activation that fails with the transport error
-101, and one that fails with -4 because the body `abc` the server sent with
status 200 is not read back from the EEPROM, both end in
Cloud_Server_Connect and not in Cloud_Activate_CIK. -/
theorem CloudTask_activate_negative_leaves_activate :
    (CloudTask_activation activateGlobals
      (freshLocals { idleCli with connect := [0], sendRequest := [-101] }) quietInputs).1 = -101
    ∧ (CloudTask_iter activateGlobals
      (freshLocals { idleCli with connect := [0], sendRequest := [-101] })
      quietInputs).1.g_ui32State = Cloud_Server_Connect
    ∧ (CloudTask_activation activateGlobals
      (freshLocals { idleCli with connect := [0], getResponseStatus := [200],
                                  readResponseBody := [ReadResult.data "abc".toList false] })
      quietInputs).1 = -4
    ∧ (CloudTask_iter activateGlobals
      (freshLocals { idleCli with connect := [0], getResponseStatus := [200],
                                  readResponseBody := [ReadResult.data "abc".toList false] })
      quietInputs).1.g_ui32State = Cloud_Server_Connect
    ∧ Cloud_Server_Connect ≠ Cloud_Activate_CIK := by
  refine ⟨by decide, by decide, by decide, by decide, by decide⟩

/-- C12, amended: in an iteration of the loop of `CloudTask` that begins in
Cloud_Activate_CIK with the connected flag set, if `ExositeActivate` returns a
positive code (an HTTP status) the state at the end of the iteration is still
Cloud_Activate_CIK, and if it returns a negative code (a transport error, or
-3 or -4 for a failed read-back) the state at the end of the iteration is
Cloud_Server_Connect. -/
theorem CloudTask_activate_failure (g : Globals) (l : TaskLocals) (inp : IterInputs)
    (hs : (CloudTask_pend g l inp).1.g_ui32State = Cloud_Activate_CIK)
    (hc : (CloudTask_pend g l inp).1.g_bServerConnect = true) :
    (0 < (CloudTask_activation g l inp).1 →
      (CloudTask_iter g l inp).1.g_ui32State = Cloud_Activate_CIK)
    ∧ ((CloudTask_activation g l inp).1 < 0 →
      (CloudTask_iter g l inp).1.g_ui32State = Cloud_Server_Connect) := by
  unfold CloudTask_iter CloudTask_activation
  simp only
  generalize CloudTask_pend g l inp = p at hs hc ⊢
  obtain ⟨g0, l0⟩ := p
  simp only at hs hc ⊢
  have hst : (ExositeActivate (ServerReconnect g0 l0.cli).1 (ServerReconnect g0 l0.cli).2
      inp.pcExositeProvBuf).2.1.g_ui32State = Cloud_Activate_CIK := by
    rw [ExositeActivate_state, ServerReconnect_state, hs]
  unfold CloudTask_switch
  rw [if_neg (by rw [hs]; decide), if_pos hs, if_neg (by simp [hc])]
  simp only
  generalize ExositeActivate (ServerReconnect g0 l0.cli).1 (ServerReconnect g0 l0.cli).2
    inp.pcExositeProvBuf = a at hst ⊢
  obtain ⟨ar, ag, ac⟩ := a
  simp only at hst ⊢
  constructor
  · intro hpos
    have hne : ar ≠ 0 := by omega
    rw [if_neg hne, CloudTask_check_pos _ _ (by simpa using hpos)]
    simp only [hst]
    exact CloudHandleError_keeps_activate _ _
  · intro hneg
    have hne : ar ≠ 0 := by omega
    rw [if_neg hne]
    exact (CloudTask_check_neg _ _ (by simpa using hneg)).1

/-- C12 amended, on an activation the server answers with the status 409 and
on one that fails in `HTTPCli_sendRequest` with -101. -/
theorem CloudTask_activate_failure_witness :
    (CloudTask_activation activateGlobals
      (freshLocals { idleCli with connect := [0], getResponseStatus := [409] })
      quietInputs).1 = 409
    ∧ (CloudTask_iter activateGlobals
      (freshLocals { idleCli with connect := [0], getResponseStatus := [409] })
      quietInputs).1.g_ui32State = Cloud_Activate_CIK
    ∧ (CloudTask_iter activateGlobals
      (freshLocals { idleCli with connect := [0], sendRequest := [-101] })
      quietInputs).1.g_ui32State = Cloud_Server_Connect :=
  ⟨by decide,
   (CloudTask_activate_failure activateGlobals
      (freshLocals { idleCli with connect := [0], getResponseStatus := [409] })
      quietInputs (by decide) (by decide)).1 (by decide),
   (CloudTask_activate_failure activateGlobals
      (freshLocals { idleCli with connect := [0], sendRequest := [-101] })
      quietInputs (by decide) (by decide)).2 (by decide)⟩

/-! ## The write exchange: what is returned, what is read -/

theorem readResponseBody_loop_ret (len : Nat) (s : Int) : ∀ (cs : List ReadResult)
    (buf : List Char),
    (if (readResponseBody_loop buf len cs).1 < 0 then (readResponseBody_loop buf len cs).1
      else s) = (firstReadFailure cs).getD s := by
  intro cs
  induction cs with
  | nil => intro buf; simp [readResponseBody_loop, firstReadFailure]
  | cons c rest ih =>
    intro buf
    cases c with
    | fail k =>
      have hk : (-(k + 1 : Int)) < 0 := by omega
      simp only [readResponseBody_loop, firstReadFailure, hk, if_true, Option.getD_some]
    | data bytes more =>
      cases more with
      | true =>
        simp only [readResponseBody_loop, firstReadFailure, if_true]
        exact ih _
      | false =>
        have hn : ¬ ((List.take len bytes).length : Int) < 0 := by omega
        simp [readResponseBody_loop, firstReadFailure, hn]

theorem readResponseBody_loop_rest (len : Nat) : ∀ (cs : List ReadResult) (buf : List Char),
    (readResponseBody_loop buf len cs).2.2 = afterBody cs := by
  intro cs
  induction cs with
  | nil => intro buf; rfl
  | cons c rest ih =>
    intro buf
    cases c with
    | fail k => rfl
    | data bytes more =>
      cases more with
      | true =>
        simp only [readResponseBody_loop, afterBody, if_true]
        exact ih _
      | false => simp [readResponseBody_loop, afterBody]

theorem cstr_ne_nil_getD (mem : List Char) (h : cstr mem ≠ []) : mem.getD 0 NUL ≠ NUL := by
  intro h0
  apply h
  cases mem with
  | nil => rfl
  | cons c t =>
    have hc : c = NUL := by simpa using h0
    simp [cstr, hc]

theorem ite_result_fst {c : Prop} [Decidable c] (x y : Int × Globals × HTTPCli) :
    (if c then x else y).1 = if c then x.1 else y.1 := by
  split <;> rfl

theorem ExositeWrite_fst (g : Globals) (cli : HTTPCli) (hw : BoardInputs) (pcDataBuf : List Char)
    (htoken : cstr g.g_pcExositeCIK ≠ []) :
    (ExositeWrite g cli hw pcDataBuf).1 = writeOutcome cli := by
  have h0 := cstr_ne_nil_getD _ htoken
  unfold ExositeWrite writeOutcome
  rw [if_neg h0]
  simp only [HTTPCli_sendRequest, HTTPCli_sendField, HTTPCli_sendRequestBody,
    HTTPCli_getResponseStatus, HTTPCli_getResponseField, headD_eq_getD_zero, tail_getD,
    ite_result_fst, Nat.zero_add, Nat.reduceAdd]
  have hs : HTTPStd_NO_CONTENT = 204 := rfl
  by_cases h1 : cli.sendRequest.getD 0 0 < 0
  · simp only [h1, if_true]
  · by_cases h2 : cli.sendField.getD 0 0 < 0
    · simp only [h1, h2, if_true, if_false]
    · by_cases h3 : cli.sendField.getD 1 0 < 0
      · simp only [h1, h2, h3, if_true, if_false]
      · by_cases h4 : cli.sendField.getD 2 0 < 0
        · simp only [h1, h2, h3, h4, if_true, if_false]
        · by_cases h5 : cli.sendRequestBody.getD 0 0 < 0
          · simp only [h1, h2, h3, h4, h5, if_true, if_false]
          · by_cases h6 : cli.getResponseStatus.getD 0 0 < 0
            · simp only [h1, h2, h3, h4, h5, h6, if_true, if_false]
            · simp only [h1, h2, h3, h4, h5, h6, if_false]
              split
              · rfl
              · rw [hs]
                by_cases h7 : cli.getResponseStatus.getD 0 0 = 204
                · simp only [h7, ne_eq, not_true_eq_false, if_false, if_true]
                · simp only [h7, ne_eq, not_false_eq_true, if_true, if_false]
                  exact readResponseBody_loop_ret _ _ _ _

theorem writeOutcome_flushed (cli : HTTPCli) (h : writeFlushed cli) :
    writeOutcome cli
      = if cli.getResponseStatus.getD 0 0 = 204 then 0
        else (firstReadFailure cli.readResponseBody).getD (cli.getResponseStatus.getD 0 0) := by
  obtain ⟨h1, h2, h3, h4, h5, h6, h7⟩ := h
  unfold writeOutcome
  rw [if_neg (by omega), if_neg (by omega), if_neg (by omega), if_neg (by omega),
    if_neg (by omega), if_neg (by omega), if_neg (by
      intro hc
      rcases h7 with h7 | h7
      · exact hc.1 h7
      · exact hc.2 h7)]

/-- C15: with a non-empty token, `ExositeWrite` returns the first negative
result among its transport calls, in the order it makes them; when none is
negative and the headers are flushed, it returns 0 for the status 204 and,
for every other status, the status itself once the body is read (or the
negative result of the read of the body that fails). -/
theorem ExositeWrite_returns_error_or_status (g : Globals) (cli : HTTPCli) (hw : BoardInputs)
    (pcDataBuf : List Char) (htoken : cstr g.g_pcExositeCIK ≠ []) :
    (ExositeWrite g cli hw pcDataBuf).1 = writeOutcome cli
    ∧ (cli.sendRequest.getD 0 0 < 0 →
        (ExositeWrite g cli hw pcDataBuf).1 = cli.sendRequest.getD 0 0)
    ∧ (writeFlushed cli → cli.getResponseStatus.getD 0 0 = 204 →
        (ExositeWrite g cli hw pcDataBuf).1 = 0)
    ∧ (writeFlushed cli → cli.getResponseStatus.getD 0 0 ≠ 204 →
        firstReadFailure cli.readResponseBody = none →
        (ExositeWrite g cli hw pcDataBuf).1 = cli.getResponseStatus.getD 0 0)
    ∧ (writeFlushed cli → cli.getResponseStatus.getD 0 0 ≠ 204 →
        ∀ e, firstReadFailure cli.readResponseBody = some e →
        (ExositeWrite g cli hw pcDataBuf).1 = e) := by
  have h := ExositeWrite_fst g cli hw pcDataBuf htoken
  refine ⟨h, ?_, ?_, ?_, ?_⟩
  · intro h1
    rw [h]
    unfold writeOutcome
    rw [if_pos h1]
  · intro hf hs
    rw [h, writeOutcome_flushed cli hf, if_pos hs]
  · intro hf hs hr
    rw [h, writeOutcome_flushed cli hf, if_neg hs, hr]
    rfl
  · intro hf hs e hr
    rw [h, writeOutcome_flushed cli hf, if_neg hs, hr]
    rfl

/-- C15, on a write answered 204, on one answered 200 with a body, and on one
whose `HTTPCli_sendRequestBody` fails with -102. -/
theorem ExositeWrite_returns_error_or_status_witness :
    (ExositeWrite syncGlobals { idleCli with getResponseStatus := [204] }
      quietInputs.hw quietInputs.pcDataBuf).1 = 0
    ∧ (ExositeWrite syncGlobals
        { idleCli with getResponseStatus := [200]
                       readResponseBody := [ReadResult.data "ok".toList false] }
        quietInputs.hw quietInputs.pcDataBuf).1 = 200
    ∧ (ExositeWrite syncGlobals { idleCli with sendRequestBody := [-102] }
        quietInputs.hw quietInputs.pcDataBuf).1 = -102 := by
  have h1 := (ExositeWrite_returns_error_or_status syncGlobals
    { idleCli with getResponseStatus := [204] } quietInputs.hw quietInputs.pcDataBuf
    (by decide)).2.2.1 (by decide) (by decide)
  have h2 := (ExositeWrite_returns_error_or_status syncGlobals
    { idleCli with getResponseStatus := [200]
                   readResponseBody := [ReadResult.data "ok".toList false] }
    quietInputs.hw quietInputs.pcDataBuf (by decide)).2.2.2.1 (by decide) (by decide)
    (by decide)
  have h3 := (ExositeWrite_returns_error_or_status syncGlobals
    { idleCli with sendRequestBody := [-102] } quietInputs.hw quietInputs.pcDataBuf
    (by decide)).1
  refine ⟨h1, ?_, ?_⟩
  · rw [h2]
    decide
  · rw [h3]
    decide

theorem ite_result_rest {c : Prop} [Decidable c] (x y : Int × Globals × HTTPCli) :
    (if c then x else y).2.2.readResponseBody
      = if c then x.2.2.readResponseBody else y.2.2.readResponseBody := by
  split <;> rfl

theorem ExositeWrite_rest (g : Globals) (cli : HTTPCli) (hw : BoardInputs)
    (pcDataBuf : List Char) (htoken : cstr g.g_pcExositeCIK ≠ []) (hf : writeFlushed cli)
    (hs : cli.getResponseStatus.getD 0 0 ≠ 204) :
    (ExositeWrite g cli hw pcDataBuf).2.2.readResponseBody = afterBody cli.readResponseBody := by
  have h0 := cstr_ne_nil_getD _ htoken
  obtain ⟨h1, h2, h3, h4, h5, h6, h7⟩ := hf
  have hn : HTTPStd_NO_CONTENT = 204 := rfl
  unfold ExositeWrite
  rw [if_neg h0]
  simp only [HTTPCli_sendRequest, HTTPCli_sendField, HTTPCli_sendRequestBody,
    HTTPCli_getResponseStatus, HTTPCli_getResponseField, headD_eq_getD_zero, tail_getD,
    ite_result_rest, Nat.zero_add, Nat.reduceAdd]
  rw [if_neg (by omega), if_neg (by omega), if_neg (by omega), if_neg (by omega),
    if_neg (by omega), if_neg (by omega), if_neg (by
      intro hc
      rcases h7 with h7 | h7
      · exact hc.1 h7
      · exact hc.2 h7), if_pos (by rw [hn]; exact hs)]
  simp only [readResponseBody_loop_rest, ite_self]

theorem ExositeRead_not_ok (g : Globals) (cli : HTTPCli) (pcRecBuf ppcValueBuf : List Char)
    (htoken : cstr g.g_pcExositeCIK ≠ []) (hf : readFlushed cli)
    (hs : cli.getResponseStatus.getD 0 0 ≠ 200) :
    (ExositeRead g cli pcRecBuf ppcValueBuf).1 = cli.getResponseStatus.getD 0 0
    ∧ (ExositeRead g cli pcRecBuf ppcValueBuf).2.2.readResponseBody = cli.readResponseBody
    ∧ (ExositeRead g cli pcRecBuf ppcValueBuf).2.1 = g := by
  have h0 := cstr_ne_nil_getD _ htoken
  obtain ⟨h1, h2, h3, h6, h7⟩ := hf
  have hn : HTTPStd_OK = 200 := rfl
  unfold ExositeRead
  rw [if_neg h0]
  simp only [HTTPCli_sendRequest, HTTPCli_sendField,
    HTTPCli_getResponseStatus, HTTPCli_getResponseField, headD_eq_getD_zero, tail_getD,
    Nat.zero_add, Nat.reduceAdd]
  rw [if_neg (by omega), if_neg (by omega), if_neg (by omega), if_neg (by omega),
    if_neg (by
      intro hc
      rcases h7 with h7 | h7
      · exact hc.1 h7
      · exact hc.2 h7), if_pos (by rw [hn]; exact hs)]
  exact ⟨rfl, rfl, rfl⟩

/-- C16 fails on the code for `ExositeRead`: when the request went out, the
headers are flushed and the status is not 200, `ExositeRead` returns the
status with no read of the body, so the body the server sent stays unread
on the transport; `ExositeWrite`, on a status other than 204, runs its read
loop to the end of the body before it returns. -/
theorem ExositeRead_leaves_body_unread (g : Globals) (cli : HTTPCli) (hw : BoardInputs)
    (pcDataBuf pcRecBuf ppcValueBuf : List Char) (htoken : cstr g.g_pcExositeCIK ≠ []) :
    (readFlushed cli → cli.getResponseStatus.getD 0 0 ≠ 200 →
      (ExositeRead g cli pcRecBuf ppcValueBuf).1 = cli.getResponseStatus.getD 0 0
      ∧ (ExositeRead g cli pcRecBuf ppcValueBuf).2.2.readResponseBody = cli.readResponseBody)
    ∧ (writeFlushed cli → cli.getResponseStatus.getD 0 0 ≠ 204 →
      (ExositeWrite g cli hw pcDataBuf).2.2.readResponseBody
        = afterBody cli.readResponseBody) := by
  constructor
  · intro hf hs
    obtain ⟨a, b, -⟩ := ExositeRead_not_ok g cli pcRecBuf ppcValueBuf htoken hf hs
    exact ⟨a, b⟩
  · intro hf hs
    exact ExositeWrite_rest g cli hw pcDataBuf htoken hf hs

/-- C16, failing input: a read the server answers with the status 503 and the
body `Service Unavailable`.  `ExositeRead` returns 503 and the body is still
to be read; `ExositeWrite` on the same answer leaves nothing unread. -/
theorem ExositeRead_leaves_body_unread_witness :
    (ExositeRead syncGlobals
      { idleCli with getResponseStatus := [503]
                     readResponseBody := [ReadResult.data "Service Unavailable".toList false] }
      quietInputs.pcRecBuf quietInputs.ppcValueBuf).1 = 503
    ∧ (ExositeRead syncGlobals
      { idleCli with getResponseStatus := [503]
                     readResponseBody := [ReadResult.data "Service Unavailable".toList false] }
      quietInputs.pcRecBuf quietInputs.ppcValueBuf).2.2.readResponseBody
        = [ReadResult.data "Service Unavailable".toList false]
    ∧ (ExositeWrite syncGlobals
      { idleCli with getResponseStatus := [503]
                     readResponseBody := [ReadResult.data "Service Unavailable".toList false] }
      quietInputs.hw quietInputs.pcDataBuf).2.2.readResponseBody = [] := by
  have h := ExositeRead_leaves_body_unread syncGlobals
    { idleCli with getResponseStatus := [503]
                   readResponseBody := [ReadResult.data "Service Unavailable".toList false] }
    quietInputs.hw quietInputs.pcDataBuf quietInputs.pcRecBuf quietInputs.ppcValueBuf
    (by decide)
  obtain ⟨h1, h2⟩ := h
  have hr := h1 (by decide) (by decide)
  have hw := h2 (by decide) (by decide)
  refine ⟨?_, hr.2, ?_⟩
  · rw [hr.1]
    decide
  · rw [hw]
    decide

/-! ## Inbound response: values that fill the buffer -/

theorem copyValue_full (src : List Char) (row n : Nat)
    (h : ∀ j, j < n → src.getD j NUL ≠ '&' ∧ src.getD j NUL ≠ NUL) :
    ∀ (fuel j : Nat) (mem : List Char), j + fuel = n →
    ∀ i, j ≤ i → i < n →
    (copyValue src row fuel j mem).getD (row + i) NUL = src.getD i NUL := by
  intro fuel
  induction fuel with
  | zero => intro j mem hj i hji hin; omega
  | succ fuel ih =>
    intro j mem hj i hji hin
    have hne := h j (by omega)
    rw [copyValue, if_neg (by
      intro hc
      rcases hc with hc | hc
      · exact hne.1 hc
      · exact hne.2 hc)]
    by_cases hij : i = j
    · subst hij
      rw [copyValue_frame _ _ _ _ _ _ (by omega), writeAt_getD, if_pos (by simp)]
      simp
    · exact ih (j + 1) _ (by omega) i (by omega) hin

theorem scanAlias_at (pcBuf : List Char) (idx : Nat) (mem tail : List Char)
    (ha : g_ppcGETAlias.getD idx [] ≠ []) (he : '=' ∉ g_ppcGETAlias.getD idx [])
    (h : ValueAt (cstr pcBuf) (g_ppcGETAlias.getD idx []) tail) :
    scanAlias pcBuf idx mem
      = copyValue tail (idx * VALUEBUF_SIZE) VALUEBUF_SIZE 0 mem := by
  obtain ⟨pre, hb, hfirst⟩ := h
  unfold scanAlias
  rw [hb, strstr_first _ ha _ pre hfirst]
  simp only
  rw [strstr_equals _ _ he]
  simp only [List.drop_succ_cons, List.drop_zero]

theorem scannedValues_full_row (pcBuf ppcValueBuf : List Char) (idx : Nat) (tail : List Char)
    (hidx : idx < ALIAS_PROCESSING)
    (h : ValueAt (cstr pcBuf) (g_ppcGETAlias.getD idx []) tail)
    (hlong : ∀ j, j < VALUEBUF_SIZE → tail.getD j NUL ≠ '&' ∧ tail.getD j NUL ≠ NUL) :
    ∀ i, i < VALUEBUF_SIZE →
    (scannedValues pcBuf ppcValueBuf).getD (idx * VALUEBUF_SIZE + i) NUL = tail.getD i NUL := by
  intro i hi
  have h40 : VALUEBUF_SIZE = 40 := rfl
  have h3 : ALIAS_PROCESSING = 3 := rfl
  unfold scannedValues
  have hcases : idx = 0 ∨ idx = 1 ∨ idx = 2 := by omega
  rcases hcases with rfl | rfl | rfl
  · rw [scanAlias_frame _ 2 _ _ (by omega), scanAlias_frame _ 1 _ _ (by omega),
      scanAlias_at pcBuf 0 _ tail (by decide) (by decide) h]
    exact copyValue_full tail _ VALUEBUF_SIZE hlong VALUEBUF_SIZE 0 _ (by omega) i
      (by omega) hi
  · rw [scanAlias_frame _ 2 _ _ (by omega),
      scanAlias_at pcBuf 1 _ tail (by decide) (by decide) h]
    exact copyValue_full tail _ VALUEBUF_SIZE hlong VALUEBUF_SIZE 0 _ (by omega) i
      (by omega) hi
  · rw [scanAlias_at pcBuf 2 _ tail (by decide) (by decide) h]
    exact copyValue_full tail _ VALUEBUF_SIZE hlong VALUEBUF_SIZE 0 _ (by omega) i
      (by omega) hi

/-- C17 fails on the code: when the value found for an alias of the table is
40 bytes or longer (none of its first 40 bytes is `&` or the terminator), the
first loop of `ProcessResponseBody` leaves the 40 bytes of the alias's row of
`ppcValueBuf` equal to the first 40 bytes of the value, so the copy is cut to
the capacity of the row, but no byte of the row is a terminator. -/
theorem ProcessResponseBody_full_row_unterminated (pcBuf ppcValueBuf : List Char) (idx : Nat)
    (tail : List Char) (hidx : idx < ALIAS_PROCESSING)
    (h : ValueAt (cstr pcBuf) (g_ppcGETAlias.getD idx []) tail)
    (hlong : ∀ j, j < VALUEBUF_SIZE → tail.getD j NUL ≠ '&' ∧ tail.getD j NUL ≠ NUL) :
    (∀ i, i < VALUEBUF_SIZE →
      (scannedValues pcBuf ppcValueBuf).getD (idx * VALUEBUF_SIZE + i) NUL = tail.getD i NUL)
    ∧ (∀ i, i < VALUEBUF_SIZE →
      (scannedValues pcBuf ppcValueBuf).getD (idx * VALUEBUF_SIZE + i) NUL ≠ NUL) := by
  have hrow := scannedValues_full_row pcBuf ppcValueBuf idx tail hidx h hlong
  refine ⟨hrow, ?_⟩
  intro i hi
  rw [hrow i hi]
  exact (hlong i hi).2

set_option maxRecDepth 8000 in
/-- C17, failing input: a response whose email value
`first.middle.last@department.example.com` is 40 bytes long, with the three
attributes READ_ONLY.  No byte of the row of emailaddr is a terminator, and
the email stored runs on into the row of gamestate: it is the value followed
by `0x1a`. -/
theorem ProcessResponseBody_full_row_unterminated_witness :
    (∀ i, i < VALUEBUF_SIZE →
      (scannedValues longEmailBody (List.replicate 120 NUL)).getD (1 * VALUEBUF_SIZE + i) NUL
        ≠ NUL)
    ∧ cstr (ProcessResponseBody readOnlyGlobals longEmailBody
        (List.replicate 120 NUL)).g_pcEmail
      = "first.middle.last@department.example.com0x1a".toList := by
  refine ⟨(ProcessResponseBody_full_row_unterminated longEmailBody (List.replicate 120 NUL) 1
    "first.middle.last@department.example.com&gamestate=0x1a".toList (by decide)
    ⟨"ledd1=1&".toList, by decide, by decide⟩ (by decide)).2, by decide⟩

/-! ## Activation: the token persisted and read back -/

set_option maxRecDepth 8000 in
/-- C11 fails on the code.  With `sampleCIK` in the EEPROM, the server answers
the activation with status 200 and the 42-byte body made of `sampleCIK`, a
carriage return and a line feed: `SaveCIKEEPROM` rejects the body for its
length and writes nothing, its result is not looked at, the 40 bytes read
back equal the first 40 bytes of the body, and `ExositeActivate` returns 0
although the body is neither what the EEPROM holds nor the cached token.
Likewise, a body that arrives in two reads, `sampleCIK` then `otherCIK`, is
reported as a success with `otherCIK`, the second read alone, persisted and
cached.  A body of forty bytes that arrives in one read is persisted, read
back and cached as it is. -/
theorem ExositeActivate_reports_success_for_other_body :
    (ExositeActivate reactivateGlobals
      { idleCli with getResponseStatus := [200]
                     readResponseBody :=
                       [ReadResult.data (sampleCIK ++ [Char.ofNat 13, Char.ofNat 10]) false] }
      (List.replicate 65 NUL)).1 = 0
    ∧ (ExositeActivate reactivateGlobals
      { idleCli with getResponseStatus := [200]
                     readResponseBody :=
                       [ReadResult.data (sampleCIK ++ [Char.ofNat 13, Char.ofNat 10]) false] }
      (List.replicate 65 NUL)).2.1.eepromCIK = sampleCIK
    ∧ cstr (ExositeActivate reactivateGlobals
      { idleCli with getResponseStatus := [200]
                     readResponseBody :=
                       [ReadResult.data (sampleCIK ++ [Char.ofNat 13, Char.ofNat 10]) false] }
      (List.replicate 65 NUL)).2.1.g_pcExositeCIK = sampleCIK
    ∧ sampleCIK ≠ sampleCIK ++ [Char.ofNat 13, Char.ofNat 10]
    ∧ (ExositeActivate activateGlobals
      { idleCli with getResponseStatus := [200]
                     readResponseBody :=
                       [ReadResult.data sampleCIK true, ReadResult.data otherCIK false] }
      (List.replicate 65 NUL)).1 = 0
    ∧ (ExositeActivate activateGlobals
      { idleCli with getResponseStatus := [200]
                     readResponseBody :=
                       [ReadResult.data sampleCIK true, ReadResult.data otherCIK false] }
      (List.replicate 65 NUL)).2.1.eepromCIK = otherCIK
    ∧ otherCIK ≠ sampleCIK ++ otherCIK
    ∧ (ExositeActivate activateGlobals
      { idleCli with getResponseStatus := [200]
                     readResponseBody := [ReadResult.data sampleCIK false] }
      (List.replicate 65 NUL)).1 = 0
    ∧ (ExositeActivate activateGlobals
      { idleCli with getResponseStatus := [200]
                     readResponseBody := [ReadResult.data sampleCIK false] }
      (List.replicate 65 NUL)).2.1.eepromCIK = sampleCIK
    ∧ cstr (ExositeActivate activateGlobals
      { idleCli with getResponseStatus := [200]
                     readResponseBody := [ReadResult.data sampleCIK false] }
      (List.replicate 65 NUL)).2.1.g_pcExositeCIK = sampleCIK := by
  refine ⟨by decide, by decide, by decide, by decide, by decide, by decide, by decide,
    by decide, by decide, by decide⟩

/-! ## Time since reset -/

/-- C29 fails on the code.  A call of `ReadOnTime` whose tick reading is above
the previous one adds the whole seconds of the difference to the count and
forgets the rest of the difference; a call that reads the same tick value as
the previous one takes the rollover branch and adds 4294967 seconds.  So the
value returned is not the whole seconds of the tick reading, and two calls
that read the same tick value return different results. -/
theorem ReadOnTime_adds_seconds_of_difference (g : Globals) (ui32Ticks : Nat)
    (hticks : ui32Ticks < 2 ^ 32) (hsec : g.ui32Seconds + 4294967 < 2 ^ 32) :
    (g.ui32PrevTicks < ui32Ticks →
      (ReadOnTime g ui32Ticks).1
        = g.ui32Seconds + (ui32Ticks - g.ui32PrevTicks) / BIOS_TICK_RATE)
    ∧ (g.ui32PrevTicks = ui32Ticks →
      (ReadOnTime g ui32Ticks).1 = g.ui32Seconds + 4294967)
    ∧ (ReadOnTime g ui32Ticks).2.ui32PrevTicks = ui32Ticks := by
  have hr : BIOS_TICK_RATE = 1000 := rfl
  refine ⟨?_, ?_, rfl⟩
  · intro hlt
    have hd : (ui32Ticks - g.ui32PrevTicks) / 1000 ≤ 4294967 := by omega
    unfold ReadOnTime
    simp only
    rw [if_pos hlt, u32sub_of_le _ _ (by omega) hticks, hr, u32_of_lt _ (by omega)]
  · intro heq
    unfold ReadOnTime
    simp only
    rw [if_neg (by omega), heq, hr]
    unfold u32 u32sub
    omega

/-- C29, failing input: after reset the tick readings 1500 and 3400 give 1 and
2, although 3400 ticks are 3 whole seconds; the same reading 1500 taken twice
gives 1 and then 4294968. -/
theorem ReadOnTime_adds_seconds_of_difference_witness :
    ReadOnTime_calls (initGlobals []) [1500, 3400] = [1, 2]
    ∧ 3400 / BIOS_TICK_RATE = 3
    ∧ ReadOnTime_calls (initGlobals []) [1500, 1500] = [1, 4294968] := by
  have h1 := (ReadOnTime_adds_seconds_of_difference (initGlobals []) 1500 (by decide)
    (by decide)).1 (by decide)
  have h2 := (ReadOnTime_adds_seconds_of_difference (ReadOnTime (initGlobals []) 1500).2 3400
    (by decide) (by decide)).1 (by decide)
  have h3 := (ReadOnTime_adds_seconds_of_difference (ReadOnTime (initGlobals []) 1500).2 1500
    (by decide) (by decide)).2.1 (by decide)
  refine ⟨?_, by decide, ?_⟩
  · simp only [ReadOnTime_calls, h1, h2]
    decide
  · simp only [ReadOnTime_calls, h1, h3]
    decide

/-! ## Inbound response: an alias without a value -/

theorem strstr_none_of_absent (a : List Char) : ∀ s : List Char, ¬ a <:+: s →
    strstr s a = none := by
  intro s
  induction s with
  | nil =>
    intro h
    have ha : a ≠ [] := fun e => h (e ▸ List.infix_refl [])
    simp [strstr, ha]
  | cons c t ih =>
    intro h
    have hp : a.isPrefixOf (c :: t) = false := by
      cases hb : a.isPrefixOf (c :: t) with
      | false => rfl
      | true => exact absurd (List.isPrefixOf_iff_prefix.mp hb).isInfix h
    have ht : ¬ a <:+: t := fun e => h (e.trans (List.suffix_cons c t).isInfix)
    rw [strstr, hp]
    simpa using ih ht

theorem scanAlias_no_value (pcBuf : List Char) (idx : Nat) (mem : List Char)
    (ha : g_ppcGETAlias.getD idx [] ≠ []) (he : '=' ∉ g_ppcGETAlias.getD idx [])
    (h : NoValueFor (cstr pcBuf) (g_ppcGETAlias.getD idx [])) :
    scanAlias pcBuf idx mem = mem := by
  unfold scanAlias
  rcases h with h | ⟨pre, tail, hb, hfirst, htail⟩
  · rw [strstr_none_of_absent _ _ h]
  · have hc : "=".toList = ['='] := rfl
    rw [hb, strstr_first _ ha _ pre hfirst]
    simp only
    rw [hc, strstr_singleton_none '=' _ (by
      intro hm
      rcases List.mem_append.mp hm with hm | hm
      · exact he hm
      · exact htail hm)]

theorem scannedValues_no_value_row (pcBuf ppcValueBuf : List Char) (idx : Nat)
    (hidx : idx < ALIAS_PROCESSING)
    (h : NoValueFor (cstr pcBuf) (g_ppcGETAlias.getD idx [])) :
    ∀ i, i < VALUEBUF_SIZE →
    (scannedValues pcBuf ppcValueBuf).getD (idx * VALUEBUF_SIZE + i) NUL
      = ppcValueBuf.getD (idx * VALUEBUF_SIZE + i) NUL := by
  intro i hi
  have h40 : VALUEBUF_SIZE = 40 := rfl
  have h3 : ALIAS_PROCESSING = 3 := rfl
  unfold scannedValues
  have hcases : idx = 0 ∨ idx = 1 ∨ idx = 2 := by omega
  rcases hcases with rfl | rfl | rfl
  · rw [scanAlias_frame _ 2 _ _ (by omega), scanAlias_frame _ 1 _ _ (by omega),
      scanAlias_no_value pcBuf 0 _ (by decide) (by decide) h]
  · rw [scanAlias_frame _ 2 _ _ (by omega),
      scanAlias_no_value pcBuf 1 _ (by decide) (by decide) h]
    exact scanAlias_frame _ 0 _ _ (by omega)
  · rw [scanAlias_no_value pcBuf 2 _ (by decide) (by decide) h,
      scanAlias_frame _ 1 _ _ (by omega)]
    exact scanAlias_frame _ 0 _ _ (by omega)

/-- C27 fails on the code: when the body gives no value for an alias of the
table, the first loop of `ProcessResponseBody` leaves the alias's row of
`ppcValueBuf` as it found it on entry, not initialised, and the second loop
stores what that row holds all the same when the attribute is READ_ONLY; for
ledd1 the LED is set to 1 or 0 by the first byte of the row on entry,
whatever its value was. -/
theorem ProcessResponseBody_applies_unset_row (g : Globals) (pcBuf ppcValueBuf : List Char)
    (idx : Nat) (hidx : idx < ALIAS_PROCESSING)
    (h : NoValueFor (cstr pcBuf) (g_ppcGETAlias.getD idx [])) :
    (∀ i, i < VALUEBUF_SIZE →
      (scannedValues pcBuf ppcValueBuf).getD (idx * VALUEBUF_SIZE + i) NUL
        = ppcValueBuf.getD (idx * VALUEBUF_SIZE + i) NUL)
    ∧ (idx = 0 → g.g_eLEDD1RW = READ_ONLY →
      (ProcessResponseBody g pcBuf ppcValueBuf).g_ui32LEDD1
        = if ppcValueBuf.getD 0 NUL = '1' then 1 else 0) := by
  have hrow := scannedValues_no_value_row pcBuf ppcValueBuf idx hidx h
  refine ⟨hrow, ?_⟩
  intro h0 hro
  subst h0
  have h00 := hrow 0 (by decide)
  simp only [Nat.zero_mul, Nat.add_zero] at h00
  rw [(ProcessResponseBody_values g pcBuf ppcValueBuf).1, if_pos hro, h00]

set_option maxRecDepth 8000 in
/-- C27, failing input: the response `gamestate=0x5` names neither ledd1 nor
emailaddr, the three attributes are READ_ONLY, the LED is on and the email is
`user@example.com`.  With a zeroed value buffer the LED is turned off and the
email is emptied; with the values of an earlier response left in the buffer
the email becomes `old@example.com`. -/
theorem ProcessResponseBody_applies_unset_row_witness :
    (ProcessResponseBody readOnlyValues ("gamestate=0x5".toList ++ [NUL])
      (List.replicate 120 NUL)).g_ui32LEDD1 = 0
    ∧ readOnlyValues.g_ui32LEDD1 = 1
    ∧ cstr (ProcessResponseBody readOnlyValues ("gamestate=0x5".toList ++ [NUL])
      (List.replicate 120 NUL)).g_pcEmail = []
    ∧ cstr (ProcessResponseBody readOnlyValues ("gamestate=0x5".toList ++ [NUL])
      staleValues).g_pcEmail = "old@example.com".toList
    ∧ cstr readOnlyValues.g_pcEmail = "user@example.com".toList := by
  have h := (ProcessResponseBody_applies_unset_row readOnlyValues
    ("gamestate=0x5".toList ++ [NUL]) (List.replicate 120 NUL) 0 (by decide)
    (Or.inl (by decide))).2 rfl rfl
  refine ⟨?_, rfl, by decide, by decide, by decide⟩
  rw [h]
  decide

/-! ## Tic-tac-toe: the quit pattern -/

theorem and_mask_of_and (s m k : Nat) (h : s &&& m = m) (hk : m &&& k = k) : s &&& k = k := by
  rw [← hk, ← Nat.land_assoc, h]

/-- C30 fails on the code: `CheckWinner` runs through the win-conditions
before it looks for the quit pattern, and nine set position bits of a player
hold the first win-condition, the row 0x7.  So on every board state with all
nine position bits of one player set it returns true with the message of a
win, `'X' Wins!` or `'O' Wins!`, and never with `Game ended by other player.`;
when the nine bits of player X are set the message is `'X' Wins!`. -/
theorem CheckWinner_quit_pattern_is_win (g : Globals)
    (hquit : g.g_ui32BoardState &&& 0x01FF = 0x01FF
      ∨ g.g_ui32BoardState &&& 0x01FF0000 = 0x01FF0000) :
    (CheckWinner g = (true, "'X' Wins!\n".toList) ∨ CheckWinner g = (true, "'O' Wins!\n".toList))
    ∧ (CheckWinner g).2 ≠ "Game ended by other player.\n".toList
    ∧ (g.g_ui32BoardState &&& 0x01FF = 0x01FF → CheckWinner g = (true, "'X' Wins!\n".toList)) := by
  have hx : g.g_ui32BoardState &&& 0x01FF = 0x01FF →
      CheckWinner g = (true, "'X' Wins!\n".toList) := by
    intro h
    have h7 : g.g_ui32BoardState &&& 0x7 = 0x7 := and_mask_of_and _ _ _ h (by decide)
    simp only [CheckWinner, g_ui32WinConditions, CheckWinner_loop, h7, if_true]
  have hor : CheckWinner g = (true, "'X' Wins!\n".toList)
      ∨ CheckWinner g = (true, "'O' Wins!\n".toList) := by
    rcases hquit with h | h
    · exact Or.inl (hx h)
    · have h7 : g.g_ui32BoardState &&& u32 (0x7 <<< 16) = u32 (0x7 <<< 16) :=
        and_mask_of_and _ _ _ h (by decide)
      by_cases h0 : g.g_ui32BoardState &&& 0x7 = 0x7
      · left
        simp only [CheckWinner, g_ui32WinConditions, CheckWinner_loop, h0, if_true]
      · right
        simp only [CheckWinner, g_ui32WinConditions, CheckWinner_loop, h0, h7, if_true,
          if_false]
  refine ⟨hor, ?_, hx⟩
  rcases hor with h | h
  · rw [h]
    decide
  · rw [h]
    decide

/-- C30, failing input: the board state 0x01FF01FF that the Q command writes,
and the state 0x01FF0000 in which only the bits of player O are set. -/
theorem CheckWinner_quit_pattern_is_win_witness :
    CheckWinner { initGlobals [] with g_ui32BoardState := 0x01FF01FF }
      = (true, "'X' Wins!\n".toList)
    ∧ CheckWinner { initGlobals [] with g_ui32BoardState := 0x01FF0000 }
      = (true, "'O' Wins!\n".toList) := by
  refine ⟨(CheckWinner_quit_pattern_is_win { initGlobals [] with g_ui32BoardState := 0x01FF01FF }
    (Or.inl (by decide))).2.2 (by decide), by decide⟩

/-! ## The command line: splitting and dispatch -/

theorem splitBlank_ne_nil : ∀ l : List Char, splitBlank l ≠ [] := by
  intro l
  cases l with
  | nil => simp [splitBlank]
  | cons c t =>
    rw [splitBlank]
    split
    · simp
    · split <;> simp

theorem runs_nil : runs [] = [] := by
  simp [runs, splitBlank]

theorem runs_blank (t : List Char) : runs (' ' :: t) = runs t := by
  simp [runs, splitBlank]

theorem splitBlank_takeWhile : ∀ t : List Char,
    splitBlank t = t.takeWhile (fun c => c != ' ')
      :: (match t.dropWhile (fun c => c != ' ') with
          | [] => []
          | _ :: u => splitBlank u) := by
  intro t
  induction t with
  | nil => simp [splitBlank]
  | cons c t ih =>
    by_cases hc : c = ' '
    · subst hc
      simp [splitBlank]
    · have hb : (c != ' ') = true := by simp [hc]
      rw [splitBlank, if_neg hc, ih]
      simp only [List.takeWhile_cons, List.dropWhile_cons, hb, if_true]

theorem runs_dropWhile (t : List Char) :
    runs (t.dropWhile (fun c => c != ' '))
      = (match t.dropWhile (fun c => c != ' ') with
          | [] => []
          | _ :: u => splitBlank u).filter (fun p => decide (p ≠ [])) := by
  cases h : t.dropWhile (fun c => c != ' ') with
  | nil => simp [runs, splitBlank]
  | cons d u =>
    have hd : d = ' ' := by
      have := List.head_dropWhile_not (fun c => c != ' ') t (by rw [h]; simp)
      simp only [h, List.head_cons] at this
      simpa using this
    subst hd
    simp [runs, splitBlank]

theorem runs_cons (c : Char) (t : List Char) (hc : c ≠ ' ') :
    runs (c :: t)
      = (c :: t.takeWhile (fun c => c != ' ')) :: runs (t.dropWhile (fun c => c != ' ')) := by
  rw [runs_dropWhile]
  unfold runs
  rw [splitBlank, if_neg hc, splitBlank_takeWhile t]
  simp

theorem cstr_cons_ne (c : Char) (x : List Char) (hc : c ≠ NUL) : cstr (c :: x) = c :: cstr x := by
  have hb : (c != NUL) = true := by simp [hc]
  simp [cstr, List.takeWhile_cons, hb]

theorem cstr_cons_NUL (x : List Char) : cstr (NUL :: x) = [] := by
  simp [cstr, List.takeWhile_cons]

theorem cstr_split_line (rest : List Char) (hrest : rest = [] ∨ rest.head? = some NUL) :
    ∀ l : List Char, noNUL l →
    cstr (l.map (fun c => if c = ' ' then NUL else c) ++ rest)
      = l.takeWhile (fun c => c != ' ') := by
  intro l
  induction l with
  | nil =>
    intro _
    rcases hrest with h | h
    · subst h
      rfl
    · cases rest with
      | nil => rfl
      | cons d u =>
        simp only [List.head?_cons, Option.some.injEq] at h
        subst h
        exact cstr_cons_NUL u
  | cons c t ih =>
    intro hn
    have hc : c ≠ NUL := hn c (by simp)
    have ht : noNUL t := fun d hd => hn d (List.mem_cons_of_mem _ hd)
    by_cases hs : c = ' '
    · subst hs
      simp only [List.map_cons, if_true, List.cons_append]
      rw [cstr_cons_NUL]
      simp
    · have hb : (c != ' ') = true := by simp [hs]
      simp only [List.map_cons, if_neg hs, List.cons_append]
      rw [cstr_cons_ne _ _ hc, ih ht]
      simp [List.takeWhile_cons, hb]

theorem CmdLineProcess_scan_spec (rest : List Char)
    (hrest : rest = [] ∨ rest.head? = some NUL) :
    ∀ l : List Char, noNUL l → ∀ (pos : Nat) (b : Bool) (k : Nat), k ≤ CMDLINE_MAX_ARGS →
    (k + (runs (if b = true then l else l.dropWhile (fun c => c != ' '))).length
        ≤ CMDLINE_MAX_ARGS →
      (CmdLineProcess_scan (l ++ rest) pos b k).1
        = l.map (fun c => if c = ' ' then NUL else c) ++ rest
      ∧ ∃ offs, (CmdLineProcess_scan (l ++ rest) pos b k).2 = some offs
        ∧ (∀ p ∈ offs, pos ≤ p)
        ∧ offs.map (fun p =>
            cstr ((l.map (fun c => if c = ' ' then NUL else c) ++ rest).drop (p - pos)))
          = runs (if b = true then l else l.dropWhile (fun c => c != ' ')))
    ∧ (CMDLINE_MAX_ARGS
        < k + (runs (if b = true then l else l.dropWhile (fun c => c != ' '))).length →
      (CmdLineProcess_scan (l ++ rest) pos b k).2 = none) := by
  intro l
  induction l with
  | nil =>
    intro _ pos b k hk8
    have hr : runs (if b = true then ([] : List Char)
        else ([] : List Char).dropWhile (fun c => c != ' ')) = [] := by
      cases b <;> simp [runs_nil]
    rw [hr]
    have hscan : CmdLineProcess_scan ([] ++ rest) pos b k = (rest, some []) := by
      rcases hrest with h | h
      · subst h
        rfl
      · cases rest with
        | nil => rfl
        | cons d u =>
          simp only [List.head?_cons, Option.some.injEq] at h
          subst h
          simp [CmdLineProcess_scan]
    rw [hscan]
    refine ⟨fun _ => ⟨rfl, [], rfl, ?_, rfl⟩, ?_⟩
    · intro p hp
      cases hp
    · intro h
      simp only [List.length_nil, Nat.add_zero] at h
      omega
  | cons c t ih =>
    intro hn pos b k hk8
    have hc : c ≠ NUL := hn c (by simp)
    have ht : noNUL t := fun d hd => hn d (List.mem_cons_of_mem _ hd)
    by_cases hs : c = ' '
    · subst hs
      have hR : runs (if b = true then ' ' :: t
          else (' ' :: t).dropWhile (fun c => c != ' ')) = runs t := by
        cases b <;> simp [runs_blank]
      rw [hR]
      have hscan : CmdLineProcess_scan ((' ' :: t) ++ rest) pos b k
          = (NUL :: (CmdLineProcess_scan (t ++ rest) (pos + 1) true k).1,
             (CmdLineProcess_scan (t ++ rest) (pos + 1) true k).2) := by
        simp only [List.cons_append]
        rw [CmdLineProcess_scan, if_neg hc, if_pos rfl]
      rw [hscan]
      have h := ih ht (pos + 1) true k hk8
      simp only [if_true] at h
      obtain ⟨h1, h2⟩ := h
      refine ⟨?_, h2⟩
      intro hle
      obtain ⟨hb, offs, ho, hp, hm⟩ := h1 hle
      refine ⟨by simp [hb], offs, ho, fun p hpm => by have := hp p hpm; omega, ?_⟩
      rw [← hm]
      apply List.map_congr_left
      intro p hpm
      have hpp := hp p hpm
      have he : p - pos = (p - (pos + 1)) + 1 := by omega
      simp only [List.map_cons, if_true, List.cons_append]
      rw [he, List.drop_succ_cons]
    · have hsb : (c != ' ') = true := by simp [hs]
      cases b with
      | true =>
        simp only [if_true]
        rw [runs_cons c t hs]
        by_cases hk : k < CMDLINE_MAX_ARGS
        · have hscan : CmdLineProcess_scan ((c :: t) ++ rest) pos true k
              = (c :: (CmdLineProcess_scan (t ++ rest) (pos + 1) false (k + 1)).1,
                 (CmdLineProcess_scan (t ++ rest) (pos + 1) false (k + 1)).2.map
                   (fun argv => pos :: argv)) := by
            simp only [List.cons_append]
            rw [CmdLineProcess_scan, if_neg hc, if_neg hs, if_pos rfl, if_pos hk]
          rw [hscan]
          have h := ih ht (pos + 1) false (k + 1) (by omega)
          simp only [Bool.false_eq_true, if_false] at h
          obtain ⟨h1, h2⟩ := h
          constructor
          · intro hle
            obtain ⟨hb, offs, ho, hp, hm⟩ := h1 (by simp only [List.length_cons] at hle; omega)
            refine ⟨by simp [hb, hs], pos :: offs, by simp [ho], ?_, ?_⟩
            · intro p hpm
              rcases List.mem_cons.mp hpm with e | e
              · omega
              · have := hp p e
                omega
            · simp only [List.map_cons, if_neg hs, List.cons_append, Nat.sub_self,
                List.drop_zero]
              rw [cstr_cons_ne _ _ hc, cstr_split_line rest hrest t ht, ← hm]
              congr 1
              apply List.map_congr_left
              intro p hpm
              have hpp := hp p hpm
              have he : p - pos = (p - (pos + 1)) + 1 := by omega
              rw [he, List.drop_succ_cons]
          · intro hgt
            rw [h2 (by simp only [List.length_cons] at hgt; omega)]
            rfl
        · have hscan : CmdLineProcess_scan ((c :: t) ++ rest) pos true k
              = (c :: (t ++ rest), none) := by
            simp only [List.cons_append]
            rw [CmdLineProcess_scan, if_neg hc, if_neg hs, if_pos rfl, if_neg hk]
          rw [hscan]
          constructor
          · intro hle
            simp only [List.length_cons] at hle
            omega
          · intro _
            rfl
      | false =>
        simp only [Bool.false_eq_true, if_false]
        have hdw : (c :: t).dropWhile (fun c => c != ' ') = t.dropWhile (fun c => c != ' ') := by
          simp [List.dropWhile_cons, hsb]
        rw [hdw]
        have hscan : CmdLineProcess_scan ((c :: t) ++ rest) pos false k
            = (c :: (CmdLineProcess_scan (t ++ rest) (pos + 1) false k).1,
               (CmdLineProcess_scan (t ++ rest) (pos + 1) false k).2) := by
          simp only [List.cons_append]
          rw [CmdLineProcess_scan, if_neg hc, if_neg hs, if_neg (by simp)]
        rw [hscan]
        have h := ih ht (pos + 1) false k hk8
        simp only [Bool.false_eq_true, if_false] at h
        obtain ⟨h1, h2⟩ := h
        refine ⟨?_, h2⟩
        intro hle
        obtain ⟨hb, offs, ho, hp, hm⟩ := h1 hle
        refine ⟨by simp [hb, hs], offs, ho, fun p hpm => by have := hp p hpm; omega, ?_⟩
        rw [← hm]
        apply List.map_congr_left
        intro p hpm
        have hpp := hp p hpm
        have he : p - pos = (p - (pos + 1)) + 1 := by omega
        simp only [List.map_cons, if_neg hs, List.cons_append]
        rw [he, List.drop_succ_cons]

theorem cstr_append_drop (buf : List Char) :
    buf = cstr buf ++ buf.drop (cstr buf).length
    ∧ (buf.drop (cstr buf).length = [] ∨ (buf.drop (cstr buf).length).head? = some NUL) := by
  have h := List.takeWhile_append_dropWhile (fun c => c != NUL) buf
  have hd : buf.drop (cstr buf).length = buf.dropWhile (fun c => c != NUL) := by
    have hl : (cstr buf).length = (buf.takeWhile (fun c => c != NUL)).length := rfl
    rw [hl]
    calc buf.drop (buf.takeWhile (fun c => c != NUL)).length
        = (buf.takeWhile (fun c => c != NUL) ++ buf.dropWhile (fun c => c != NUL)).drop
            (buf.takeWhile (fun c => c != NUL)).length := by rw [h]
      _ = buf.dropWhile (fun c => c != NUL) := List.drop_left _ _
  refine ⟨?_, ?_⟩
  · rw [hd]
    exact h.symm
  · rw [hd]
    cases hw : buf.dropWhile (fun c => c != NUL) with
    | nil => exact Or.inl rfl
    | cons d u =>
      right
      have := List.head_dropWhile_not (fun c => c != NUL) buf (by rw [hw]; simp)
      simp only [hw, List.head_cons] at this
      have hdn : d = NUL := by simpa using this
      rw [hdn]
      rfl

theorem CmdLineProcess_scan_line (buf : List Char) :
    ((runs (cstr buf)).length ≤ CMDLINE_MAX_ARGS →
      (CmdLineProcess_scan buf 0 true 0).1 = splitBuffer buf
      ∧ ∃ offs, (CmdLineProcess_scan buf 0 true 0).2 = some offs
        ∧ offs.map (fun p => cstr ((splitBuffer buf).drop p)) = runs (cstr buf))
    ∧ (CMDLINE_MAX_ARGS < (runs (cstr buf)).length →
      (CmdLineProcess_scan buf 0 true 0).2 = none) := by
  obtain ⟨hb, hrest⟩ := cstr_append_drop buf
  have h := CmdLineProcess_scan_spec _ hrest (cstr buf) (cstr_noNUL buf) 0 true 0
    (Nat.zero_le _)
  simp only [if_true, Nat.zero_add, Nat.sub_zero] at h
  rw [← hb] at h
  obtain ⟨h1, h2⟩ := h
  refine ⟨?_, h2⟩
  intro hle
  obtain ⟨ha, offs, ho, -, hm⟩ := h1 hle
  exact ⟨ha, offs, ho, hm⟩

theorem CmdLineProcess_eq (env : ConsoleEnv) (s : Console)
    (hle : (runs (cstr s.g_pcRxBuf)).length ≤ CMDLINE_MAX_ARGS) :
    CmdLineProcess env s
      = if (runs (cstr s.g_pcRxBuf)).length ≠ 0 then
          CmdLineProcess_lookup env (runs (cstr s.g_pcRxBuf)).length (runs (cstr s.g_pcRxBuf))
            { s with g_pcRxBuf := splitBuffer s.g_pcRxBuf } g_psCmdTable
        else (CMDLINE_BAD_CMD, { s with g_pcRxBuf := splitBuffer s.g_pcRxBuf }) := by
  obtain ⟨h1, offs, h2, h3⟩ := (CmdLineProcess_scan_line s.g_pcRxBuf).1 hle
  have hlen : offs.length = (runs (cstr s.g_pcRxBuf)).length := by
    rw [← h3, List.length_map]
  unfold CmdLineProcess
  simp only [h1, h2, h3, hlen]

theorem CmdLineProcess_lookup_none (env : ConsoleEnv) (argc : Nat) (argv : List (List Char))
    (s : Console) : ∀ tbl : List tCmdLineEntry, (∀ e ∈ tbl, e.pcCmd ≠ argv.getD 0 []) →
    CmdLineProcess_lookup env argc argv s tbl = (CMDLINE_BAD_CMD, s) := by
  intro tbl
  induction tbl with
  | nil => intro _; rfl
  | cons e rest ih =>
    intro h
    rw [CmdLineProcess_lookup, if_neg (fun hc => h e (by simp) hc.symm)]
    exact ih (fun x hx => h x (List.mem_cons_of_mem _ hx))

theorem CmdLineProcess_lookup_first (env : ConsoleEnv) (argc : Nat) (argv : List (List Char))
    (s : Console) (e : tCmdLineEntry) (post : List tCmdLineEntry)
    (he : e.pcCmd = argv.getD 0 []) :
    ∀ pre : List tCmdLineEntry, (∀ x ∈ pre, x.pcCmd ≠ argv.getD 0 []) →
    CmdLineProcess_lookup env argc argv s (pre ++ e :: post) = e.pfnCmd env argc argv s := by
  intro pre
  induction pre with
  | nil =>
    intro _
    simp only [List.nil_append]
    rw [CmdLineProcess_lookup, if_pos he.symm]
  | cons x rest ih =>
    intro h
    simp only [List.cons_append]
    rw [CmdLineProcess_lookup, if_neg (fun hc => h x (by simp) hc.symm)]
    exact ih (fun y hy => h y (List.mem_cons_of_mem _ hy))

theorem g_psCmdTable_text_eq :
    g_psCmdTable.map (fun e => (e.pcCmd, e.pcHelp)) = g_psCmdTable_text := rfl

/-- C22: `CmdLineProcess` splits the null-terminated line in the receive buffer
at the blanks into its maximal runs of other characters.  With more than
CMDLINE_MAX_ARGS runs it returns CMDLINE_TOO_MANY_ARGS.  Otherwise it returns
CMDLINE_BAD_CMD when there is no run or when no command name of the table
equals the first run, and else it is one call of the function of the first
table entry whose name equals the first run, with `argc` the number of runs
and `argv` the runs, on the state whose buffer holds the split line: it
returns what this call returns. -/
theorem CmdLineProcess_splits_and_dispatches (env : ConsoleEnv) (s : Console) :
    (CMDLINE_MAX_ARGS < (runs (cstr s.g_pcRxBuf)).length →
      (CmdLineProcess env s).1 = CMDLINE_TOO_MANY_ARGS)
    ∧ ((runs (cstr s.g_pcRxBuf)).length ≤ CMDLINE_MAX_ARGS →
      (runs (cstr s.g_pcRxBuf) = [] →
        CmdLineProcess env s
          = (CMDLINE_BAD_CMD, { s with g_pcRxBuf := splitBuffer s.g_pcRxBuf }))
      ∧ ((∀ e ∈ g_psCmdTable, e.pcCmd ≠ (runs (cstr s.g_pcRxBuf)).getD 0 []) →
        CmdLineProcess env s
          = (CMDLINE_BAD_CMD, { s with g_pcRxBuf := splitBuffer s.g_pcRxBuf }))
      ∧ (∀ (pre : List tCmdLineEntry) (e : tCmdLineEntry) (post : List tCmdLineEntry),
        g_psCmdTable = pre ++ e :: post →
        (∀ x ∈ pre, x.pcCmd ≠ (runs (cstr s.g_pcRxBuf)).getD 0 []) →
        e.pcCmd = (runs (cstr s.g_pcRxBuf)).getD 0 [] →
        runs (cstr s.g_pcRxBuf) ≠ [] →
        CmdLineProcess env s
          = e.pfnCmd env (runs (cstr s.g_pcRxBuf)).length (runs (cstr s.g_pcRxBuf))
              { s with g_pcRxBuf := splitBuffer s.g_pcRxBuf })) := by
  constructor
  · intro hgt
    have h2 := (CmdLineProcess_scan_line s.g_pcRxBuf).2 hgt
    unfold CmdLineProcess
    simp only [h2]
  · intro hle
    have heq := CmdLineProcess_eq env s hle
    refine ⟨?_, ?_, ?_⟩
    · intro hnil
      rw [heq, hnil]
      rfl
    · intro hno
      rw [heq]
      split
      · exact CmdLineProcess_lookup_none env _ _ _ g_psCmdTable hno
      · rfl
    · intro pre e post htbl hpre he hne
      rw [heq, if_pos (by
        intro h0
        exact hne (List.length_eq_zero.mp h0)), htbl]
      exact CmdLineProcess_lookup_first env _ _ _ e post he pre hpre

set_option maxRecDepth 8000 in
/-- C22, on the line `led on`: two runs, the entry `led` of the table is the
first whose name equals the first run, and the result is that of the one call
`Cmd_led(2, argv)`, which turns the LED on; on a line of nine runs, on a line
of blanks and on the line `leds on`, whose first run is no command name. -/
theorem CmdLineProcess_splits_and_dispatches_witness :
    runs "led on".toList = ["led".toList, "on".toList]
    ∧ CmdLineProcess sampleEnv (withLine (initConsole (initGlobals [])) "led on".toList)
      = Cmd_led sampleEnv 2 ["led".toList, "on".toList]
          { withLine (initConsole (initGlobals [])) "led on".toList with
            g_pcRxBuf := splitBuffer
              (withLine (initConsole (initGlobals [])) "led on".toList).g_pcRxBuf }
    ∧ (CmdLineProcess sampleEnv
        (withLine (initConsole (initGlobals [])) "led on".toList)).2.g.g_ui32LEDD1 = 1
    ∧ (CmdLineProcess sampleEnv
        (withLine (initConsole (initGlobals [])) "1 2 3 4 5 6 7 8 9".toList)).1
      = CMDLINE_TOO_MANY_ARGS
    ∧ (CmdLineProcess sampleEnv
        (withLine (initConsole (initGlobals [])) "   ".toList)).1 = CMDLINE_BAD_CMD
    ∧ (CmdLineProcess sampleEnv
        (withLine (initConsole (initGlobals [])) "leds on".toList)).1 = CMDLINE_BAD_CMD := by
  have h := ((CmdLineProcess_splits_and_dispatches sampleEnv
    (withLine (initConsole (initGlobals [])) "led on".toList)).2 (by decide)).2.2
    (g_psCmdTable.take 8)
    { pcCmd := "led".toList, pfnCmd := Cmd_led,
      pcHelp := ": Toggle LEDs. Type \"led help\" for more info.".toList }
    (g_psCmdTable.drop 9) rfl (by decide) (by decide) (by decide)
  have hr : runs (cstr (withLine (initConsole (initGlobals [])) "led on".toList).g_pcRxBuf)
      = ["led".toList, "on".toList] := by decide
  rw [hr] at h
  have h9 := (CmdLineProcess_splits_and_dispatches sampleEnv
    (withLine (initConsole (initGlobals [])) "1 2 3 4 5 6 7 8 9".toList)).1 (by decide)
  have h0 := ((CmdLineProcess_splits_and_dispatches sampleEnv
    (withLine (initConsole (initGlobals [])) "   ".toList)).2 (by decide)).1 (by decide)
  have hb := ((CmdLineProcess_splits_and_dispatches sampleEnv
    (withLine (initConsole (initGlobals [])) "leds on".toList)).2 (by decide)).2.1 (by decide)
  refine ⟨by decide, h, ?_, h9, ?_, ?_⟩
  · rw [h]
    decide
  · rw [h0]
  · rw [hb]

/-! ## The receive buffer -/

theorem writeAt_append_at (pre post xs : List Char) :
    writeAt (pre ++ post) pre.length xs = pre ++ xs ++ post.drop xs.length := by
  unfold writeAt
  have h1 : ((pre ++ post) ++ List.replicate (pre.length - (pre ++ post).length) NUL).take
      pre.length = pre := by
    rw [List.append_assoc, List.take_left']
    rfl
  have h2 : (pre ++ post).drop (pre.length + xs.length) = post.drop xs.length := by
    rw [← List.drop_drop, List.drop_left]
  rw [h1, h2]

theorem CommandReceived_stores (tail : List (Option Char)) :
    ∀ (cs pre post : List Char) (m : Nat) (s : Console),
    s.g_pcRxBuf = pre ++ post → s.ui32Idx = pre.length →
    pre.length + cs.length ≤ RX_BUF_SIZE →
    (∀ c ∈ cs, c ≠ '\r' ∧ c ≠ '\n') →
    s.uartIn = cs.map some ++ tail →
    CommandReceived (m + cs.length) s
      = CommandReceived m
          { s with uartIn := tail
                   g_pcRxBuf := pre ++ cs ++ post.drop cs.length
                   ui32Idx := pre.length + cs.length } := by
  intro cs
  induction cs with
  | nil =>
    intro pre post m s hb hi _ _ hin
    simp only [List.map_nil, List.nil_append] at hin
    simp only [List.length_nil, Nat.add_zero, List.append_nil, List.drop_zero]
    rw [← hb, ← hi, ← hin]
  | cons c t ih =>
    intro pre post m s hb hi hlen hcs hin
    have hc := hcs c (by simp)
    have ht : ∀ d ∈ t, d ≠ '\r' ∧ d ≠ '\n' := fun d hd => hcs d (List.mem_cons_of_mem _ hd)
    simp only [List.length_cons] at hlen
    simp only [List.map_cons, List.cons_append] at hin
    show CommandReceived ((m + t.length) + 1) s = _
    rw [CommandReceived, hin]
    simp only
    rw [if_neg (by
      intro h
      rcases h with h | h
      · exact hc.1 h
      · exact hc.2 h), if_neg (by
      simp only [hi]
      omega)]
    rw [ih (pre ++ [c]) (post.drop 1) m _ (by
        simp only [hb, hi]
        rw [writeAt_append_at]
        rfl) (by simp [hi]) (by simp only [List.length_append, List.length_singleton]; omega)
      ht rfl]
    simp only [List.length_append, List.length_singleton, List.append_assoc,
      List.singleton_append, List.drop_drop, List.length_cons]
    have e1 : pre.length + (([] : List Char).length + 1) + t.length
        = pre.length + (t.length + 1) := by
      simp only [List.length_nil]
      omega
    have e2 : 1 + t.length = t.length + 1 := by omega
    rw [e1, e2]

theorem CommandReceived_full (s : Console) (cs : List Char) (tail : List (Option Char))
    (x : Char) (hbuf : s.g_pcRxBuf.length = RX_BUF_SIZE) (hidx : s.ui32Idx = 0)
    (hlen : cs.length = RX_BUF_SIZE) (hcs : ∀ c ∈ cs, c ≠ '\r' ∧ c ≠ '\n')
    (hin : s.uartIn = cs.map some ++ some x :: tail) :
    CommandReceived (RX_BUF_SIZE + 1) s
      = CommandReceived 1
          { s with uartIn := some x :: tail, g_pcRxBuf := cs, ui32Idx := cs.length } := by
  have h := CommandReceived_stores (some x :: tail) cs [] s.g_pcRxBuf 1 s rfl
    (by simp [hidx]) (by simp [hlen]) hcs hin
  have hd : s.g_pcRxBuf.drop cs.length = [] := by
    rw [hlen, ← hbuf]
    exact List.drop_length _
  have e : RX_BUF_SIZE + 1 = 1 + cs.length := by omega
  rw [e, h, hd]
  simp only [List.nil_append, List.append_nil, List.length_nil, Nat.zero_add]

/-- C23 fails on the code: `CommandReceived` rejects a line when the index has
gone above RX_BUF_SIZE, not when it has reached it.  After RX_BUF_SIZE
characters without CR or LF the next character is stored at index RX_BUF_SIZE,
one byte past the buffer.  When it is a CR the line is accepted with
CMD_RECEIVED and its terminator is stored at that index, so the RX_BUF_SIZE
bytes of the buffer hold the line with no terminator of the function's own;
when it is another character the line is rejected with CMDLINE_BAD_CMD only
after that character has been stored past the buffer. -/
theorem CommandReceived_stores_past_buffer (s : Console) (cs : List Char)
    (tail : List (Option Char)) (hbuf : s.g_pcRxBuf.length = RX_BUF_SIZE)
    (hidx : s.ui32Idx = 0) (hlen : cs.length = RX_BUF_SIZE)
    (hcs : ∀ c ∈ cs, c ≠ '\r' ∧ c ≠ '\n') :
    (s.uartIn = cs.map some ++ some '\r' :: tail →
      CommandReceived (RX_BUF_SIZE + 1) s
        = (CMD_RECEIVED, { s with uartIn := tail, g_pcRxBuf := cs ++ [NUL], ui32Idx := 0 }))
    ∧ (∀ x : Char, x ≠ '\r' → x ≠ '\n' → s.uartIn = cs.map some ++ some x :: tail →
      CommandReceived (RX_BUF_SIZE + 1) s
        = (CMDLINE_BAD_CMD,
           { s with uartIn := tail
                    g_pcRxBuf := List.replicate RX_BUF_SIZE NUL ++ [x]
                    ui32Idx := 0 })) := by
  constructor
  · intro hin
    rw [CommandReceived_full s cs tail '\r' hbuf hidx hlen hcs hin, CommandReceived]
    simp only [if_true, true_or]
    have h1 := writeAt_append_at cs [] ['\r']
    simp only [List.append_nil, List.drop_nil] at h1
    have h2 := writeAt_append_at cs ['\r'] [NUL]
    simp only [List.length_singleton, List.drop_succ_cons, List.drop_zero,
      List.append_nil] at h2
    rw [h1, h2]
  · intro x hx1 hx2 hin
    rw [CommandReceived_full s cs tail x hbuf hidx hlen hcs hin, CommandReceived]
    simp only
    rw [if_neg (by
      intro h
      rcases h with h | h
      · exact hx1 h
      · exact hx2 h), if_pos (by
      simp only [hlen]
      decide)]
    have h1 := writeAt_append_at cs [] [x]
    simp only [List.append_nil, List.drop_nil] at h1
    rw [h1, writeAt_zero]
    have hd : (cs ++ [x]).drop (List.replicate RX_BUF_SIZE NUL).length = [x] := by
      rw [List.length_replicate, ← hlen]
      exact List.drop_left _ _
    rw [hd]

set_option maxRecDepth 8000 in
/-- C23, failing input: 128 characters `a` followed by a CR, received in a
buffer that is empty.  The line is accepted; the memory from the start of the
buffer holds 129 bytes, the 128 characters and, at index 128, the terminator. -/
theorem CommandReceived_stores_past_buffer_witness :
    (CommandReceived 129
      { initConsole (initGlobals []) with
        uartIn := (List.replicate 128 'a' ++ ['\r']).map some }).1 = CMD_RECEIVED
    ∧ (CommandReceived 129
      { initConsole (initGlobals []) with
        uartIn := (List.replicate 128 'a' ++ ['\r']).map some }).2.g_pcRxBuf
      = List.replicate 128 'a' ++ [NUL]
    ∧ (List.replicate 128 'a' ++ [NUL]).length = RX_BUF_SIZE + 1 := by
  have h := (CommandReceived_stores_past_buffer
    { initConsole (initGlobals []) with
      uartIn := (List.replicate 128 'a' ++ ['\r']).map some }
    (List.replicate 128 'a') [] (by decide) rfl (by decide) (by decide)).1 (by decide)
  have e : (129 : Nat) = RX_BUF_SIZE + 1 := rfl
  rw [e, h]
  exact ⟨rfl, rfl, by decide⟩

/-! ## The alert command -/

theorem g_ppcAlertMessages_beyond (idx : Nat) (h : 3 ≤ idx) :
    g_ppcAlertMessages.getD idx none = none := by
  obtain ⟨j, rfl⟩ : ∃ j, idx = j + 3 := ⟨idx - 3, by omega⟩
  cases j with
  | zero => rfl
  | succ j => simp [g_ppcAlertMessages]

theorem Cmd_alert_stores (env : ConsoleEnv) (argv : List (List Char)) (s : Console) (idx : Nat)
    (m : List Char) (hidx : strtoul0 (argv.getD 1 []) = idx)
    (hm : g_ppcAlertMessages.getD idx none = some m) (hlen : (cstr m).length < 50) :
    cstr (Cmd_alert env 2 argv s).2.g.g_pcAlert = cstr m := by
  have h : (Cmd_alert env 2 argv s).2.g.g_pcAlert = strncpy s.g.g_pcAlert m 50 := by
    simp only [Cmd_alert, hidx, hm, UART_print]
    rfl
  rw [h]
  exact strncpy_cstr _ _ 50 hlen

/-- C24 fails on the code: `Cmd_alert` uses the number `strtoul` returns as an
index of `g_ppcAlertMessages` with no check.  For every argument whose value
is 3 or more the table is read at that index, which holds no message (index 3
is the NULL that ends the table, an index from 4 on lies outside the array),
the alert buffer is overwritten with the 50 bytes `strncpy` takes through the
pointer found there, and the alert mode is set to READ_WRITE.  For the indices
0, 1 and 2 the message is stored with its terminator and the mode is set to
READ_WRITE. -/
theorem Cmd_alert_index_unchecked (env : ConsoleEnv) (argv : List (List Char)) (s : Console) :
    (3 ≤ strtoul0 (argv.getD 1 []) →
      (Cmd_alert env 2 argv s).2.alertReads = s.alertReads ++ [strtoul0 (argv.getD 1 [])]
      ∧ g_ppcAlertMessages.getD (strtoul0 (argv.getD 1 [])) none = none
      ∧ (4 ≤ strtoul0 (argv.getD 1 []) →
          g_ppcAlertMessages.length ≤ strtoul0 (argv.getD 1 []))
      ∧ (Cmd_alert env 2 argv s).2.g.g_eAlertRW = READ_WRITE
      ∧ (Cmd_alert env 2 argv s).2.g.g_pcAlert
          = strncpy s.g.g_pcAlert (env.strayBytes (strtoul0 (argv.getD 1 []))) 50)
    ∧ (strtoul0 (argv.getD 1 []) < 3 →
      ∃ m, g_ppcAlertMessages.getD (strtoul0 (argv.getD 1 [])) none = some m
        ∧ cstr (Cmd_alert env 2 argv s).2.g.g_pcAlert = m
        ∧ (Cmd_alert env 2 argv s).2.g.g_eAlertRW = READ_WRITE) := by
  constructor
  · intro h
    have hn := g_ppcAlertMessages_beyond _ h
    refine ⟨rfl, hn, ?_, rfl, ?_⟩
    · intro h4
      exact h4
    · simp only [Cmd_alert, hn, UART_print]
      rfl
  · intro h
    have hcases : strtoul0 (argv.getD 1 []) = 0 ∨ strtoul0 (argv.getD 1 []) = 1
        ∨ strtoul0 (argv.getD 1 []) = 2 := by omega
    rcases hcases with h0 | h0 | h0
    · refine ⟨"Hello World!!".toList, by rw [h0]; rfl, ?_, rfl⟩
      rw [Cmd_alert_stores env argv s 0 _ h0 rfl (by decide)]
      decide
    · refine ⟨"Testing Exosite scripting features.".toList, by rw [h0]; rfl, ?_, rfl⟩
      rw [Cmd_alert_stores env argv s 1 _ h0 rfl (by decide)]
      decide
    · refine ⟨"Log into Exosite for a quick game of tic-tac-toe!".toList, by rw [h0]; rfl, ?_,
        rfl⟩
      rw [Cmd_alert_stores env argv s 2 _ h0 rfl (by decide)]
      decide

set_option maxRecDepth 8000 in
/-- C24, failing input: the command line `alert 7` typed while the alert mode
is NONE.  `Cmd_alert` reads the table at index 7, outside the array of four
entries, and the alert mode becomes READ_WRITE. -/
theorem Cmd_alert_index_unchecked_witness :
    (Cmd_alert sampleEnv 2 ["alert".toList, "7".toList]
      (initConsole (initGlobals []))).2.alertReads = [7]
    ∧ g_ppcAlertMessages.length = 4
    ∧ (initConsole (initGlobals [])).g.g_eAlertRW = NONE
    ∧ (Cmd_alert sampleEnv 2 ["alert".toList, "7".toList]
      (initConsole (initGlobals []))).2.g.g_eAlertRW = READ_WRITE
    ∧ (CmdLineProcess sampleEnv
      (withLine (initConsole (initGlobals [])) "alert 7".toList)).2.g.g_eAlertRW = READ_WRITE
    ∧ (CmdLineProcess sampleEnv
      (withLine (initConsole (initGlobals [])) "alert 7".toList)).2.alertReads = [7] := by
  have h := (Cmd_alert_index_unchecked sampleEnv ["alert".toList, "7".toList]
    (initConsole (initGlobals []))).1 (by decide)
  refine ⟨h.1, rfl, rfl, h.2.2.2.1, by decide, by decide⟩

/-! ## The proxy flag is never cleared -/

theorem ite_result_bProxy {c : Prop} [Decidable c] (x y : Int × Globals × HTTPCli)
    (v : Bool) (hx : x.2.1.g_bProxy = v) (hy : y.2.1.g_bProxy = v) :
    (if c then x else y).2.1.g_bProxy = v := by
  split <;> assumption

theorem ServerConnect_loop_bProxy : ∀ (fuel ui32Retry : Nat) (g : Globals) (cli : HTTPCli),
    (ServerConnect_loop fuel ui32Retry g cli).2.1.g_bProxy = g.g_bProxy := by
  intro fuel
  induction fuel with
  | zero => intro r g cli; rfl
  | succ fuel ih =>
    intro r g cli
    rw [ServerConnect_loop]
    split
    · rfl
    · exact ih (r + 1) { g with sleepMs := g.sleepMs + 1000 } _

theorem ServerConnect_bProxy (g : Globals) (cli : HTTPCli) :
    (ServerConnect g cli).2.1.g_bProxy = g.g_bProxy := by
  unfold ServerConnect
  simp only
  split
  · rfl
  · exact ServerConnect_loop_bProxy 5 0 g _

theorem ServerReconnect_bProxy (g : Globals) (cli : HTTPCli) :
    (ServerReconnect g cli).1.g_bProxy = g.g_bProxy := by
  unfold ServerReconnect
  exact ServerConnect_bProxy g _

theorem SaveCIKEEPROM_bProxy (g : Globals) (buf : List Char) :
    (SaveCIKEEPROM g buf).2.g_bProxy = g.g_bProxy := by
  unfold SaveCIKEEPROM
  simp only
  split <;> rfl

theorem GetCIK_bProxy (g : Globals) : (GetCIK g).2.g_bProxy = g.g_bProxy := by
  unfold GetCIK
  simp only
  split <;> rfl

theorem ExositeActivate_bProxy (g : Globals) (cli : HTTPCli) (buf : List Char) :
    (ExositeActivate g cli buf).2.1.g_bProxy = g.g_bProxy := by
  unfold ExositeActivate
  simp only
  repeat' (first
    | apply ite_result_bProxy
    | exact SaveCIKEEPROM_bProxy _ _
    | rfl)

theorem GetRequestBody_demote_bProxy (g : Globals) :
    (GetRequestBody_demote g).g_bProxy = g.g_bProxy := by
  unfold GetRequestBody_demote
  by_cases hl : g.g_eLEDD1RW = READ_WRITE <;> by_cases hb : g.g_eBoardStaeRW = READ_WRITE <;>
    by_cases he : g.g_eEmailRW = READ_WRITE <;> by_cases ha : g.g_eAlertRW = READ_WRITE <;>
    simp [hl, hb, he, ha]

theorem GetRequestBody_bProxy (g : Globals) (hw : BoardInputs) (mem : List Char) (n : Nat) :
    (GetRequestBody g hw mem n).2.g_bProxy = g.g_bProxy := by
  rw [GetRequestBody_snd, GetRequestBody_demote_bProxy]
  rfl

theorem ExositeWrite_bProxy (g : Globals) (cli : HTTPCli) (hw : BoardInputs)
    (pcDataBuf : List Char) :
    (ExositeWrite g cli hw pcDataBuf).2.1.g_bProxy = g.g_bProxy := by
  unfold ExositeWrite
  simp only
  repeat' (first
    | with_reducible apply ite_result_bProxy
    | with_reducible rfl
    | with_reducible exact GetRequestBody_bProxy _ _ _ _)

theorem applyAlias_bProxy (mem : List Char) (g : Globals) (i : Nat) :
    (applyAlias mem g i).g_bProxy = g.g_bProxy := by
  unfold applyAlias
  simp only
  repeat' split
  all_goals rfl

theorem ProcessResponseBody_bProxy (g : Globals) (pcBuf ppcValueBuf : List Char) :
    (ProcessResponseBody g pcBuf ppcValueBuf).g_bProxy = g.g_bProxy := by
  rw [ProcessResponseBody_eq, applyAlias_bProxy, applyAlias_bProxy, applyAlias_bProxy]

theorem ExositeRead_bProxy (g : Globals) (cli : HTTPCli) (pcRecBuf ppcValueBuf : List Char) :
    (ExositeRead g cli pcRecBuf ppcValueBuf).2.1.g_bProxy = g.g_bProxy := by
  unfold ExositeRead
  simp only
  repeat' (first
    | with_reducible apply ite_result_bProxy
    | with_reducible rfl
    | with_reducible exact ProcessResponseBody_bProxy _ _ _)

theorem CloudHandleError_bProxy (i32Ret : Int) (st : tCloudState) (g : Globals) :
    (CloudHandleError i32Ret st g).2.g_bProxy = g.g_bProxy := by
  unfold CloudHandleError
  repeat' split
  all_goals rfl

theorem CloudTask_check_bProxy (g : Globals) (l : TaskLocals) :
    (CloudTask_check g l).1.g_bProxy = g.g_bProxy := by
  unfold CloudTask_check
  simp only
  split
  · rfl
  · split
    · exact CloudHandleError_bProxy _ _ _
    · rfl

theorem CloudTask_pend_bProxy (g : Globals) (l : TaskLocals) (inp : IterInputs) :
    (CloudTask_pend g l inp).1.g_bProxy = g.g_bProxy := by
  unfold CloudTask_pend
  simp only
  cases inp.pend with
  | none => exact (UpdateCloudData_fields g).2.2.1
  | some msg => exact (UpdateCloudData_fields _).2.2.1

theorem CloudProxySet_bProxy (g : Globals) (p : Option (List Char)) (h : g.g_bProxy = true) :
    (CloudProxySet g p).g_bProxy = true := by
  unfold CloudProxySet
  cases p with
  | none => exact h
  | some q =>
    simp only
    split
    · exact h
    · rfl

theorem ite_pair_bProxy {c : Prop} [Decidable c] (x y : Globals × TaskLocals)
    (hx : x.1.g_bProxy = true) (hy : y.1.g_bProxy = true) :
    (if c then x else y).1.g_bProxy = true := by
  split <;> assumption

theorem CloudTask_switch_bProxy (g : Globals) (l : TaskLocals) (inp : IterInputs)
    (h : g.g_bProxy = true) : (CloudTask_switch g l inp).1.g_bProxy = true := by
  have hc : ∀ cli, (ServerConnect g cli).2.1.g_bProxy = true :=
    fun cli => (ServerConnect_bProxy g cli).trans h
  have hk : ∀ cli, (GetCIK { (ServerConnect g cli).2.1 with g_bServerConnect := true }).2.g_bProxy
      = true := fun cli => (GetCIK_bProxy _).trans (hc cli)
  have ha : ∀ cli buf, (ExositeActivate (ServerReconnect g cli).1 (ServerReconnect g cli).2
      buf).2.1.g_bProxy = true :=
    fun cli buf => (ExositeActivate_bProxy _ _ _).trans ((ServerReconnect_bProxy g cli).trans h)
  have hwr : ∀ cli bi buf, (ExositeWrite g cli bi buf).2.1.g_bProxy = true :=
    fun cli bi buf => (ExositeWrite_bProxy g cli bi buf).trans h
  have hrd : ∀ cli bi buf cli2 b1 b2,
      (ExositeRead (ExositeWrite g cli bi buf).2.1 cli2 b1 b2).2.1.g_bProxy = true :=
    fun cli bi buf cli2 b1 b2 => (ExositeRead_bProxy _ _ _ _).trans (hwr cli bi buf)
  unfold CloudTask_switch
  simp only
  repeat' (first
    | with_reducible apply ite_pair_bProxy
    | with_reducible exact h
    | with_reducible exact hc _
    | with_reducible exact hk _
    | with_reducible exact ha _ _
    | with_reducible exact hwr _ _ _
    | with_reducible exact hrd _ _ _ _ _ _
    | with_reducible exact CloudProxySet_bProxy _ _ h)

theorem CloudTask_iter_bProxy (g : Globals) (l : TaskLocals) (inp : IterInputs)
    (h : g.g_bProxy = true) : (CloudTask_iter g l inp).1.g_bProxy = true := by
  unfold CloudTask_iter
  simp only
  rw [CloudTask_check_bProxy]
  exact CloudTask_switch_bProxy _ _ inp ((CloudTask_pend_bProxy g l inp).trans h)

theorem Cmd_proxy_help (env : ConsoleEnv) (argc : Nat) (argv : List (List Char)) (s : Console)
    (h : argc ≠ 3) :
    (Cmd_proxy env argc argv s).1 = CMDLINE_SUCCESS
    ∧ (Cmd_proxy env argc argv s).2.posted = s.posted
    ∧ (Cmd_proxy env argc argv s).2.g = s.g := by
  unfold Cmd_proxy
  rw [if_neg h]
  exact ⟨rfl, rfl, rfl⟩

/-- C25 fails on the code: `Cmd_proxy` acts on three arguments only.  Called
with any other number of arguments, as by the line `proxy off`, it prints the
help text, which says that `proxy off` disables the proxy, posts no request
and changes no global resource; and no iteration of the loop of `CloudTask`
clears the proxy flag, whatever it receives.  So after `proxy off` the proxy
flag is still set. -/
theorem proxy_off_keeps_proxy (env : ConsoleEnv) (s : Console) :
    (∀ (argc : Nat) (argv : List (List Char)), argc ≠ 3 →
      (Cmd_proxy env argc argv s).2.posted = s.posted ∧ (Cmd_proxy env argc argv s).2.g = s.g)
    ∧ (cstr s.g_pcRxBuf = "proxy off".toList →
      (CmdLineProcess env s).1 = CMDLINE_SUCCESS
      ∧ (CmdLineProcess env s).2.posted = s.posted
      ∧ (CmdLineProcess env s).2.g = s.g)
    ∧ (∀ (g : Globals) (l : TaskLocals) (inp : IterInputs), g.g_bProxy = true →
      (CloudTask_iter g l inp).1.g_bProxy = true) := by
  refine ⟨fun argc argv h => (Cmd_proxy_help env argc argv s h).2, ?_,
    fun g l inp h => CloudTask_iter_bProxy g l inp h⟩
  intro hline
  have hruns : runs (cstr s.g_pcRxBuf) = ["proxy".toList, "off".toList] := by
    rw [hline]
    decide
  have heq := CmdLineProcess_eq env s (by rw [hruns]; decide)
  rw [hruns] at heq
  rw [if_pos (by decide)] at heq
  have htbl : g_psCmdTable = g_psCmdTable.take 10
      ++ { pcCmd := "proxy".toList, pfnCmd := Cmd_proxy,
           pcHelp := ": Set or disable a HTTP proxy server.".toList }
        :: g_psCmdTable.drop 11 := rfl
  rw [htbl, CmdLineProcess_lookup_first env _ _ _ _ _ (by decide) _ (by decide)] at heq
  rw [heq]
  exact Cmd_proxy_help env 2 ["proxy".toList, "off".toList]
    { s with g_pcRxBuf := splitBuffer s.g_pcRxBuf } (by decide)

set_option maxRecDepth 8000 in
/-- C25, failing input: the line `proxy off` typed on a board whose proxy flag
is set.  No request is posted, and the proxy flag is still set after the next
iteration of the loop of `CloudTask`. -/
theorem proxy_off_keeps_proxy_witness :
    proxiedGlobals.g_bProxy = true
    ∧ (CmdLineProcess sampleEnv
        (withLine (initConsole proxiedGlobals) "proxy off".toList)).2.posted = []
    ∧ (CloudTask_iter
        (CmdLineProcess sampleEnv
          (withLine (initConsole proxiedGlobals) "proxy off".toList)).2.g
        (freshLocals idleCli) quietInputs).1.g_bProxy = true := by
  have h := proxy_off_keeps_proxy sampleEnv
    (withLine (initConsole proxiedGlobals) "proxy off".toList)
  obtain ⟨-, hp, hg⟩ := h.2.1 (by decide)
  refine ⟨rfl, hp, h.2.2 _ _ _ ?_⟩
  rw [hg]
  rfl

/-! ## The ntp command and the loop of the cloud task -/

theorem Cmd_ntp_posts (env : ConsoleEnv) (argv : List (List Char)) (s : Console) :
    ((env.inet_pton (cstr (ntpPayload env (argv.getD 1 [])))).1 = 1 →
      (env.inet_pton (cstr (ntpPayload env (argv.getD 1 [])))).2 ≠ 0 →
      (Cmd_ntp env 2 argv s).2.posted
        = s.posted ++ [{ ui32Request := NTP_Connect, pcBuf := ntpPayload env (argv.getD 1 []) }])
    ∧ ((env.inet_pton (cstr (ntpPayload env (argv.getD 1 [])))).1 ≠ 1 →
      (Cmd_ntp env 2 argv s).2.posted
        = s.posted
          ++ [{ ui32Request := NTP_Resolve_URL, pcBuf := ntpPayload env (argv.getD 1 []) }])
    ∧ ((env.inet_pton (cstr (ntpPayload env (argv.getD 1 [])))).1 = 1 →
      (env.inet_pton (cstr (ntpPayload env (argv.getD 1 [])))).2 = 0 →
      (Cmd_ntp env 2 argv s).2.posted = s.posted) := by
  refine ⟨?_, ?_, ?_⟩
  · intro h1 h2
    unfold Cmd_ntp ntpPayload at *
    simp only [if_true]
    rw [if_pos h1, if_pos h2]
    rfl
  · intro h1
    unfold Cmd_ntp ntpPayload at *
    simp only [if_true]
    rw [if_neg h1]
    rfl
  · intro h1 h2
    unfold Cmd_ntp ntpPayload at *
    simp only [if_true]
    rw [if_pos h1, if_neg (fun hne => hne h2)]
    rfl

theorem CloudTask_pend_some (g : Globals) (l : TaskLocals) (inp : IterInputs) (msg : tMailboxMsg)
    (hp : inp.pend = some msg) :
    CloudTask_pend g l inp
      = (UpdateCloudData { g with g_ui32State := msg.ui32Request },
         { l with sCommandRequest := msg }) := by
  unfold CloudTask_pend
  rw [hp]

/-- C28 fails on the code: the loop of `CloudTask` takes the request code of
every message of the command mailbox as its next state, and the codes of
`Cmd_ntp` are numbers of cloud states: NTP_Connect is 3, Cloud_Proxy_Set, and
NTP_Resolve_URL is 1, Cloud_Activate_CIK.  A message `Cmd_ntp` posts with
NTP_Connect makes the loop run the ProxySet step on the NTP address, which
ends in Cloud_Idle when the address holds no `:`; a message with
NTP_Resolve_URL puts the loop in Cloud_Activate_CIK, and when the board is
connected the iteration runs the activation. -/
theorem Cmd_ntp_request_drives_cloud_task (env : ConsoleEnv) (argv : List (List Char))
    (s : Console) (g : Globals) (l : TaskLocals) (inp : IterInputs) (msg : tMailboxMsg)
    (hposted : (Cmd_ntp env 2 argv s).2.posted = s.posted ++ [msg])
    (hp : inp.pend = some msg) :
    (msg.ui32Request = NTP_Connect ∨ msg.ui32Request = NTP_Resolve_URL)
    ∧ (msg.ui32Request = NTP_Connect →
      (CloudTask_pend g l inp).1.g_ui32State = Cloud_Proxy_Set
      ∧ (':' ∉ cstr msg.pcBuf → l.i32Ret = 0 →
          (CloudTask_iter g l inp).1.g_ui32State = Cloud_Idle))
    ∧ (msg.ui32Request = NTP_Resolve_URL →
      (CloudTask_pend g l inp).1.g_ui32State = Cloud_Activate_CIK
      ∧ (g.g_bServerConnect = true →
          (CloudTask_switch (CloudTask_pend g l inp).1 (CloudTask_pend g l inp).2 inp).2.i32Ret
            = (CloudTask_activation g l inp).1)) := by
  have hpend := CloudTask_pend_some g l inp msg hp
  obtain ⟨us, -, -, uc⟩ := UpdateCloudData_fields { g with g_ui32State := msg.ui32Request }
  refine ⟨?_, ?_, ?_⟩
  · obtain ⟨h1, h2, h3⟩ := Cmd_ntp_posts env argv s
    by_cases ha : (env.inet_pton (cstr (ntpPayload env (argv.getD 1 [])))).1 = 1
    · by_cases hb : (env.inet_pton (cstr (ntpPayload env (argv.getD 1 [])))).2 = 0
      · exfalso
        rw [h3 ha hb] at hposted
        have := congrArg List.length hposted
        simp at this
      · left
        have := (h1 ha hb).symm.trans hposted
        have hm := List.append_cancel_left this
        simp only [List.cons.injEq, and_true] at hm
        rw [← hm]
    · right
      have := (h2 ha).symm.trans hposted
      have hm := List.append_cancel_left this
      simp only [List.cons.injEq, and_true] at hm
      rw [← hm]
  · intro hr
    have hst : (CloudTask_pend g l inp).1.g_ui32State = Cloud_Proxy_Set := by
      rw [hpend]
      exact us.trans hr
    refine ⟨hst, ?_⟩
    intro hc hret
    unfold CloudTask_iter
    simp only
    rw [hpend, CloudTask_switch_proxy _ _ inp (by rw [us]; exact hr),
      CloudProxySet_no_colon _ _ hc]
    exact (CloudTask_check_zero_fields _ _ hret).1
  · intro hr
    have hst : (CloudTask_pend g l inp).1.g_ui32State = Cloud_Activate_CIK := by
      rw [hpend]
      exact us.trans hr
    refine ⟨hst, ?_⟩
    intro hconn
    have hc2 : (CloudTask_pend g l inp).1.g_bServerConnect = true := by
      rw [hpend]
      exact uc.trans hconn
    unfold CloudTask_activation
    generalize CloudTask_pend g l inp = p at hst hc2 ⊢
    obtain ⟨g0, l0⟩ := p
    simp only at hst hc2 ⊢
    unfold CloudTask_switch
    rw [if_neg (by rw [hst]; decide), if_pos hst, if_neg (by simp [hc2])]
    simp only
    split <;> rfl

set_option maxRecDepth 8000 in
/-- C28, failing input: the lines `ntp 192.168.1.1` and `ntp time.nist.gov`
typed while the cloud task is in Cloud_Sync.  The message of the first ends
the iteration that receives it in Cloud_Idle; the message of the second makes
that iteration send the activation request. -/
theorem Cmd_ntp_request_drives_cloud_task_witness :
    (CmdLineProcess sampleEnv
      (withLine (initConsole syncGlobals) "ntp 192.168.1.1".toList)).2.posted
      = [ntpMsg NTP_Connect "192.168.1.1".toList]
    ∧ syncGlobals.g_ui32State = Cloud_Sync
    ∧ (CloudTask_iter syncGlobals (freshLocals idleCli)
        (pendInputs (ntpMsg NTP_Connect "192.168.1.1".toList))).1.g_ui32State = Cloud_Idle
    ∧ (CmdLineProcess sampleEnv
      (withLine (initConsole syncGlobals) "ntp time.nist.gov".toList)).2.posted
      = [ntpMsg NTP_Resolve_URL "time.nist.gov".toList]
    ∧ (CloudTask_iter syncGlobals (freshLocals { idleCli with connect := [0] })
        (pendInputs (ntpMsg NTP_Resolve_URL "time.nist.gov".toList))).2.cli.sent.head?
      = some (HTTPCall.sendRequest "POST" PROVISION_URI) := by
  have h := (Cmd_ntp_request_drives_cloud_task sampleEnv ["ntp".toList, "192.168.1.1".toList]
    (initConsole syncGlobals) syncGlobals (freshLocals idleCli)
    (pendInputs (ntpMsg NTP_Connect "192.168.1.1".toList))
    (ntpMsg NTP_Connect "192.168.1.1".toList) (by decide) rfl).2.1 rfl
  exact ⟨by decide, rfl, h.2 (by decide) rfl, by decide, by decide⟩

/-! ## The outbound body and the end of its buffer -/

theorem GetRequestBody_fst_alert (g : Globals) (hw : BoardInputs) (pcDataBuf : List Char)
    (n : Nat) (h : g.g_eAlertRW = READ_WRITE ∨ g.g_eAlertRW = WRITE_ONLY) :
    (GetRequestBody g hw pcDataBuf n).1
      = (snprintf_at (GetRequestBody_before_alert g hw pcDataBuf n) n
          ("&alert=".toList ++ cstr g.g_pcAlert)).1 := by
  have h2 : (ReadOnTime g hw.ticks).2.g_eAlertRW = READ_WRITE
      ∨ (ReadOnTime g hw.ticks).2.g_eAlertRW = WRITE_ONLY := h
  unfold GetRequestBody GetRequestBody_before_alert GetRequestBody_fill
  simp only
  have hnone : ¬ (NONE = READ_WRITE ∨ NONE = WRITE_ONLY) := by decide
  rw [if_neg hnone]
  exact congrArg Prod.fst (if_pos h2)

theorem snprintf_at_past (st : List Char × Nat) (n : Nat) (s : List Char)
    (hn : n < st.2) (h32 : st.2 + s.length < 2 ^ 32) (hs : s.length < 2 ^ 31) :
    (snprintf_at st n s).1 = writeAt st.1 st.2 (s ++ [NUL]) := by
  have hsize : u32sub n st.2 = 2 ^ 32 + n - st.2 := by
    unfold u32sub
    omega
  unfold snprintf_at snprintf
  simp only [hsize]
  rw [if_neg (by omega), List.take_of_length_le (by omega)]

/-- C26 fails on the code: `snprintf` returns the length of the text it was to
write, so the running length `ui32DataLen` of `GetRequestBody` goes above the
buffer length when the body does not fit; the size `ui32DataBufLen -
ui32DataLen` given to the next `snprintf` then wraps around and that call
writes its whole text at the offset `ui32DataLen`, past the buffer.  For every
state in which the alert is to be sent and the running length before the
alert is above the buffer length, the alert segment and its terminator are
written at that offset. -/
theorem GetRequestBody_writes_past_buffer (g : Globals) (hw : BoardInputs)
    (pcDataBuf : List Char) (n : Nat)
    (halert : g.g_eAlertRW = READ_WRITE ∨ g.g_eAlertRW = WRITE_ONLY)
    (hover : n < (GetRequestBody_before_alert g hw pcDataBuf n).2)
    (h32 : (GetRequestBody_before_alert g hw pcDataBuf n).2 + (cstr g.g_pcAlert).length + 7
      < 2 ^ 31) :
    (GetRequestBody g hw pcDataBuf n).1
      = writeAt (GetRequestBody_before_alert g hw pcDataBuf n).1
          (GetRequestBody_before_alert g hw pcDataBuf n).2
          ("&alert=".toList ++ cstr g.g_pcAlert ++ [NUL]) := by
  have hl : ("&alert=".toList ++ cstr g.g_pcAlert).length = (cstr g.g_pcAlert).length + 7 := by
    simp only [List.length_append]
    have : "&alert=".toList.length = 7 := by decide
    omega
  rw [GetRequestBody_fst_alert g hw pcDataBuf n halert,
    snprintf_at_past _ n _ hover (by omega) (by omega)]

set_option maxRecDepth 16000 in
/-- C26, failing input: after the command lines `setemail` with an address of
72 characters and `alert 0`, the running length before the alert is 140, and
the call of `GetRequestBody` that `ExositeWrite` makes on its buffer of 128
bytes writes `&alert=Hello World!!` and a terminator at the offsets 140 to
160. -/
theorem GetRequestBody_writes_past_buffer_witness :
    (GetRequestBody_before_alert afterEmailAndAlert.g quietInputs.hw
      (List.replicate 128 NUL) 128).2 = 140
    ∧ (GetRequestBody afterEmailAndAlert.g quietInputs.hw (List.replicate 128 NUL) 128).1.length
      = 161
    ∧ (GetRequestBody afterEmailAndAlert.g quietInputs.hw (List.replicate 128 NUL) 128).1.drop 140
      = "&alert=Hello World!!".toList ++ [NUL] := by
  have h := GetRequestBody_writes_past_buffer afterEmailAndAlert.g quietInputs.hw
    (List.replicate 128 NUL) 128 (by decide) (by decide) (by decide)
  refine ⟨by decide, ?_, ?_⟩
  · rw [h]
    decide
  · rw [h]
    decide

end SecureIot
